import Mathlib

/-!
# Signal push gateway: digest cache, request authenticator and client pools

A shallow embedding of the Go sources

* `src/database/database.go`  (`Cache`, `LoadAPIKeys`, `GetTenantIDByDigest`, `GetAPIKey`),
* `src/middleware/auth_digest.go`  (`AuthMiddleware`, `GetTenantID`),
* `src/services/apns.go`, `src/services/fcm.go`  (`getOrCreateClient`, `SendPush`,
  `CleanupOldClients`),
* `src/handlers/push_apns.go`, `src/handlers/push_fcm.go`,

followed by theorems about them.

Conventions of the embedding.

* A Go `map[string]V` is a finite association list without duplicate keys (`GoMap V`).
* An instant is an integer number of nanoseconds since the Unix epoch, UTC; every
  `time.Now()` of the source is an explicit clock-reading argument.
* `crypto/md5` followed by `fmt.Sprintf("%x", ..)` is a parameter `hash : String → String`;
  what is proved holds for every such function.
* The relational store, the blob store and the push backends are explicit arguments; the
  calls a service makes to them are recorded, in order, in a ghost field `calls`.
* Locks and `log.Printf` are not modelled: every operation is one atomic step.
-/

set_option linter.dupNamespace false

namespace Signal

/-! ## Go maps -/

/-- A Go `map[string]V`: finitely many entries, at most one per key. -/
abbrev GoMap (V : Type) := AList (fun _ : String => V)

namespace GoMap

/-- The expression `m[k]` with the comma-ok flag: `some v` when the key is present. -/
def get? {V : Type} (m : GoMap V) (k : String) : Option V := AList.lookup k m

/-- The statement `m[k] = v`. -/
def set {V : Type} (m : GoMap V) (k : String) (v : V) : GoMap V := AList.insert k v m

/-- The statement `delete(m, k)`. -/
def delete {V : Type} (m : GoMap V) (k : String) : GoMap V := AList.erase k m

/-- The expression `len(m)`. -/
def len {V : Type} (m : GoMap V) : Nat := m.entries.length

/-- The expression `make(map[string]V)`. -/
def make (V : Type) : GoMap V := ∅

/-- The entries a `range` loop visits on a map variable that may be the nil map
(`none`): none for the nil map. -/
def rangeOf {V : Type} (m : Option (GoMap V)) : List (Σ _ : String, V) :=
  match m with
  | none => []
  | some m => m.entries

/-- The lookup `v, ok := m[k]` on a map variable that may be the nil map (`none`): the
nil map holds no key. -/
def read {V : Type} (m : Option (GoMap V)) (k : String) : Option V :=
  match m with
  | none => none
  | some m => m.get? k

end GoMap

/-! ## Time and the hour bucket -/

/-- An instant: nanoseconds since 1970-01-01T00:00:00Z. -/
abbrev Time := Int

/-- The duration `time.Hour`, in nanoseconds. -/
def Hour : Int := 3600000000000

/-- Decimal digits of a natural number, most significant first (`0` gives `"0"`). -/
def digits (n : Nat) : List Char := Nat.toDigits 10 n

/-- Go's `appendInt(b, x, width)` of package `time`: the decimal rendering of `x`,
zero-padded on the left to at least `width` digits, with a leading minus sign when `x` is
negative. -/
def appendInt (x : Int) (width : Nat) : String :=
  let ds := digits x.natAbs
  let padded := List.replicate (width - ds.length) '0' ++ ds
  if x < 0 then String.mk ('-' :: padded) else String.mk padded

/-- Whole seconds since the epoch (rounded towards minus infinity). -/
def unixSeconds (t : Time) : Int := t / 1000000000

/-- Whole days since the epoch (rounded towards minus infinity). -/
def unixDays (t : Time) : Int := unixSeconds t / 86400

/-- Hour of the UTC day, `0..23`. -/
def hourOfDay (t : Time) : Int := (unixSeconds t % 86400) / 3600

/-- Proleptic Gregorian civil date `(year, month, day)` of a day number counted from
1970-01-01, as `Time.UTC().Date()` computes it. -/
def civilFromDays (days : Int) : Int × Int × Int :=
  let z := days + 719468
  let era := z / 146097
  let doe := z % 146097
  let yoe := (doe - doe / 1460 + doe / 36524 - doe / 146096) / 365
  let y := yoe + era * 400
  let doy := doe - (365 * yoe + yoe / 4 - yoe / 100)
  let mp := (5 * doy + 2) / 153
  let d := doy - (153 * mp + 2) / 5 + 1
  let m := if mp < 10 then mp + 3 else mp - 9
  (if m ≤ 2 then y + 1 else y, m, d)

/-- The date part `YYYY-MM-DD-` of the hour bucket. -/
def dateFields (t : Time) : String :=
  let ymd := civilFromDays (unixDays t)
  appendInt ymd.1 4 ++ "-" ++ appendInt ymd.2.1 2 ++ "-" ++ appendInt ymd.2.2 2 ++ "-"

/-- The call `t.UTC().Format("2006-01-02-15")`: year, month, day and hour of the UTC
instant, as `YYYY-MM-DD-HH`. -/
def hourBucket (t : Time) : String := dateFields t ++ appendInt (hourOfDay t) 2

/-! ## The relational store -/

/-- A row of table `api_keys` (`models.APIKey`); `CreatedAt` is not used by the code
embedded here. -/
structure APIKey where
  ID : Nat
  TenantID : String
  Label : String
  APIKey : String
  Disabled : Bool
  deriving DecidableEq, Repr

/-- A row of table `apns_configs` (`models.APNSConfig`). -/
structure APNSConfig where
  ID : Nat
  TenantID : String
  TeamID : String
  KeyID : String
  BundleID : String
  Environment : String
  Active : Bool
  deriving DecidableEq, Repr

/-- A row of table `fcm_configs` (`models.FCMConfig`). -/
structure FCMConfig where
  ID : Nat
  TenantID : String
  ProjectID : String
  ServiceAccount : String
  Active : Bool
  deriving DecidableEq, Repr

/-- A row of table `tenants` (`models.Tenant`), without its timestamps. -/
structure Tenant where
  ID : Nat
  TenantID : String
  Name : String
  Description : String
  Active : Bool
  deriving DecidableEq, Repr

/-- A row of table `device_tokens` (`models.DeviceToken`), without its timestamps. -/
structure DeviceToken where
  ID : Nat
  TenantID : String
  DeviceToken : String
  UserID : String
  Platform : String
  deriving DecidableEq, Repr

/-- The relational store behind `*gorm.DB`. `failure = some e` is a store on which every
query fails with error `e` (unreachable, timed out). Tables are lists of rows in
primary-key order. -/
structure Store where
  failure : Option String
  api_keys : List APIKey
  apns_configs : List APNSConfig
  fcm_configs : List FCMConfig
  tenants : List Tenant := []
  device_tokens : List DeviceToken := []

namespace Store

/-- The rows of `api_keys` with `disabled = false`, in table order. -/
def enabledKeys (db : Store) : List APIKey := db.api_keys.filter (fun k => !k.Disabled)

/-- The query `db.Where("disabled = ?", false).Find(&apiKeys)`. -/
def findEnabledAPIKeys (db : Store) : Except String (List APIKey) :=
  match db.failure with
  | some e => .error e
  | none => .ok db.enabledKeys

/-- The query `db.Where("tenant_id = ? AND active = ?", tenantID, true).First(&config)`
on the APNS table; no row is gorm's `record not found`. -/
def firstActiveAPNSConfig (db : Store) (tenantID : String) : Except String APNSConfig :=
  match db.failure with
  | some e => .error e
  | none =>
    match db.apns_configs.find? (fun c => c.TenantID == tenantID && c.Active) with
    | some c => .ok c
    | none => .error "record not found"

/-- The query `db.Where("tenant_id = ? AND active = ?", tenantID, true).First(&config)`
on the FCM table. -/
def firstActiveFCMConfig (db : Store) (tenantID : String) : Except String FCMConfig :=
  match db.failure with
  | some e => .error e
  | none =>
    match db.fcm_configs.find? (fun c => c.TenantID == tenantID && c.Active) with
    | some c => .ok c
    | none => .error "record not found"

/-- The function `models.GetTenantByID`: the query
`db.Where("tenant_id = ?", tenantID).First(&tenant)`. -/
def GetTenantByID (db : Store) (tenantID : String) : Except String Tenant :=
  match db.failure with
  | some e => .error e
  | none =>
    match db.tenants.find? (fun t => t.TenantID == tenantID) with
    | some t => .ok t
    | none => .error "record not found"

/-- The condition `tenant_id = ? AND user_id = ? AND platform = ?` on a device row. -/
def sameTriple (tenantID userID platform : String) (d : DeviceToken) : Bool :=
  d.TenantID == tenantID && d.UserID == userID && d.Platform == platform

/-- Replace the first element satisfying `p` by its image under `f`. -/
def updateFirst {α : Type} (p : α → Bool) (f : α → α) : List α → List α
  | [] => []
  | a :: l => if p a then f a :: l else a :: updateFirst p f l

/-- The primary key the next inserted device row gets. -/
def nextDeviceID (rows : List DeviceToken) : Nat :=
  (rows.map (fun d => d.ID)).foldl max 0 + 1

/-- The columns gorm updates from the struct passed to `Assign`: its non-zero fields. -/
def assignNonZero (assign row : DeviceToken) : DeviceToken :=
  { row with
    TenantID := if assign.TenantID = "" then row.TenantID else assign.TenantID
    DeviceToken := if assign.DeviceToken = "" then row.DeviceToken else assign.DeviceToken
    UserID := if assign.UserID = "" then row.UserID else assign.UserID
    Platform := if assign.Platform = "" then row.Platform else assign.Platform }

/-- The gorm chain
`db.Where("tenant_id = ? AND user_id = ? AND platform = ?", ..).Assign(v).FirstOrCreate(&v)`
on table `device_tokens`: the first matching row in primary-key order is looked up; when
there is one, that row (and no other: the update is restricted to its primary key) gets
the non-zero fields of `v`; when there is none, `v` is inserted under a new primary key.
Returns the store afterwards and the row saved, or the error. -/
def firstOrCreateDeviceToken (db : Store) (tenantID userID platform : String)
    (v : DeviceToken) : Store × Except String DeviceToken :=
  match db.failure with
  | some e => (db, .error e)
  | none =>
    match db.device_tokens.find? (sameTriple tenantID userID platform) with
    | some found =>
      let rows := updateFirst (sameTriple tenantID userID platform) (assignNonZero v)
        db.device_tokens
      ({ db with device_tokens := rows }, .ok (assignNonZero v found))
    | none =>
      let created := { v with ID := nextDeviceID db.device_tokens }
      ({ db with device_tokens := db.device_tokens ++ [created] }, .ok created)

end Store

/-! ## The auth digest cache (`database.go`) -/

/-- The struct `Cache`: `tenants` maps tenant ID to API key, `digests` maps digest to
tenant ID. -/
structure Cache where
  tenants : GoMap String
  digests : GoMap String

/-- The constructor `NewCache`. -/
def NewCache : Cache := { tenants := GoMap.make String, digests := GoMap.make String }

namespace Cache

/-- One iteration of the loop of `LoadAPIKeys` for record `key`. -/
def loadOne (hash : String → String) (currentHour nextHour : String) (c : Cache)
    (key : APIKey) : Cache :=
  let tenants := c.tenants.set key.TenantID key.APIKey
  let digest := hash (key.APIKey ++ currentHour)
  let digests := c.digests.set digest key.TenantID
  let digestNext := hash (key.APIKey ++ nextHour)
  let digests := digests.set digestNext key.TenantID
  { tenants := tenants, digests := digests }

/-- The method `LoadAPIKeys`. `now1` and `now2` are the readings of its two `time.Now()`
calls, in program order. Returns the cache after the call and the error (`none` is
`nil`). -/
def LoadAPIKeys (hash : String → String) (db : Store) (now1 now2 : Time) (c : Cache) :
    Cache × Option String :=
  match db.findEnabledAPIKeys with
  | .error err => (c, some ("failed to load API keys: " ++ err))
  | .ok apiKeys =>
    let cleared : Cache := { tenants := GoMap.make String, digests := GoMap.make String }
    let currentHour := hourBucket now1
    let nextHour := hourBucket (now2 + Hour)
    (apiKeys.foldl (loadOne hash currentHour nextHour) cleared, none)

/-- The method `GetAPIKey`: the key and the comma-ok flag, as an option. -/
def GetAPIKey (c : Cache) (tenantID : String) : Option String := c.tenants.get? tenantID

/-- The method `GetTenantIDByDigest`: the tenant ID, or the empty string when the digest
is not in the index. -/
def GetTenantIDByDigest (c : Cache) (digest : String) : String :=
  (c.digests.get? digest).getD ""

end Cache

/-! ## The type `float64` and its default rendering (`strconv`, `fmt`) -/

/-- A `float64` value: the sign bit, the 11 exponent bits and the 52 fraction bits of its
IEEE 754 binary64 representation. -/
structure Float64 where
  sign : Bool
  exponent : Nat
  fraction : Nat
  deriving DecidableEq, Repr

namespace Float64

/-- The integer mantissa: the fraction bits, with the implicit leading bit of a normal
number. -/
def mant (f : Float64) : Nat :=
  if f.exponent = 0 then f.fraction else 2 ^ 52 + f.fraction

/-- The power of two the mantissa is scaled by: the value is `mant * 2 ^ exp2`. -/
def exp2 (f : Float64) : Int :=
  if f.exponent = 0 then -1074 else (f.exponent : Int) - 1075

end Float64

/-- Decimal digits without their trailing zeros. -/
def trimZeros (ds : List Char) : List Char :=
  (ds.reverse.dropWhile (fun c => c == '0')).reverse

/-- The walk of `roundShortest` in `strconv`: from the decimal position `k` downwards,
stop at the first position where the value cut off there (`q` units of `10 ^ k`), or
that plus one unit, lies within the bounds `lo` and `hi`, which count only when
`inclusive`; when both do, take the one nearer to the value, the even one on a tie. The
numbers `lo`, `v`, `hi` are numerators over the common denominator `den`. Returns the
digits kept, as a number, and the position. -/
def shortestWalk (inclusive : Bool) (lo v hi den : Nat) : Nat → Int → Nat × Int
  | 0, k => (0, k)
  | fuel + 1, k =>
    let scale := 10 ^ (-k).toNat
    let unit := den * 10 ^ k.toNat
    let q := (v * scale) / unit
    let down := q * unit
    let up := (q + 1) * unit
    let okdown := decide (lo * scale < down) || (inclusive && decide (lo * scale = down))
    let okup := decide (up < hi * scale) || (inclusive && decide (up = hi * scale))
    let rem := v * scale - down
    let roundUp := decide (unit < 2 * rem) || (decide (2 * rem = unit) && decide (q % 2 = 1))
    if okdown && okup then (if roundUp then q + 1 else q, k)
    else if okdown then (q, k)
    else if okup then (q + 1, k)
    else shortestWalk inclusive lo v hi den fuel (k - 1)

/-- The function `roundShortest` of `strconv` for a finite non-zero `float64`: the
shortest decimal digits that identify it, without trailing zeros, and the position `dp`
of the decimal point, the digits `d₁d₂…` standing for `0.d₁d₂… × 10 ^ dp`. The bounds
are the midpoints to the neighbouring `float64` values, and they count when the
mantissa is even. -/
def roundShortest (f : Float64) : List Char × Int :=
  let m := f.mant
  let t := f.exp2 - 2
  let num := 2 ^ t.toNat
  let den := 2 ^ (-t).toNat
  let v := 4 * m * num
  let hi := (4 * m + 2) * num
  let lo := if f.fraction ≠ 0 ∨ f.exponent ≤ 1 then (4 * m - 2) * num else (4 * m - 1) * num
  let start : Int :=
    if den ≤ hi then ((Nat.toDigits 10 (hi / den)).length : Int)
    else 1 - ((Nat.toDigits 10 (den / hi)).length : Int)
  let (x, k) := shortestWalk (m % 2 == 0) lo v hi den 40 start
  let ds := Nat.toDigits 10 x
  (trimZeros ds, (ds.length : Int) + k)

/-- The exponent part of `%e`: a sign and at least two digits. -/
def fmtExponent (exp : Int) : List Char :=
  (if exp < 0 then '-' else '+') ::
    (if exp.natAbs < 10 then '0' :: Nat.toDigits 10 exp.natAbs else Nat.toDigits 10 exp.natAbs)

/-- The function `fmtE` of `strconv`, printing all the digits `ds`. -/
def fmtE (ds : List Char) (dp : Int) : List Char :=
  match ds with
  | [] => '0' :: 'e' :: fmtExponent 0
  | d :: rest =>
    (d :: (if rest = [] then [] else '.' :: rest)) ++ 'e' :: fmtExponent (dp - 1)

/-- The function `fmtF` of `strconv`, printing all the digits `ds`. -/
def fmtF (ds : List Char) (dp : Int) : List Char :=
  let intPart :=
    if 0 < dp then ds.take dp.toNat ++ List.replicate (dp.toNat - ds.length) '0' else ['0']
  let fracPart :=
    if dp < (ds.length : Int) then
      '.' :: (List.replicate (-dp).toNat '0' ++ ds.drop dp.toNat)
    else []
  intPart ++ fracPart

/-- The call `strconv.FormatFloat(f, 'g', -1, 64)`, which is what `fmt` prints for a
`float64` under `%v`: the shortest digits that identify the value, in the `%e` form when
the decimal exponent is below `-4` or at least `6`, in the `%f` form otherwise. -/
def FormatFloat (f : Float64) : String :=
  if f.exponent ≥ 2047 then
    if f.fraction ≠ 0 then "NaN" else if f.sign then "-Inf" else "+Inf"
  else
    let body :=
      if f.mant = 0 then ['0']
      else
        let (ds, dp) := roundShortest f
        if dp - 1 < -4 ∨ dp - 1 ≥ 6 then fmtE ds dp else fmtF ds dp
    String.mk (if f.sign then '-' :: body else body)

/-- The order of Go strings (byte-wise, which is the order of the code points). -/
def charsLess : List Char → List Char → Bool
  | _, [] => false
  | [], _ :: _ => true
  | a :: as, b :: bs => a.toNat < b.toNat || (a.toNat == b.toNat && charsLess as bs)

/-- Insert a pair into a list of pairs sorted by key. -/
def insertByKey {α : Type} (kv : String × α) : List (String × α) → List (String × α)
  | [] => [kv]
  | x :: rest =>
    if charsLess kv.1.data x.1.data then kv :: x :: rest else x :: insertByKey kv rest

/-- The pairs sorted by key, as `fmt` orders the keys of a map before printing it. -/
def sortByKey {α : Type} (l : List (String × α)) : List (String × α) :=
  l.foldr insertByKey []

/-- The strings separated by single spaces. -/
def joinSpace : List String → String
  | [] => ""
  | [s] => s
  | s :: rest => s ++ " " ++ joinSpace rest

/-! ## HTTP requests and responses -/

/-- A value of type `interface{}` as `encoding/json` decodes one: `nil`, a `bool`, a
`float64`, a `string`, a `[]interface{}` or a `map[string]interface{}`, the last as the
list of its entries. -/
inductive DataValue where
  | null
  | bool (b : Bool)
  | number (f : Float64)
  | str (s : String)
  | array (items : List DataValue)
  | object (members : List (String × DataValue))

/-- The structs `APNSPushRequest` and `FCMPushRequest`, which have the same fields;
`Data` is the nil map (`none`) when the field is absent. -/
structure PushRequest where
  UserID : String
  DeviceToken : String
  Title : String
  Body : String
  Data : Option (GoMap DataValue)

/-- The struct `RegisterRequest`: the decoded JSON body of a registration. -/
structure RegisterRequest where
  DeviceToken : String
  UserID : String
  Platform : String
  deriving DecidableEq, Repr

/-- The part of `*http.Request` the code reads. `Body` is what
`json.NewDecoder(r.Body).Decode(&req)` yields in a push handler, `none` when decoding
fails (`DecodePushRequest` computes it from the bytes of a body); `tenantID` is the value stored in the request context under `tenantIDKey`, if
any; `RegisterBody` is what the same decoding yields in `RegisterHandler`. -/
structure Request where
  Method : String
  Header : List (String × String)
  Body : Option PushRequest
  tenantID : Option String
  RegisterBody : Option RegisterRequest := none

/-- The call `r.Header.Get(key)`: the first value of the header, or the empty string. -/
def Request.HeaderGet (r : Request) (key : String) : String :=
  ((r.Header.find? (fun kv => kv.1 == key)).map Prod.snd).getD ""

/-- The call `r.WithContext(context.WithValue(r.Context(), tenantIDKey, tenantID))`. -/
def Request.WithTenantID (r : Request) (tenantID : String) : Request :=
  { r with tenantID := some tenantID }

/-- What a handler wrote: plain text (by `http.Error`) or the JSON success document. -/
inductive Written where
  | text (s : String)
  | successJSON (message tenant : String)
  | registeredJSON (message : String) (id : Nat) (tenant : String)
  deriving DecidableEq, Repr

/-- The state of an `http.ResponseWriter`: the status code (`0` while no header has been
written), the content type, and what was written to the body, in order. -/
structure ResponseWriter where
  status : Nat
  contentType : String
  body : List Written
  deriving DecidableEq, Repr

/-- A writer nothing has been written to. -/
def ResponseWriter.fresh : ResponseWriter := { status := 0, contentType := "", body := [] }

/-- The call `w.WriteHeader(code)`; only the first one takes effect. -/
def ResponseWriter.WriteHeader (w : ResponseWriter) (code : Nat) : ResponseWriter :=
  if w.status = 0 then { w with status := code } else w

/-- The call `http.Error(w, msg, code)`. -/
def httpError (w : ResponseWriter) (msg : String) (code : Nat) : ResponseWriter :=
  let w := { w with contentType := "text/plain; charset=utf-8" }
  let w := w.WriteHeader code
  { w with body := w.body ++ [Written.text (msg ++ "\n")] }

def StatusOK : Nat := 200
def StatusBadRequest : Nat := 400
def StatusUnauthorized : Nat := 401
def StatusForbidden : Nat := 403
def StatusMethodNotAllowed : Nat := 405
def StatusInternalServerError : Nat := 500

/-! ## External collaborators of the push services -/

/-- The parsed signing key, `*ecdsa.PrivateKey`. -/
structure PrivateKey where
  D : Nat
  deriving DecidableEq, Repr

/-- The endpoint an `apns2.Client` talks to. -/
inductive APNSHost where
  | development
  | production
  deriving DecidableEq, Repr

/-- The token-based `apns2.Client`. -/
structure APNS2Client where
  AuthKey : PrivateKey
  KeyID : String
  TeamID : String
  Host : APNSHost
  deriving DecidableEq, Repr

/-- The struct `apns2.Notification`, as `SendPush` fills it. -/
structure Notification where
  DeviceToken : String
  Topic : String
  Payload : String
  deriving DecidableEq, Repr

/-- The struct `apns2.Response`. -/
structure APNSResponse where
  StatusCode : Nat
  Reason : String
  deriving DecidableEq, Repr

/-- The method `Response.Sent`. -/
def APNSResponse.Sent (r : APNSResponse) : Bool := r.StatusCode == 200

/-- The Firebase app built from a service-account document. -/
structure FirebaseApp where
  credentialsJSON : String
  deriving DecidableEq, Repr

/-- The `messaging.Client` of a Firebase app. -/
structure MessagingClient where
  app : FirebaseApp
  deriving DecidableEq, Repr

/-- The struct `messaging.Message`, as `SendPush` fills it. -/
structure Message where
  Token : String
  Title : String
  Body : String
  Data : Option (GoMap String)
  AndroidSound : String
  APNSSound : String

/-- The behaviour of everything outside the process during one operation: blob store,
local file system, key parser and the two push backends. An `Option String` result is a
Go `error` (`none` is `nil`). -/
structure Env where
  s3GetObject : String → Except String String
  osMkdirAll : String → Option String
  osCreate : String → Option String
  ioCopy : String → String → Option String
  ioReadAll : String → Except String String
  authKeyFromFile : String → Except String PrivateKey
  apnsPush : APNS2Client → Notification → Except String APNSResponse
  firebaseNewApp : String → Except String FirebaseApp
  appMessaging : FirebaseApp → Except String MessagingClient
  fcmSend : MessagingClient → Message → Except String String

/-- A call made to an external collaborator (ghost record, appended in program order). -/
inductive Call where
  | dbFirstAPNSConfig (tenantID : String)
  | dbFirstFCMConfig (tenantID : String)
  | s3DownloadFile (key localPath : String)
  | s3GetFileContent (key : String)
  | authKeyFromFile (localPath : String)
  | newTokenClient (keyID teamID : String)
  | firebaseNewApp
  | appMessaging
  | osRemove (localPath : String)
  | apnsPush (client : APNS2Client) (n : Notification)
  | fcmSend (client : MessagingClient) (token : String)
  deriving DecidableEq, Repr

/-- The calls of one client build: configuration lookup, credential fetch, or client
construction. -/
def Call.isBuildStep : Call → Bool
  | .dbFirstAPNSConfig _ => true
  | .dbFirstFCMConfig _ => true
  | .s3DownloadFile _ _ => true
  | .s3GetFileContent _ => true
  | .authKeyFromFile _ => true
  | .newTokenClient _ _ => true
  | .firebaseNewApp => true
  | .appMessaging => true
  | _ => false

/-- The elements of a path between its slashes. -/
def splitSlash : List Char → List (List Char)
  | [] => [[]]
  | c :: rest =>
    match splitSlash rest with
    | [] => [[]]
    | seg :: segs => if c = '/' then [] :: seg :: segs else (c :: seg) :: segs

/-- The function `filepath.Clean` (Unix): empty and `.` elements are dropped, a `..`
element removes the element before it, or is dropped at the root, or stays at the start
of a relative path; the empty result is `.`. -/
def filepathClean (path : String) : String :=
  let rooted := path.data.head? = some '/'
  let elems := (splitSlash path.data).filter (fun e => decide (e ≠ []) && decide (e ≠ ['.']))
  let kept := elems.foldl (fun st e =>
    if e = ['.', '.'] then
      if st ≠ [] ∧ st.getLast? ≠ some ['.', '.'] then st.dropLast
      else if rooted then st else st ++ [e]
    else st ++ [e]) []
  let joined : List Char :=
    match kept with
    | [] => []
    | e :: rest => rest.foldl (fun acc x => acc ++ '/' :: x) e
  if rooted then String.mk ('/' :: joined)
  else if joined = [] then "." else String.mk joined

/-- The function `filepath.Join`: the non-empty elements joined by slashes, cleaned. -/
def filepathJoin (elems : List String) : String :=
  match elems.filter (fun e => e ≠ "") with
  | [] => ""
  | e :: rest => filepathClean (rest.foldl (fun acc x => acc ++ "/" ++ x) e)

/-- The function `filepath.Dir`: the path up to its last slash, cleaned. -/
def filepathDir (path : String) : String :=
  filepathClean (String.mk (path.data.reverse.dropWhile (fun c => c != '/')).reverse)

/-- The method `S3Service.DownloadFile` (`storage/s3.go`). -/
def DownloadFile (env : Env) (key localPath : String) : Option String :=
  match env.osMkdirAll (filepathDir localPath) with
  | some err => some ("failed to create directory: " ++ err)
  | none =>
    match env.s3GetObject key with
    | .error err => some ("failed to download file from S3: " ++ err)
    | .ok objectBody =>
      match env.osCreate localPath with
      | some err => some ("failed to create local file: " ++ err)
      | none =>
        match env.ioCopy localPath objectBody with
        | some err => some ("failed to write file: " ++ err)
        | none => none

/-- The method `S3Service.GetFileContent` (`storage/s3.go`). -/
def GetFileContent (env : Env) (key : String) : Except String String :=
  match env.s3GetObject key with
  | .error err => .error ("failed to download file from S3: " ++ err)
  | .ok objectBody =>
    match env.ioReadAll objectBody with
    | .error err => .error ("failed to read file content: " ++ err)
    | .ok data => .ok data

/-! ## The APNS service (`services/apns.go`) -/

/-- The struct `APNSClient`: a pooled client, the configuration it was built from and
its last-used timestamp. -/
structure APNSClient where
  Client : APNS2Client
  Config : APNSConfig
  LastUsed : Time
  PrivateKey : PrivateKey
  deriving DecidableEq, Repr

/-- The struct `APNSService`: the pool `clients` (tenant ID to client) and the ghost
record `calls`. The handles `s3Service` and `db` of the struct are the arguments `env`
and `db` of the methods. -/
structure APNSService where
  clients : GoMap APNSClient
  calls : List Call

/-- The constructor `NewAPNSService`. -/
def NewAPNSService : APNSService := { clients := GoMap.make APNSClient, calls := [] }

namespace APNSService

/-- The local path `filepath.Join("/tmp", "apns", tenantID + ".p8")`. -/
def localPath (tenantID : String) : String :=
  filepathJoin ["/tmp", "apns", tenantID ++ ".p8"]

/-- The method `getOrCreateClient`; `now` is the reading of the one `time.Now()` call
the taken path makes. Returns the service afterwards and the client or the error. -/
def getOrCreateClient (env : Env) (db : Store) (now : Time) (tenantID : String)
    (s : APNSService) : APNSService × Except String APNSClient :=
  match s.clients.get? tenantID with
  | some client =>
    let client := { client with LastUsed := now }
    ({ s with clients := s.clients.set tenantID client }, .ok client)
  | none =>
    let s := { s with calls := s.calls ++ [Call.dbFirstAPNSConfig tenantID] }
    match db.firstActiveAPNSConfig tenantID with
    | .error err =>
      (s, .error ("APNS config not found for tenant " ++ tenantID ++ ": " ++ err))
    | .ok config =>
      let p8Key := "apns/" ++ tenantID ++ ".p8"
      let localPath := localPath tenantID
      let s := { s with calls := s.calls ++ [Call.s3DownloadFile p8Key localPath] }
      match DownloadFile env p8Key localPath with
      | some err =>
        (s, .error ("failed to download APNS key for tenant " ++ tenantID ++ ": " ++ err))
      | none =>
        let s := { s with calls := s.calls ++ [Call.authKeyFromFile localPath] }
        match env.authKeyFromFile localPath with
        | .error err => (s, .error ("failed to load APNS auth key: " ++ err))
        | .ok authKey =>
          let s := { s with calls := s.calls ++ [Call.newTokenClient config.KeyID config.TeamID] }
          let client : APNS2Client :=
            { AuthKey := authKey, KeyID := config.KeyID, TeamID := config.TeamID,
              Host := if config.Environment = "sandbox" then APNSHost.development
                      else APNSHost.production }
          let apnsClient : APNSClient :=
            { Client := client, Config := config, LastUsed := now, PrivateKey := authKey }
          let s := { s with clients := s.clients.set tenantID apnsClient }
          let s := { s with calls := s.calls ++ [Call.osRemove localPath] }
          (s, .ok apnsClient)

/-- The payload `fmt.Sprintf` builds in `SendPush`. -/
def payload (title body : String) : String :=
  "\x7b\n\t\t\t\"aps\": \x7b\n\t\t\t\t\"alert\": \x7b\n\t\t\t\t\t\"title\": \"" ++ title ++
  "\",\n\t\t\t\t\t\"body\": \"" ++ body ++
  "\"\n\t\t\t\t\x7d,\n\t\t\t\t\"sound\": \"default\"\n\t\t\t\x7d\n\t\t\x7d"

/-- The method `SendPush`. The custom data is only logged. -/
def SendPush (env : Env) (db : Store) (now : Time)
    (tenantID deviceToken title body : String) (_data : Option (GoMap DataValue))
    (s : APNSService) : APNSService × Option String :=
  match getOrCreateClient env db now tenantID s with
  | (s, .error err) => (s, some err)
  | (s, .ok client) =>
    let notification : Notification :=
      { DeviceToken := deviceToken, Topic := client.Config.BundleID,
        Payload := payload title body }
    let s := { s with calls := s.calls ++ [Call.apnsPush client.Client notification] }
    match env.apnsPush client.Client notification with
    | .error err => (s, some ("failed to send APNS push: " ++ err))
    | .ok res =>
      if !res.Sent then
        (s, some ("APNS push failed: %!s(int=" ++ toString res.StatusCode ++ ") (reason: "
          ++ res.Reason ++ ")"))
      else (s, none)

/-- The method `CleanupOldClients`; `now` is the reading of its `time.Now()` call. -/
def CleanupOldClients (now : Time) (s : APNSService) : APNSService :=
  let cutoff := now + (-1) * Hour
  let swept := s.clients.entries.foldl
    (fun m e => if e.2.LastUsed < cutoff then m.delete e.1 else m) s.clients
  { s with clients := swept }

end APNSService

/-! ## The FCM service (`services/fcm.go`) -/

/-- The struct `FCMClient`. -/
structure FCMClient where
  Client : MessagingClient
  Config : FCMConfig
  LastUsed : Time
  deriving DecidableEq, Repr

/-- The struct `FCMService`: the pool `clients` and the ghost record `calls`. -/
structure FCMService where
  clients : GoMap FCMClient
  calls : List Call

/-- The constructor `NewFCMService`. -/
def NewFCMService : FCMService := { clients := GoMap.make FCMClient, calls := [] }

namespace FCMService

/-- The method `getOrCreateClient`; `now` is the reading of the one `time.Now()` call
the taken path makes. -/
def getOrCreateClient (env : Env) (db : Store) (now : Time) (tenantID : String)
    (s : FCMService) : FCMService × Except String FCMClient :=
  match s.clients.get? tenantID with
  | some client =>
    let client := { client with LastUsed := now }
    ({ s with clients := s.clients.set tenantID client }, .ok client)
  | none =>
    let s := { s with calls := s.calls ++ [Call.dbFirstFCMConfig tenantID] }
    match db.firstActiveFCMConfig tenantID with
    | .error err =>
      (s, .error ("FCM config not found for tenant " ++ tenantID ++ ": " ++ err))
    | .ok config =>
      let jsonKey := "fcm/" ++ tenantID ++ ".json"
      let s := { s with calls := s.calls ++ [Call.s3GetFileContent jsonKey] }
      match GetFileContent env jsonKey with
      | .error err =>
        (s, .error ("failed to download FCM service account for tenant " ++ tenantID
          ++ ": " ++ err))
      | .ok serviceAccountJSON =>
        let s := { s with calls := s.calls ++ [Call.firebaseNewApp] }
        match env.firebaseNewApp serviceAccountJSON with
        | .error err => (s, .error ("failed to initialize Firebase app: " ++ err))
        | .ok app =>
          let s := { s with calls := s.calls ++ [Call.appMessaging] }
          match env.appMessaging app with
          | .error err => (s, .error ("failed to get FCM messaging client: " ++ err))
          | .ok messagingClient =>
            let fcmClient : FCMClient :=
              { Client := messagingClient, Config := config, LastUsed := now }
            let s := { s with clients := s.clients.set tenantID fcmClient }
            (s, .ok fcmClient)

mutual
/-- The rendering `fmt.Sprintf("%v", v)` of a decoded JSON value: `<nil>` for `nil`,
`true` or `false`, the `%g` form of a `float64`, a string as it is, the elements of a
slice between brackets, and the entries of a map as `key:value` in key order after
`map`, elements and entries separated by a space. -/
def sprintV : DataValue → String
  | .null => "<nil>"
  | .bool b => if b then "true" else "false"
  | .number f => FormatFloat f
  | .str s => s
  | .array items => "[" ++ joinSpace (sprintItems items) ++ "]"
  | .object members =>
    "map[" ++ joinSpace ((sortByKey (sprintMembers members)).map
      (fun kv => kv.1 ++ ":" ++ kv.2)) ++ "]"
/-- The renderings of the elements of a slice. -/
def sprintItems : List DataValue → List String
  | [] => []
  | v :: rest => sprintV v :: sprintItems rest
/-- The keys of a map with the renderings of their values. -/
def sprintMembers : List (String × DataValue) → List (String × String)
  | [] => []
  | (k, v) :: rest => (k, sprintV v) :: sprintMembers rest
end

/-- The conversion loop of `SendPush`: a map made by `make`, hence not nil, filled with
the rendering of every entry of the custom data. -/
def stringData (data : Option (GoMap DataValue)) : Option (GoMap String) :=
  some ((GoMap.rangeOf data).foldl (fun m e => m.set e.1 (sprintV e.2)) (GoMap.make String))

/-- The method `SendPush`. -/
def SendPush (env : Env) (db : Store) (now : Time)
    (tenantID deviceToken title body : String) (data : Option (GoMap DataValue))
    (s : FCMService) : FCMService × Option String :=
  match getOrCreateClient env db now tenantID s with
  | (s, .error err) => (s, some err)
  | (s, .ok client) =>
    let message : Message :=
      { Token := deviceToken, Title := title, Body := body, Data := stringData data,
        AndroidSound := "default", APNSSound := "default" }
    let s := { s with calls := s.calls ++ [Call.fcmSend client.Client deviceToken] }
    match env.fcmSend client.Client message with
    | .error err => (s, some ("failed to send FCM push: " ++ err))
    | .ok _response => (s, none)

/-- The method `CleanupOldClients`; `now` is the reading of its `time.Now()` call. -/
def CleanupOldClients (now : Time) (s : FCMService) : FCMService :=
  let cutoff := now + (-1) * Hour
  let swept := s.clients.entries.foldl
    (fun m e => if e.2.LastUsed < cutoff then m.delete e.1 else m) s.clients
  { s with clients := swept }

end FCMService

/-! ## The request authenticator and the push handlers -/

/-- The process-wide state a request handler can reach: the store `database.DB`, the
cache `database.APICache` and the two push services. -/
structure World where
  DB : Store
  APICache : Cache
  apnsService : APNSService
  fcmService : FCMService

/-- The type `http.HandlerFunc`, in state-passing style. -/
abbrev HandlerFunc := ResponseWriter → Request → World → ResponseWriter × World

/-- Splitting at the first `n - 1` separators, on character lists. -/
def splitNChars (sep : Char) : Nat → List Char → List (List Char)
  | 0, _ => []
  | 1, s => [s]
  | n + 2, s =>
    match s.dropWhile (fun c => c != sep) with
    | [] => [s]
    | _ :: rest => s.takeWhile (fun c => c != sep) :: splitNChars sep (n + 1) rest

/-- The call `strings.SplitN(s, sep, n)` for a one-character separator and `n ≥ 0`. -/
def SplitN (s : String) (sep : Char) (n : Nat) : List String :=
  (splitNChars sep n s.data).map String.mk

/-- The function `GetTenantID` of the middleware. -/
def GetTenantID (r : Request) : String :=
  match r.tenantID with
  | some tenantID => tenantID
  | none => ""

/-- The function `AuthMiddleware`. -/
def AuthMiddleware (next : HandlerFunc) : HandlerFunc := fun w r world =>
  let authHeader := r.HeaderGet "Authorization"
  if authHeader = "" then
    (httpError w "Missing Authorization header" StatusUnauthorized, world)
  else
    let parts := SplitN authHeader ' ' 2
    if parts.length ≠ 2 ∨ parts.getD 0 "" ≠ "Digest" then
      (httpError w "Invalid Authorization header format. Expected: Digest <digest>"
        StatusUnauthorized, world)
    else
      let providedDigest := parts.getD 1 ""
      let tenantID := world.APICache.GetTenantIDByDigest providedDigest
      if tenantID = "" then
        (httpError w "Unauthorized: invalid or expired API key" StatusUnauthorized, world)
      else
        next w (r.WithTenantID tenantID) world

/-- The success response both push handlers write. -/
def writeSuccess (w : ResponseWriter) (message tenant : String) : ResponseWriter :=
  let w := { w with contentType := "application/json" }
  let w := w.WriteHeader StatusOK
  { w with body := w.body ++ [Written.successJSON message tenant] }

/-- The handler `APNSPushHandler(apnsService)`; `now` is the clock reading of the
service call. -/
def APNSPushHandler (env : Env) (now : Time) : HandlerFunc := fun w r world =>
  if r.Method ≠ "POST" then
    (httpError w "Method not allowed" StatusMethodNotAllowed, world)
  else
    let tenantID := GetTenantID r
    if tenantID = "" then
      (httpError w "Unable to determine tenant" StatusInternalServerError, world)
    else
      match r.Body with
      | none => (httpError w "Invalid JSON payload" StatusBadRequest, world)
      | some req =>
        if req.DeviceToken = "" ∨ req.Title = "" ∨ req.Body = "" then
          (httpError w "Missing required fields: device_token, title, body"
            StatusBadRequest, world)
        else
          match world.apnsService.SendPush env world.DB now tenantID req.DeviceToken
              req.Title req.Body req.Data with
          | (s, some _err) =>
            (httpError w "Failed to send push notification" StatusInternalServerError,
              { world with apnsService := s })
          | (s, none) =>
            (writeSuccess w "APNS push notification sent successfully" tenantID,
              { world with apnsService := s })

/-- The handler `FCMPushHandler(fcmService)`; `now` is the clock reading of the service
call. -/
def FCMPushHandler (env : Env) (now : Time) : HandlerFunc := fun w r world =>
  if r.Method ≠ "POST" then
    (httpError w "Method not allowed" StatusMethodNotAllowed, world)
  else
    let tenantID := GetTenantID r
    if tenantID = "" then
      (httpError w "Unable to determine tenant" StatusInternalServerError, world)
    else
      match r.Body with
      | none => (httpError w "Invalid JSON payload" StatusBadRequest, world)
      | some req =>
        if req.DeviceToken = "" ∨ req.Title = "" ∨ req.Body = "" then
          (httpError w "Missing required fields: device_token, title, body"
            StatusBadRequest, world)
        else
          match world.fcmService.SendPush env world.DB now tenantID req.DeviceToken
              req.Title req.Body req.Data with
          | (s, some _err) =>
            (httpError w "Failed to send push notification" StatusInternalServerError,
              { world with fcmService := s })
          | (s, none) =>
            (writeSuccess w "FCM push notification sent successfully" tenantID,
              { world with fcmService := s })

/-- The success response of `RegisterHandler`. -/
def writeRegistered (w : ResponseWriter) (id : Nat) (tenant : String) : ResponseWriter :=
  let w := { w with contentType := "application/json" }
  let w := w.WriteHeader StatusOK
  { w with body := w.body ++ [Written.registeredJSON "Device registered successfully" id tenant] }

/-- The handler `RegisterHandler` (`handlers/register.go`). -/
def RegisterHandler : HandlerFunc := fun w r world =>
  if r.Method ≠ "POST" then
    (httpError w "Method not allowed" StatusMethodNotAllowed, world)
  else
    let tenantID := GetTenantID r
    if tenantID = "" then
      (httpError w "Unable to determine tenant" StatusInternalServerError, world)
    else
      match world.DB.GetTenantByID tenantID with
      | .error _err => (httpError w "Invalid tenant" StatusUnauthorized, world)
      | .ok tenant =>
        if !tenant.Active then
          (httpError w "Tenant is not active" StatusForbidden, world)
        else
          match r.RegisterBody with
          | none => (httpError w "Invalid JSON payload" StatusBadRequest, world)
          | some req =>
            if req.DeviceToken = "" ∨ req.UserID = "" ∨ req.Platform = "" then
              (httpError w "Missing required fields: device_token, user_id, platform"
                StatusBadRequest, world)
            else
              let deviceToken : DeviceToken :=
                { ID := 0, TenantID := tenantID, DeviceToken := req.DeviceToken,
                  UserID := req.UserID, Platform := req.Platform }
              match world.DB.firstOrCreateDeviceToken tenantID req.UserID req.Platform
                  deviceToken with
              | (db, .error _err) =>
                (httpError w "Failed to register device" StatusInternalServerError,
                  { world with DB := db })
              | (db, .ok saved) =>
                (writeRegistered w saved.ID tenant.Name, { world with DB := db })

/-! ## Vocabulary of the statements -/

/-- The strings one reload hashes: every loaded key followed by the current-hour bucket,
and every loaded key followed by the next-hour bucket. -/
def digestInputs (keys : List APIKey) (currentHour nextHour : String) : List String :=
  keys.map (fun r => r.APIKey ++ currentHour) ++ keys.map (fun r => r.APIKey ++ nextHour)

/-- The hash has no collision among the listed inputs. -/
def CollisionFreeOn (hash : String → String) (inputs : List String) : Prop :=
  ∀ a ∈ inputs, ∀ b ∈ inputs, hash a = hash b → a = b

/-- The store after the disabled flag of record `rec` has been cleared. -/
def Store.enable (db : Store) (rec : APIKey) : Store :=
  let cleared := db.api_keys.map (fun r => if r = rec then { r with Disabled := false } else r)
  { db with api_keys := cleared }

/-- The build steps among the calls made after the record `before` was taken. -/
def buildStepsSince (before after : List Call) : List Call :=
  (after.drop before.length).filter Call.isBuildStep

/-! ## Sample data -/

/-- A sample row: the enabled key `k1` of tenant `acme`. -/
def sampleKey1 : APIKey :=
  { ID := 1, TenantID := "acme", Label := "prod", APIKey := "k1", Disabled := false }

/-- A sample row: the disabled key `k2` of tenant `beta`. -/
def sampleKey2 : APIKey :=
  { ID := 2, TenantID := "beta", Label := "old", APIKey := "k2", Disabled := true }

/-- A sample store with one enabled and one disabled key and no provider configuration. -/
def sampleStore : Store :=
  { failure := none, api_keys := [sampleKey1, sampleKey2], apns_configs := [],
    fcm_configs := [] }

/-- A sample store on which every query fails. -/
def brokenStore : Store :=
  { failure := some "connection refused", api_keys := [sampleKey1], apns_configs := [],
    fcm_configs := [] }

/-- A sample hash without collisions: the identity. -/
def sampleHash : String → String := fun s => s

/-- A sample row: a disabled key whose tenant ID is the empty string (a seed entry
without `tenant_id`). -/
def emptyTenantKey : APIKey :=
  { ID := 1, TenantID := "", Label := "seed", APIKey := "k", Disabled := true }

/-- A sample store holding only `emptyTenantKey`. -/
def emptyTenantStore : Store :=
  { failure := none, api_keys := [emptyTenantKey], apns_configs := [], fcm_configs := [] }

/-- A sample wrapped handler: answers 200 and echoes the tenant bound to the request. -/
def echoHandler : HandlerFunc := fun w r world => (writeSuccess w "ok" (GetTenantID r), world)

/-- A sample request carrying the given `Authorization` header. -/
def requestWithAuth (value : String) : Request :=
  { Method := "POST", Header := [("Authorization", value)], Body := none, tenantID := none }

/-- A sample world around a cache: the sample store and empty pools. -/
def worldWithCache (c : Cache) : World :=
  { DB := sampleStore, APICache := c,
    apnsService := { clients := GoMap.make _, calls := [] },
    fcmService := { clients := GoMap.make _, calls := [] } }

/-- A sample active APNS configuration of tenant `acme`. -/
def sampleAPNSConfig : APNSConfig :=
  { ID := 1, TenantID := "acme", TeamID := "TEAM1", KeyID := "KEY1",
    BundleID := "com.acme.app", Environment := "production", Active := true }

/-- A sample active FCM configuration of tenant `acme`. -/
def sampleFCMConfig : FCMConfig :=
  { ID := 1, TenantID := "acme", ProjectID := "acme-project", ServiceAccount := "",
    Active := true }

/-- A sample store with provider configuration for tenant `acme` only. -/
def pushStore : Store :=
  { failure := none, api_keys := [sampleKey1], apns_configs := [sampleAPNSConfig],
    fcm_configs := [sampleFCMConfig] }

/-- A sample environment in which every external call succeeds. -/
def sampleEnv : Env :=
  { s3GetObject := fun _ => .ok "blob"
    osMkdirAll := fun _ => none
    osCreate := fun _ => none
    ioCopy := fun _ _ => none
    ioReadAll := fun body => .ok body
    authKeyFromFile := fun _ => .ok { D := 7 }
    apnsPush := fun _ _ => .ok { StatusCode := 200, Reason := "" }
    firebaseNewApp := fun json => .ok { credentialsJSON := json }
    appMessaging := fun app => .ok { app := app }
    fcmSend := fun _ _ => .ok "projects/acme-project/messages/1" }

/-- A sample pooled APNS client, last used at instant `0`. -/
def sampleAPNSClient : APNSClient :=
  { Client :=
      { AuthKey := { D := 7 }, KeyID := "KEY1", TeamID := "TEAM1", Host := APNSHost.production }
    Config := sampleAPNSConfig
    LastUsed := 0
    PrivateKey := { D := 7 } }

/-- A sample pooled FCM client, last used at instant `0`. -/
def sampleFCMClient : FCMClient :=
  { Client := { app := { credentialsJSON := "blob" } }, Config := sampleFCMConfig,
    LastUsed := 0 }

/-- A sample APNS service whose pool already holds a client for tenant `acme`. -/
def warmAPNS : APNSService :=
  { clients := (GoMap.make APNSClient).set "acme" sampleAPNSClient, calls := [] }

/-- A sample FCM service whose pool already holds a client for tenant `acme`. -/
def warmFCM : FCMService :=
  { clients := (GoMap.make FCMClient).set "acme" sampleFCMClient, calls := [] }

/-- A sample well-formed push request of tenant `acme`. -/
def samplePush : Request :=
  { Method := "POST"
    Header := []
    Body := some
      { UserID := "u1", DeviceToken := "abc", Title := "hi", Body := "there", Data := none }
    tenantID := some "acme" }

/-- A sample POST of tenant `acme` whose body does not decode. -/
def malformedPush : Request :=
  { Method := "POST", Header := [], Body := none, tenantID := some "acme" }

/-- A sample active tenant `acme`. -/
def sampleTenant : Tenant :=
  { ID := 1, TenantID := "acme", Name := "Acme", Description := "", Active := true }

/-- A sample store whose device table is empty. -/
def deviceStore : Store :=
  { failure := none, api_keys := [sampleKey1], apns_configs := [], fcm_configs := [],
    tenants := [sampleTenant], device_tokens := [] }

/-- A sample store whose device table already holds two rows for the triple
`(acme, u1, ios)`. -/
def duplicateDeviceStore : Store :=
  { failure := none, api_keys := [sampleKey1], apns_configs := [], fcm_configs := [],
    tenants := [sampleTenant],
    device_tokens :=
      [{ ID := 1, TenantID := "acme", DeviceToken := "old1", UserID := "u1", Platform := "ios" },
       { ID := 2, TenantID := "acme", DeviceToken := "old2", UserID := "u1", Platform := "ios" }] }

/-- A sample registration request of tenant `acme` for user `u1` on `ios`. -/
def registerRequest (token : String) : Request :=
  { Method := "POST", Header := [], Body := none, tenantID := some "acme",
    RegisterBody := some { DeviceToken := token, UserID := "u1", Platform := "ios" } }

/-- A sample world around a store: empty cache and empty pools. -/
def worldWithStore (db : Store) : World :=
  { DB := db, APICache := NewCache,
    apnsService := { clients := GoMap.make _, calls := [] },
    fcmService := { clients := GoMap.make _, calls := [] } }

/-! ## The date bucket of the printed usage text -/

/-- The call `t.UTC().Format("2006-01-02")`: the UTC date as `YYYY-MM-DD`, the time
component the usage text printed by `cli/server.go` and `cli/main.go` names. -/
def dateBucket (t : Time) : String :=
  let ymd := civilFromDays (unixDays t)
  appendInt ymd.1 4 ++ "-" ++ appendInt ymd.2.1 2 ++ "-" ++ appendInt ymd.2.2 2

/-- A sample instant: 2025-11-04 09:53:20 UTC. -/
def sampleInstant : Time := 1762250000 * 1000000000

/-! ## The local key file of the APNS build -/

/-- Whether `S3Service.DownloadFile` leaves a file at `localPath`: the directory was
made, the object was fetched and `os.Create` succeeded (also when the copy then fails). -/
def downloadCreatesFile (env : Env) (key localPath : String) : Bool :=
  (env.osMkdirAll (filepathDir localPath)).isNone &&
    (match env.s3GetObject key with
     | .ok _ => true
     | .error _ => false) &&
    (env.osCreate localPath).isNone

/-- The effect of one recorded call on the set of local files. -/
def applyCallToFiles (env : Env) (files : List String) (c : Call) : List String :=
  match c with
  | .s3DownloadFile key localPath =>
    if downloadCreatesFile env key localPath && !files.contains localPath then
      localPath :: files
    else files
  | .osRemove localPath => files.filter (fun f => f != localPath)
  | _ => files

/-- The local files after one `getOrCreateClient` call of the APNS service that started
with the local files `files`. -/
def APNSService.localFilesAfter (env : Env) (db : Store) (now : Time) (tenantID : String)
    (s : APNSService) (files : List String) : List String :=
  ((APNSService.getOrCreateClient env db now tenantID s).1.calls.drop s.calls.length).foldl
    (applyCallToFiles env) files

/-- A sample environment in which the downloaded key file does not parse. -/
def unparsableKeyEnv : Env :=
  { sampleEnv with authKeyFromFile := fun _ => .error "invalid PEM" }

/-! ## Lock discipline: the step sequence of an operation -/

/-- One step of an operation on a component guarded by its mutex `mu`: taking or
releasing the exclusive or the shared lock, a blocking call to the relational store, to
a method of the blob store (`blobFetch`, which covers the local file operations of the
method and stands also when the method returns before its request to the blob store) or
to a push backend, or work inside the process. -/
inductive Step where
  | lock
  | unlock
  | rlock
  | runlock
  | storeQuery
  | blobFetch
  | backendSend
  | compute
  deriving DecidableEq, Repr

/-- The blocking I/O steps. -/
def Step.isBlockingIO : Step → Bool
  | .storeQuery => true
  | .blobFetch => true
  | .backendSend => true
  | _ => false

/-- Whether, in a step sequence entered with `held` locks held, some blocking I/O step
runs while a lock is held. -/
def ioUnderLock : Nat → List Step → Bool
  | _, [] => false
  | held, .lock :: rest => ioUnderLock (held + 1) rest
  | held, .rlock :: rest => ioUnderLock (held + 1) rest
  | held, .unlock :: rest => ioUnderLock (held - 1) rest
  | held, .runlock :: rest => ioUnderLock (held - 1) rest
  | held, s :: rest => (s.isBlockingIO && decide (0 < held)) || ioUnderLock held rest

/-- The blocking I/O step a recorded call stands for, if any. -/
def Call.toStep : Call → Option Step
  | .dbFirstAPNSConfig _ => some Step.storeQuery
  | .dbFirstFCMConfig _ => some Step.storeQuery
  | .s3DownloadFile _ _ => some Step.blobFetch
  | .s3GetFileContent _ => some Step.blobFetch
  | .apnsPush _ _ => some Step.backendSend
  | .fcmSend _ _ => some Step.backendSend
  | _ => none

/-- The steps of `Cache.LoadAPIKeys`, in program order: `c.mu.Lock()` with the deferred
`Unlock`, the query, and on success the clearing of the maps, the clock readings and
one loop iteration per record. -/
def Cache.LoadAPIKeysSteps (db : Store) : List Step :=
  [Step.lock, Step.storeQuery] ++
    (match db.findEnabledAPIKeys with
     | .error _ => []
     | .ok apiKeys => [Step.compute, Step.compute] ++ apiKeys.map (fun _ => Step.compute)) ++
    [Step.unlock]

/-- The steps of `APNSService.getOrCreateClient`, in program order, followed by
`onSuccess` on the paths that return a client. -/
def APNSService.stepsThen (env : Env) (db : Store) (tenantID : String) (s : APNSService)
    (onSuccess : List Step) : List Step :=
  match s.clients.get? tenantID with
  | some _ => [Step.rlock, Step.compute, Step.runlock] ++ onSuccess
  | none =>
    [Step.rlock, Step.runlock, Step.storeQuery] ++
      match db.firstActiveAPNSConfig tenantID with
      | .error _ => []
      | .ok _ =>
        Step.blobFetch ::
          match DownloadFile env ("apns/" ++ tenantID ++ ".p8")
              (APNSService.localPath tenantID) with
          | some _ => []
          | none =>
            Step.compute ::
              match env.authKeyFromFile (APNSService.localPath tenantID) with
              | .error _ => []
              | .ok _ =>
                [Step.compute, Step.lock, Step.compute, Step.unlock, Step.compute]
                  ++ onSuccess

/-- The steps of `APNSService.getOrCreateClient`. -/
def APNSService.getOrCreateClientSteps (env : Env) (db : Store) (tenantID : String)
    (s : APNSService) : List Step :=
  APNSService.stepsThen env db tenantID s []

/-- The steps of `APNSService.SendPush`: those of `getOrCreateClient`, then the building
of the notification and the delivery call. -/
def APNSService.SendPushSteps (env : Env) (db : Store) (tenantID : String)
    (s : APNSService) : List Step :=
  APNSService.stepsThen env db tenantID s [Step.compute, Step.backendSend]

/-- The steps of `FCMService.getOrCreateClient`, in program order, followed by
`onSuccess` on the paths that return a client. -/
def FCMService.stepsThen (env : Env) (db : Store) (tenantID : String) (s : FCMService)
    (onSuccess : List Step) : List Step :=
  match s.clients.get? tenantID with
  | some _ => [Step.rlock, Step.compute, Step.runlock] ++ onSuccess
  | none =>
    [Step.rlock, Step.runlock, Step.storeQuery] ++
      match db.firstActiveFCMConfig tenantID with
      | .error _ => []
      | .ok _ =>
        Step.blobFetch ::
          match GetFileContent env ("fcm/" ++ tenantID ++ ".json") with
          | .error _ => []
          | .ok serviceAccountJSON =>
            Step.compute ::
              match env.firebaseNewApp serviceAccountJSON with
              | .error _ => []
              | .ok app =>
                Step.compute ::
                  match env.appMessaging app with
                  | .error _ => []
                  | .ok _ => [Step.lock, Step.compute, Step.unlock] ++ onSuccess

/-- The steps of `FCMService.getOrCreateClient`. -/
def FCMService.getOrCreateClientSteps (env : Env) (db : Store) (tenantID : String)
    (s : FCMService) : List Step :=
  FCMService.stepsThen env db tenantID s []

/-- The steps of `FCMService.SendPush`: those of `getOrCreateClient`, then the building
of the message and the delivery call. -/
def FCMService.SendPushSteps (env : Env) (db : Store) (tenantID : String)
    (s : FCMService) : List Step :=
  FCMService.stepsThen env db tenantID s [Step.compute, Step.backendSend]

/-! ## A reload running concurrently with a reader -/

/-- Where the goroutine running `Cache.LoadAPIKeys` stands: before `c.mu.Lock()`; lock
taken and query not yet answered; query answered and maps not yet cleared; maps cleared
and clock read, with the records still to be processed by the loop; about to run the
deferred `Unlock`; returned. -/
inductive LoaderPC where
  | start
  | locked
  | queried (apiKeys : List APIKey)
  | looping (rest : List APIKey)
  | returning (err : Option String)
  | done (err : Option String)
  deriving DecidableEq, Repr

/-- Where the goroutine running `Cache.GetTenantIDByDigest` stands: before
`c.mu.RLock()`; shared lock taken; map read, about to run the deferred `RUnlock`;
returned. -/
inductive ReaderPC where
  | start
  | locked
  | holding (result : String)
  | done (result : String)
  deriving DecidableEq, Repr

/-- The cache with its `sync.RWMutex` and the two goroutines. `writer` tells whether the
mutex is held exclusively, `readers` counts its shared holders. -/
structure Shared where
  cache : Cache
  writer : Bool
  readers : Nat
  loader : LoaderPC
  reader : ReaderPC

/-- The two goroutines. -/
inductive Thread where
  | loader
  | reader
  deriving DecidableEq, Repr

/-- One step of the goroutine running `LoadAPIKeys`, `none` when it cannot move:
`Lock` waits until the mutex has no holder. -/
def loaderStep (hash : String → String) (db : Store) (now1 now2 : Time) (σ : Shared) :
    Option Shared :=
  match σ.loader with
  | .start =>
    if σ.writer = false ∧ σ.readers = 0 then
      some { σ with writer := true, loader := .locked }
    else none
  | .locked =>
    match db.findEnabledAPIKeys with
    | .error err =>
      some { σ with loader := .returning (some ("failed to load API keys: " ++ err)) }
    | .ok apiKeys => some { σ with loader := .queried apiKeys }
  | .queried apiKeys =>
    some { σ with
      cache := { tenants := GoMap.make String, digests := GoMap.make String }
      loader := .looping apiKeys }
  | .looping [] => some { σ with loader := .returning none }
  | .looping (key :: rest) =>
    some { σ with
      cache := Cache.loadOne hash (hourBucket now1) (hourBucket (now2 + Hour)) σ.cache key
      loader := .looping rest }
  | .returning err => some { σ with writer := false, loader := .done err }
  | .done _ => none

/-- One step of the goroutine running `GetTenantIDByDigest digest`, `none` when it
cannot move: `RLock` waits while the mutex is held exclusively. -/
def readerStep (digest : String) (σ : Shared) : Option Shared :=
  match σ.reader with
  | .start =>
    if σ.writer = false then some { σ with readers := σ.readers + 1, reader := .locked }
    else none
  | .locked => some { σ with reader := .holding (σ.cache.GetTenantIDByDigest digest) }
  | .holding result => some { σ with readers := σ.readers - 1, reader := .done result }
  | .done _ => none

/-- The state after the scheduler has given the goroutines their turns in the order of
`schedule`; a turn given to a goroutine that cannot move changes nothing. -/
def runSchedule (hash : String → String) (db : Store) (now1 now2 : Time) (digest : String)
    (schedule : List Thread) (σ : Shared) : Shared :=
  schedule.foldl
    (fun σ th =>
      match th with
      | .loader => (loaderStep hash db now1 now2 σ).getD σ
      | .reader => (readerStep digest σ).getD σ)
    σ

/-- The state in which both goroutines are about to start on cache `c`. -/
def Shared.init (c : Cache) : Shared :=
  { cache := c, writer := false, readers := 0, loader := .start, reader := .start }

/-- What holds of the loader's side in every reachable state: outside its critical
section the cache is the one before the reload or the one `LoadAPIKeys` returns; inside
it the exclusive lock is held. -/
def LoaderInv (hash : String → String) (db : Store) (now1 now2 : Time) (c : Cache)
    (σ : Shared) : Prop :=
  match σ.loader with
  | .start => σ.writer = false ∧ σ.cache = c
  | .locked => σ.writer = true ∧ σ.cache = c
  | .queried apiKeys => σ.writer = true ∧ db.findEnabledAPIKeys = .ok apiKeys
  | .looping rest =>
    σ.writer = true ∧ db.failure = none ∧
      rest.foldl (Cache.loadOne hash (hourBucket now1) (hourBucket (now2 + Hour))) σ.cache
        = (Cache.LoadAPIKeys hash db now1 now2 c).1 ∧
      rest.length ≤ db.enabledKeys.length
  | .returning err =>
    σ.writer = true ∧ σ.cache = (Cache.LoadAPIKeys hash db now1 now2 c).1 ∧
      err = (Cache.LoadAPIKeys hash db now1 now2 c).2
  | .done err =>
    σ.writer = false ∧ σ.cache = (Cache.LoadAPIKeys hash db now1 now2 c).1 ∧
      err = (Cache.LoadAPIKeys hash db now1 now2 c).2

/-- What holds of the reader's side in every reachable state: while it holds the shared
lock nobody holds the exclusive one, and what it has read is an answer of the cache
before the reload or of the cache `LoadAPIKeys` returns. -/
def ReaderInv (hash : String → String) (db : Store) (now1 now2 : Time) (c : Cache)
    (digest : String) (σ : Shared) : Prop :=
  match σ.reader with
  | .start => σ.readers = 0
  | .locked => σ.readers = 1 ∧ σ.writer = false
  | .holding result =>
    σ.readers = 1 ∧ σ.writer = false ∧
      (result = c.GetTenantIDByDigest digest ∨
        result = (Cache.LoadAPIKeys hash db now1 now2 c).1.GetTenantIDByDigest digest)
  | .done result =>
    σ.readers = 0 ∧
      (result = c.GetTenantIDByDigest digest ∨
        result = (Cache.LoadAPIKeys hash db now1 now2 c).1.GetTenantIDByDigest digest)

/-- An upper bound on the turns the loader still needs to return, given that its lock
request is not blocked. -/
def loaderFuel (db : Store) : LoaderPC → Nat
  | .start => db.enabledKeys.length + 5
  | .locked => db.enabledKeys.length + 4
  | .queried apiKeys => apiKeys.length + 3
  | .looping rest => rest.length + 2
  | .returning _ => 1
  | .done _ => 0

/-- The reader does not hold the shared lock: it has not started or has returned. -/
def ReaderPC.idle : ReaderPC → Bool
  | .start => true
  | .done _ => true
  | _ => false

/-- The loader has returned. -/
def LoaderPC.isDone : LoaderPC → Bool
  | .done _ => true
  | _ => false

/-- The reader has returned. -/
def ReaderPC.isDone : ReaderPC → Bool
  | .done _ => true
  | _ => false

/-- A sample schedule: the reader asks for the lock while the loader is inside its
critical section, and is served after the loader has returned. -/
def sampleSchedule : List Thread :=
  [.loader, .loader, .reader, .loader, .reader, .loader, .loader, .loader, .reader,
   .reader, .reader]

/-! ## JSON documents (RFC 8259), to read back the APNS payload -/

/-- A JSON value; a number is kept as its text. -/
inductive JSON where
  | null
  | bool (b : Bool)
  | num (text : String)
  | str (s : String)
  | arr (items : List JSON)
  | obj (members : List (String × JSON))

/-- JSON insignificant whitespace. -/
def isJSONSpace (c : Char) : Bool := c == ' ' || c == '\n' || c == '\t' || c == '\r'

/-- Drop leading whitespace. -/
def skipWS : List Char → List Char
  | [] => []
  | c :: rest => if isJSONSpace c then skipWS rest else c :: rest

/-- The value of a hexadecimal digit. -/
def hexValue (c : Char) : Option Nat :=
  if '0' ≤ c ∧ c ≤ '9' then some (c.toNat - '0'.toNat)
  else if 'a' ≤ c ∧ c ≤ 'f' then some (c.toNat - 'a'.toNat + 10)
  else if 'A' ≤ c ∧ c ≤ 'F' then some (c.toNat - 'A'.toNat + 10)
  else none

/-- The character a one-letter escape stands for. -/
def escapeChar (c : Char) : Option Char :=
  if c = '"' then some '"'
  else if c = '\\' then some '\\'
  else if c = '/' then some '/'
  else if c = 'b' then some (Char.ofNat 8)
  else if c = 'f' then some (Char.ofNat 12)
  else if c = 'n' then some '\n'
  else if c = 'r' then some '\r'
  else if c = 't' then some '\t'
  else none

/-- Read a string literal whose opening quote has been consumed: the code units it
stands for (a character as its code point, a `\u` escape as its four-digit value, which
may be a surrogate) and the input after the closing quote. Unescaped control characters
and unknown escapes are errors. -/
def parseStringUnits : List Char → Option (List Nat × List Char)
  | [] => none
  | c :: rest =>
    if c = '"' then some ([], rest)
    else if c = '\\' then
      match rest with
      | [] => none
      | e :: rest' =>
        if e = 'u' then
          match rest' with
          | h1 :: h2 :: h3 :: h4 :: rest'' =>
            match hexValue h1, hexValue h2, hexValue h3, hexValue h4 with
            | some a, some b, some c', some d =>
              match parseStringUnits rest'' with
              | some (s, r) => some ((((a * 16 + b) * 16 + c') * 16 + d) :: s, r)
              | none => none
            | _, _, _, _ => none
          | _ => none
        else
          match escapeChar e with
          | none => none
          | some x =>
            match parseStringUnits rest' with
            | some (s, r) => some (x.toNat :: s, r)
            | none => none
    else if c.toNat < 32 then none
    else
      match parseStringUnits rest with
      | some (s, r) => some (c.toNat :: s, r)
      | none => none

/-- The characters a run of code units stands for: a high surrogate followed by a low
surrogate is one character beyond the basic plane, any other surrogate is the
replacement character U+FFFD. -/
def decodeUnits : List Nat → List Char
  | [] => []
  | [n] => [if 0xD800 ≤ n ∧ n < 0xE000 then Char.ofNat 0xFFFD else Char.ofNat n]
  | hi :: lo :: rest =>
    if 0xD800 ≤ hi ∧ hi < 0xDC00 ∧ 0xDC00 ≤ lo ∧ lo < 0xE000 then
      Char.ofNat (0x10000 + (hi - 0xD800) * 0x400 + (lo - 0xDC00)) :: decodeUnits rest
    else if 0xD800 ≤ hi ∧ hi < 0xE000 then Char.ofNat 0xFFFD :: decodeUnits (lo :: rest)
    else Char.ofNat hi :: decodeUnits (lo :: rest)

/-- Read a string literal whose opening quote has been consumed: the decoded characters
and the input after the closing quote. -/
def parseStringBody (input : List Char) : Option (List Char × List Char) :=
  match parseStringUnits input with
  | some (units, rest) => some (decodeUnits units, rest)
  | none => none

/-- What the parser is reading: a value; the members of an object after `acc`; the
items of an array after `acc`. -/
inductive ParseMode where
  | value
  | members (acc : List (String × JSON))
  | elements (acc : List JSON)

/-- Read a number literal, `-? (0 | [1-9][0-9]*) (. [0-9]+)? ([eE] [+-]? [0-9]+)?`: its
text and the input after it; `none` when the input does not begin with one. -/
def readNumber (input : List Char) : Option (List Char × List Char) :=
  let sign := if input.head? = some '-' then ['-'] else []
  let r0 := if input.head? = some '-' then input.drop 1 else input
  let intPart :=
    if r0.head? = some '0' then ['0'] else r0.takeWhile Char.isDigit
  let r1 := if r0.head? = some '0' then r0.drop 1 else r0.dropWhile Char.isDigit
  let hasFrac := r1.head? = some '.'
  let fracDigits := if hasFrac then (r1.drop 1).takeWhile Char.isDigit else []
  let r2 := if hasFrac then (r1.drop 1).dropWhile Char.isDigit else r1
  let hasExp := r2.head? = some 'e' ∨ r2.head? = some 'E'
  let r3 := if hasExp then r2.drop 1 else r2
  let expSign :=
    if hasExp ∧ (r3.head? = some '-' ∨ r3.head? = some '+') then r3.take 1 else []
  let r4 := if hasExp ∧ (r3.head? = some '-' ∨ r3.head? = some '+') then r3.drop 1 else r3
  let expDigits := if hasExp then r4.takeWhile Char.isDigit else []
  let r5 := if hasExp then r4.dropWhile Char.isDigit else r4
  if intPart = [] ∨ (hasFrac ∧ fracDigits = []) ∨ (hasExp ∧ expDigits = []) then none
  else
    some (sign ++ intPart ++ (if hasFrac then '.' :: fracDigits else []) ++
      (if hasExp then r2.take 1 ++ expSign ++ expDigits else []), r5)

/-- A recursive-descent JSON reader: the value read and the rest of the input. `fuel`
bounds the number of values, members and items read. -/
def parseJSON : Nat → ParseMode → List Char → Option (JSON × List Char)
  | 0, _, _ => none
  | fuel + 1, .value, input =>
    match skipWS input with
    | [] => none
    | c :: rest =>
      if c = '"' then
        match parseStringBody rest with
        | some (s, r) => some (JSON.str (String.mk s), r)
        | none => none
      else if c = '{' then
        match skipWS rest with
        | '}' :: r => some (JSON.obj [], r)
        | r => parseJSON fuel (.members []) r
      else if c = '[' then
        match skipWS rest with
        | ']' :: r => some (JSON.arr [], r)
        | r => parseJSON fuel (.elements []) r
      else if c = 't' then
        match rest with
        | 'r' :: 'u' :: 'e' :: r => some (JSON.bool true, r)
        | _ => none
      else if c = 'f' then
        match rest with
        | 'a' :: 'l' :: 's' :: 'e' :: r => some (JSON.bool false, r)
        | _ => none
      else if c = 'n' then
        match rest with
        | 'u' :: 'l' :: 'l' :: r => some (JSON.null, r)
        | _ => none
      else if c = '-' ∨ c.isDigit then
        match readNumber (c :: rest) with
        | some (text, r) => some (JSON.num (String.mk text), r)
        | none => none
      else none
  | fuel + 1, .members acc, input =>
    match skipWS input with
    | '"' :: rest =>
      match parseStringBody rest with
      | none => none
      | some (k, r) =>
        match skipWS r with
        | ':' :: r =>
          match parseJSON fuel .value r with
          | none => none
          | some (v, r) =>
            match skipWS r with
            | ',' :: r => parseJSON fuel (.members ((String.mk k, v) :: acc)) r
            | '}' :: r => some (JSON.obj ((String.mk k, v) :: acc).reverse, r)
            | _ => none
        | _ => none
    | _ => none
  | fuel + 1, .elements acc, input =>
    match parseJSON fuel .value input with
    | none => none
    | some (v, r) =>
      match skipWS r with
      | ',' :: r => parseJSON fuel (.elements (v :: acc)) r
      | ']' :: r => some (JSON.arr (v :: acc).reverse, r)
      | _ => none

/-- Decode a whole document: one value, surrounded by whitespace only; `none` when the
text is not well-formed JSON. -/
def decodeJSON (text : String) : Option JSON :=
  match parseJSON (text.length + 1) .value text.data with
  | some (v, rest) => if skipWS rest = [] then some v else none
  | none => none

/-- The member `key` of an object (the last one when the key is repeated, as
`encoding/json` decodes it). -/
def JSON.member (key : String) : JSON → Option JSON
  | .obj members => (members.reverse.find? (fun kv => kv.1 == key)).map Prod.snd
  | _ => none

/-- The string a JSON string value holds. -/
def JSON.asString : JSON → Option String
  | .str s => some s
  | _ => none

/-- The string found under a path of member names. -/
def JSON.stringAt (path : List String) (doc : JSON) : Option String :=
  (path.foldl (fun o key => o.bind (JSON.member key)) (some doc)).bind JSON.asString

/-- What an APNS payload decodes to: its `aps.alert.title`, `aps.alert.body` and
`aps.sound`; `none` when the payload is not well-formed JSON or lacks one of them. -/
def decodePayload (payloadText : String) : Option (String × String × String) :=
  match decodeJSON payloadText with
  | none => none
  | some doc =>
    match doc.stringAt ["aps", "alert", "title"], doc.stringAt ["aps", "alert", "body"],
      doc.stringAt ["aps", "sound"] with
    | some title, some body, some sound => some (title, body, sound)
    | _, _, _ => none

/-! ## Decoding a request body (`encoding/json`) -/

/-- The number of bits of a natural number. -/
def bitLength (n : Nat) : Nat := if n = 0 then 0 else (Nat.toDigits 2 n).length

/-- The value of a run of decimal digits. -/
def digitsValue (ds : List Char) : Nat :=
  ds.foldl (fun n c => 10 * n + (c.toNat - '0'.toNat)) 0

/-- The parts of a JSON number literal: whether it has a minus sign, its integer and
fraction digits as one number `d`, and the power of ten `e` that number is scaled by:
the value is `d * 10 ^ e`. -/
def numberParts (lit : List Char) : Bool × Nat × Int :=
  let neg := lit.head? = some '-'
  let body := if neg then lit.drop 1 else lit
  let intDigits := body.takeWhile Char.isDigit
  let rest := body.dropWhile Char.isDigit
  let fracDigits := if rest.head? = some '.' then (rest.drop 1).takeWhile Char.isDigit else []
  let rest := if rest.head? = some '.' then (rest.drop 1).dropWhile Char.isDigit else rest
  let expPart := rest.drop 1
  let expNeg := expPart.head? = some '-'
  let expDigits :=
    if expPart.head? = some '-' ∨ expPart.head? = some '+' then expPart.drop 1 else expPart
  let e : Int :=
    if expNeg then -(digitsValue expDigits : Int) else (digitsValue expDigits : Int)
  (neg, digitsValue (intDigits ++ fracDigits), e - (fracDigits.length : Int))

/-- The `float64` nearest to `p / q`, ties going to the even mantissa; `none` when it is
beyond the largest finite value. -/
def nearestFloat64 (neg : Bool) (p q : Nat) : Option Float64 :=
  let e1 : Int := (bitLength p : Int) - (bitLength q : Int) - 52
  let atLeast : Bool := decide (q * 2 ^ (e1 + 52).toNat ≤ p * 2 ^ (-(e1 + 52)).toNat)
  let e : Int := max (if atLeast then e1 else e1 - 1) (-1074)
  let num := p * 2 ^ (-e).toNat
  let den := q * 2 ^ e.toNat
  let qt := num / den
  let r := num % den
  let m := if den < 2 * r ∨ (2 * r = den ∧ qt % 2 = 1) then qt + 1 else qt
  let (m, e) := if 2 ^ 53 ≤ m then (2 ^ 52, e + 1) else (m, e)
  if m < 2 ^ 52 then some { sign := neg, exponent := 0, fraction := m }
  else if 2047 ≤ e + 1075 then none
  else some { sign := neg, exponent := (e + 1075).toNat, fraction := m - 2 ^ 52 }

/-- The call `strconv.ParseFloat(lit, 64)` on a JSON number literal: the nearest
`float64`, `none` for the range error of a value that rounds to an infinity. -/
def ParseFloat (lit : List Char) : Option Float64 :=
  let (neg, d, e) := numberParts lit
  let nd := (Nat.toDigits 10 d).length
  if d = 0 then some { sign := neg, exponent := 0, fraction := 0 }
  else if 310 < (nd : Int) + e then none
  else if (nd : Int) + e < -330 then some { sign := neg, exponent := 0, fraction := 0 }
  else nearestFloat64 neg (d * 10 ^ e.toNat) (10 ^ (-e).toNat)

/-- Store an entry in the list of entries of a map: `m[k] = v`. -/
def setEntry {α : Type} (k : String) (v : α) : List (String × α) → List (String × α)
  | [] => [(k, v)]
  | x :: rest => if x.1 = k then (k, v) :: rest else x :: setEntry k v rest

mutual
/-- The number of arrays and objects open at the deepest point of a JSON value. -/
def JSON.depth : JSON → Nat
  | .arr items => JSON.depthItems items + 1
  | .obj members => JSON.depthMembers members + 1
  | _ => 0
/-- The greatest depth among the items of an array. -/
def JSON.depthItems : List JSON → Nat
  | [] => 0
  | v :: rest => max (JSON.depth v) (JSON.depthItems rest)
/-- The greatest depth among the member values of an object. -/
def JSON.depthMembers : List (String × JSON) → Nat
  | [] => 0
  | (_, v) :: rest => max (JSON.depth v) (JSON.depthMembers rest)
end

mutual
/-- The method `valueInterface` of the decoder: a JSON value as a Go `interface{}`; a
number becomes a `float64`, and one out of range is an error (`none`); of the members
of an object that repeat a key the last one stays. -/
def valueInterface : JSON → Option DataValue
  | .null => some .null
  | .bool b => some (.bool b)
  | .num text =>
    match ParseFloat text.data with
    | some f => some (.number f)
    | none => none
  | .str s => some (.str s)
  | .arr items =>
    match arrayInterface items with
    | some vs => some (.array vs)
    | none => none
  | .obj members =>
    match objectInterface members with
    | some ms => some (.object (ms.foldl (fun acc kv => setEntry kv.1 kv.2 acc) []))
    | none => none
/-- The method `arrayInterface`: the elements of an array, in order. -/
def arrayInterface : List JSON → Option (List DataValue)
  | [] => some []
  | v :: rest =>
    match valueInterface v, arrayInterface rest with
    | some x, some xs => some (x :: xs)
    | _, _ => none
/-- The members of an object as key and value pairs, in the order written. -/
def objectInterface : List (String × JSON) → Option (List (String × DataValue))
  | [] => some []
  | (k, v) :: rest =>
    match valueInterface v, objectInterface rest with
    | some x, some xs => some ((k, x) :: xs)
    | _, _ => none
end

/-- The function `foldRune` of `encoding/json` on the characters that can fold to an
ASCII letter: a lower-case ASCII letter, the long s (U+017F) and the Kelvin sign
(U+212A) fold to the upper-case letter; every other character is left as it is, which
decides a comparison with an ASCII name the same way. -/
def foldRune (c : Char) : Char :=
  if 'a' ≤ c ∧ c ≤ 'z' then Char.ofNat (c.toNat - 32)
  else if c.toNat = 0x17F then 'S'
  else if c.toNat = 0x212A then 'K'
  else c

/-- The function `foldName`: two names match a struct field alike when their folded
forms are equal. -/
def foldName (name : String) : List Char := name.data.map foldRune

/-- Decode a member value into a `string` field: a JSON string is stored, `null` leaves
the field as it is, any other value is an `UnmarshalTypeError` (`none`). -/
def unmarshalString (v : JSON) (old : String) : Option String :=
  match v with
  | .str s => some s
  | .null => some old
  | _ => none

/-- Decode a member value into the field `Data map[string]interface{}`: an object is
stored entry by entry into the map, made first when the field is nil; `null` sets the
field to nil; any other value is an `UnmarshalTypeError` (`none`). -/
def unmarshalData (v : JSON) (old : Option (GoMap DataValue)) :
    Option (Option (GoMap DataValue)) :=
  match v with
  | .null => some none
  | .obj members =>
    match objectInterface members with
    | some ms =>
      some (some (ms.foldl (fun m kv => m.set kv.1 kv.2) (old.getD (GoMap.make DataValue))))
    | none => none
  | _ => none

/-- Decode one member of the body object into the request struct: the key selects the
field whose JSON name it matches, exactly or under case folding; a key that matches no
field is skipped. -/
def unmarshalMember (req : PushRequest) (kv : String × JSON) : Option PushRequest :=
  if foldName kv.1 = foldName "user_id" then
    (unmarshalString kv.2 req.UserID).map (fun s => { req with UserID := s })
  else if foldName kv.1 = foldName "device_token" then
    (unmarshalString kv.2 req.DeviceToken).map (fun s => { req with DeviceToken := s })
  else if foldName kv.1 = foldName "title" then
    (unmarshalString kv.2 req.Title).map (fun s => { req with Title := s })
  else if foldName kv.1 = foldName "body" then
    (unmarshalString kv.2 req.Body).map (fun s => { req with Body := s })
  else if foldName kv.1 = foldName "data" then
    (unmarshalData kv.2 req.Data).map (fun d => { req with Data := d })
  else some req

/-- Decode the members of the body object in the order written, stopping at the first
error. -/
def unmarshalMembers (req : PushRequest) : List (String × JSON) → Option PushRequest
  | [] => some req
  | kv :: rest =>
    match unmarshalMember req kv with
    | some req' => unmarshalMembers req' rest
    | none => none

/-- The function `json.Unmarshal` into a zero `APNSPushRequest` or `FCMPushRequest`:
`null` leaves the struct zero, an object is decoded member by member, and any other
value is an `UnmarshalTypeError` (`none`). -/
def UnmarshalPushRequest (v : JSON) : Option PushRequest :=
  let zero : PushRequest :=
    { UserID := "", DeviceToken := "", Title := "", Body := "", Data := none }
  match v with
  | .null => some zero
  | .obj members => unmarshalMembers zero members
  | _ => none

/-- Go's `maxNestingDepth`: the scanner refuses a value nested deeper. -/
def maxNestingDepth : Nat := 10000

/-- The call `json.NewDecoder(r.Body).Decode(&req)` of the push handlers on a body read
in full: it reads the first JSON value of the body, skipping white space before it, and
decodes that value into the request struct; the bytes after the value are left unread.
`none` is a non-nil error: no complete value at the start, a value nested too deep, or
a value that does not fit the struct. The body is text, that is valid UTF-8. -/
def DecodePushRequest (body : String) : Option PushRequest :=
  match parseJSON (body.length + 1) .value body.data with
  | none => none
  | some (v, _) => if maxNestingDepth < v.depth then none else UnmarshalPushRequest v

/-- An authenticated POST as a push handler receives it: the tenant bound by the
authenticator and the body as sent, decoded as the handler decodes it. -/
def postWithBody (tenantID body : String) : Request :=
  { Method := "POST", Header := [], Body := DecodePushRequest body,
    tenantID := some tenantID }

/-- A body that is not a JSON document: a complete object followed by the bytes `xyz`. -/
def trailingBody : String :=
  "\x7b\"device_token\":\"abc\",\"title\":\"hi\",\"body\":\"there\"\x7dxyz"

/-- A body that is a JSON document with the three required fields and custom data. -/
def goodBody : String :=
  "\x7b\"device_token\":\"abc\",\"title\":\"hi\",\"body\":\"there\"," ++
    "\"data\":\x7b\"n\":1234567,\"s\":\"x\"\x7d\x7d"

/-- A body cut off in the middle of the object. -/
def truncatedBody : String := "\x7b\"device_token\":\"abc\",\"title\":"

/-- A body that is a JSON document whose title is a number. -/
def wrongTypeBody : String :=
  "\x7b\"device_token\":\"abc\",\"title\":7,\"body\":\"there\"\x7d"

/-- A body that is a JSON document with an empty title. -/
def emptyTitleBody : String :=
  "\x7b\"device_token\":\"abc\",\"title\":\"\",\"body\":\"there\"\x7d"

/-! ## The hourly refresher (`database.go`) -/

/-- Go's constant `unixToInternal` of package `time`: the seconds from the zero time
(January 1, year 1, 00:00:00 UTC) to the Unix epoch. -/
def unixToInternal : Int := (1969 * 365 + 1969 / 4 - 1969 / 100 + 1969 / 400) * 86400

/-- The method `t.Truncate(d)`: `t` rounded down to a multiple of `d` counted from the
zero time; `t` itself when `d ≤ 0`. -/
def Time.Truncate (t : Time) (d : Int) : Time :=
  if d ≤ 0 then t else t - (t + unixToInternal * 1000000000) % d

/-- Go's `minDuration`, the least value of a `Duration`. -/
def minDuration : Int := -9223372036854775808

/-- Go's `maxDuration`, the greatest value of a `Duration`. -/
def maxDuration : Int := 9223372036854775807

/-- The method `t.Sub(u)`: the duration `t - u`, saturated at the bounds of `Duration`. -/
def Time.Sub (t u : Time) : Int :=
  if t - u < minDuration then minDuration
  else if maxDuration < t - u then maxDuration
  else t - u

/-- The function `time.Until(t)`, shorthand for `t.Sub(time.Now())`; `now` is the
reading of that `time.Now()` call. -/
def Until (t : Time) (now : Time) : Int := Time.Sub t now

/-- What `time.Sleep(d)` guarantees: called at `start`, it returns at an instant `wake`
not before `start`, and at least `d` later when `d` is positive. -/
def sleepReturns (start d wake : Int) : Bool :=
  decide (start ≤ wake) && decide (start + d ≤ wake)

/-- The clock readings of one turn of the loop in `StartDigestRefresher`: `now` is the
`time.Now()` of the turn, `untilNow` the reading inside `time.Until`, and `load1`,
`load2` the two readings inside `LoadAPIKeys`. -/
structure RefresherTurn where
  now : Time
  untilNow : Time
  load1 : Time
  load2 : Time
  deriving DecidableEq, Repr

namespace Cache

/-- The wake-up instant `next := now.Truncate(time.Hour).Add(time.Hour)` of a turn. -/
def refresherNext (now : Time) : Time := Time.Truncate now Hour + Hour

/-- The argument `time.Until(next)` of the `time.Sleep` call of a turn. -/
def refresherSleep (now untilNow : Time) : Int := Until (refresherNext now) untilNow

/-- The readings of a turn are those of one clock that never runs backwards, and the
sleep returned as `time.Sleep` guarantees before `LoadAPIKeys` read the clock. -/
def turnOrdered (turn : RefresherTurn) : Bool :=
  decide (turn.now ≤ turn.untilNow) &&
    sleepReturns turn.untilNow (refresherSleep turn.now turn.untilNow) turn.load1 &&
    decide (turn.load1 ≤ turn.load2)

/-- The loop of `StartDigestRefresher`, run for the turns of the given list: each turn
sleeps until its wake-up instant and reloads; the error of the reload is discarded. -/
def StartDigestRefresher (hash : String → String) (db : Store) :
    List RefresherTurn → Cache → Cache
  | [], c => c
  | turn :: rest, c =>
    StartDigestRefresher hash db rest (LoadAPIKeys hash db turn.load1 turn.load2 c).1

end Cache

/-- The hour boundary 2025-11-04 10:00:00 UTC. -/
def sampleBoundary : Time := 1762250400 * 1000000000

/-- A turn of the refresher whose first reading is one nanosecond before the hour
boundary 10:00:00 and whose later readings are at the boundary. -/
def boundaryTurn : RefresherTurn :=
  { now := sampleBoundary - 1
    untilNow := sampleBoundary
    load1 := sampleBoundary
    load2 := sampleBoundary }

/-- A turn of the refresher that starts at 09:53:20, reads the clock again 50 ns later
and reloads 100 ns after the hour boundary 10:00:00. -/
def sampleTurn : RefresherTurn :=
  { now := sampleInstant
    untilNow := sampleInstant + 50
    load1 := sampleBoundary + 100
    load2 := sampleBoundary + 150 }

/-- A sample custom-data map holding a value of every kind a decoded JSON document can
hold: a string, the numbers `3`, `1234567`, `0.1` and `0.000001`, a boolean, `nil`, a
slice and a nested map. -/
def sampleData : GoMap DataValue :=
  [("id", DataValue.str "x1"),
    ("count", .number { sign := false, exponent := 1024, fraction := 2251799813685248 }),
    ("big", .number { sign := false, exponent := 1043, fraction := 798825262350336 }),
    ("ratio", .number { sign := false, exponent := 1019, fraction := 2702159776422298 }),
    ("tiny", .number { sign := false, exponent := 1003, fraction := 218766855499149 }),
    ("flag", .bool true),
    ("gone", .null),
    ("tags", .array [.str "a",
      .number { sign := false, exponent := 1024, fraction := 2251799813685248 }, .null]),
    ("meta", .object [("b", .bool false), ("a", .str "z")])].foldl
    (fun m kv => m.set kv.1 kv.2) (GoMap.make DataValue)

/-! ## Lemmas: hours and buckets -/

theorem hourOfDay_range (t : Int) : 0 ≤ hourOfDay t ∧ hourOfDay t < 24 := by
  unfold hourOfDay unixSeconds; omega

theorem hourOfDay_next_ne (now1 now2 : Int) (h1 : now1 ≤ now2) (h2 : now2 < now1 + Hour) :
    hourOfDay now1 ≠ hourOfDay (now2 + Hour) := by
  unfold hourOfDay unixSeconds Hour at *; omega

theorem hourOfDay_prev_ne (now1 : Int) :
    hourOfDay (now1 - 2 * Hour) ≠ hourOfDay now1 := by
  unfold hourOfDay unixSeconds Hour at *; omega

theorem hourOfDay_prev_ne_next (now1 now2 : Int) (h1 : now1 ≤ now2)
    (h2 : now2 < now1 + Hour) : hourOfDay (now1 - 2 * Hour) ≠ hourOfDay (now2 + Hour) := by
  unfold hourOfDay unixSeconds Hour at *; omega

theorem appendInt_hour_length :
    ∀ h : Fin 24, (appendInt (h.val : Int) 2).data.length = 2 := by
  decide

theorem appendInt_hour_inj :
    ∀ h h' : Fin 24, appendInt (h.val : Int) 2 = appendInt (h'.val : Int) 2 → h = h' := by
  decide

theorem hourOfDay_fin (t : Time) : ∃ h : Fin 24, (h.val : Int) = hourOfDay t := by
  obtain ⟨h0, h1⟩ := hourOfDay_range t
  refine ⟨⟨(hourOfDay t).toNat, by omega⟩, ?_⟩
  simp only
  omega

/-- Two strings that end in hour buckets are equal only if the hours of day agree. -/
theorem append_hourBucket_hour (k k' : String) (t t' : Time)
    (h : k ++ hourBucket t = k' ++ hourBucket t') : hourOfDay t = hourOfDay t' := by
  obtain ⟨f, hf⟩ := hourOfDay_fin t
  obtain ⟨f', hf'⟩ := hourOfDay_fin t'
  have hd := congrArg String.data h
  simp only [hourBucket, String.data_append, ← hf, ← hf'] at hd
  rw [← List.append_assoc, ← List.append_assoc] at hd
  have hlen : (appendInt (f.val : Int) 2).data.length = (appendInt (f'.val : Int) 2).data.length := by
    rw [appendInt_hour_length f, appendInt_hour_length f']
  have h2 := (List.append_inj' hd hlen).2
  have h3 : f = f' := appendInt_hour_inj f f' (String.ext h2)
  rw [← hf, ← hf', h3]

theorem hourBucket_ne_of_hour (t t' : Time) (h : hourOfDay t ≠ hourOfDay t') :
    hourBucket t ≠ hourBucket t' := by
  intro he
  exact h (append_hourBucket_hour "" "" t t' (by rw [he]))

theorem string_append_right_cancel (k k' b : String) (h : k ++ b = k' ++ b) : k = k' := by
  have hd := congrArg String.data h
  simp only [String.data_append] at hd
  exact String.ext (List.append_cancel_right hd)

/-! ## Lemmas: maps -/

namespace GoMap

theorem get?_set_self {V : Type} (m : GoMap V) (k : String) (v : V) :
    (m.set k v).get? k = some v := by
  simp [get?, set]

theorem get?_set_ne {V : Type} (m : GoMap V) {k k' : String} (v : V) (h : k' ≠ k) :
    (m.set k v).get? k' = m.get? k' := by
  simp [get?, set, AList.lookup_insert_ne h]

theorem get?_delete_self {V : Type} (m : GoMap V) (k : String) :
    (m.delete k).get? k = none := by
  simp [get?, delete]

theorem get?_delete_ne {V : Type} (m : GoMap V) {k k' : String} (h : k' ≠ k) :
    (m.delete k).get? k' = m.get? k' := by
  simp [get?, delete, AList.lookup_erase_ne h]

theorem get?_make {V : Type} (k : String) : (make V).get? k = none := by
  simp [get?, make]

theorem mem_set {V : Type} (m : GoMap V) (k k' : String) (v : V) :
    k' ∈ m.set k v ↔ k' = k ∨ k' ∈ m := by
  simp [set]

theorem get?_isSome {V : Type} (m : GoMap V) (k : String) : (m.get? k).isSome ↔ k ∈ m := by
  simp [get?, AList.lookup_isSome]

theorem get?_eq_none {V : Type} (m : GoMap V) (k : String) : m.get? k = none ↔ k ∉ m := by
  simp [get?, AList.lookup_eq_none]

theorem len_set_of_not_mem {V : Type} (m : GoMap V) (k : String) (v : V) (h : k ∉ m) :
    (m.set k v).len = m.len + 1 := by
  unfold len set
  rw [AList.insert_entries_of_neg h]
  rfl

theorem len_make {V : Type} : (make V).len = 0 := by
  simp [len, make]

end GoMap

/-! ## Lemmas: the reload loop -/

namespace Cache

theorem LoadAPIKeys_ok_iff (hash : String → String) (db : Store) (now1 now2 : Time)
    (c : Cache) : (LoadAPIKeys hash db now1 now2 c).2 = none ↔ db.failure = none := by
  unfold LoadAPIKeys Store.findEnabledAPIKeys
  cases db.failure <;> simp

theorem LoadAPIKeys_ok (hash : String → String) (db : Store) (now1 now2 : Time)
    (c : Cache) (h : db.failure = none) :
    (LoadAPIKeys hash db now1 now2 c).1 =
      db.enabledKeys.foldl (loadOne hash (hourBucket now1) (hourBucket (now2 + Hour)))
        NewCache := by
  unfold LoadAPIKeys Store.findEnabledAPIKeys
  rw [h]
  rfl

theorem foldl_digests_mem (hash : String → String) (cur next : String) (keys : List APIKey) :
    ∀ (c0 : Cache) (d : String), d ∈ (keys.foldl (loadOne hash cur next) c0).digests ↔
      d ∈ c0.digests ∨
        ∃ r ∈ keys, d = hash (r.APIKey ++ cur) ∨ d = hash (r.APIKey ++ next) := by
  induction keys with
  | nil => intro c0 d; simp
  | cons r rest ih =>
    intro c0 d
    rw [List.foldl_cons, ih]
    simp only [loadOne, GoMap.mem_set]
    constructor
    · rintro ((h | h | h) | ⟨r', hr', h⟩)
      · exact Or.inr ⟨r, List.mem_cons_self _ _, Or.inr h⟩
      · exact Or.inr ⟨r, List.mem_cons_self _ _, Or.inl h⟩
      · exact Or.inl h
      · exact Or.inr ⟨r', List.mem_cons_of_mem _ hr', h⟩
    · rintro (h | ⟨r', hr', h⟩)
      · exact Or.inl (Or.inr (Or.inr h))
      · rcases List.mem_cons.1 hr' with rfl | hr'
        · rcases h with h | h
          · exact Or.inl (Or.inr (Or.inl h))
          · exact Or.inl (Or.inl h)
        · exact Or.inr ⟨r', hr', h⟩

theorem foldl_tenants_mem (hash : String → String) (cur next : String) (keys : List APIKey) :
    ∀ (c0 : Cache) (t : String), t ∈ (keys.foldl (loadOne hash cur next) c0).tenants ↔
      t ∈ c0.tenants ∨ ∃ r ∈ keys, t = r.TenantID := by
  induction keys with
  | nil => intro c0 t; simp
  | cons r rest ih =>
    intro c0 t
    rw [List.foldl_cons, ih]
    simp only [loadOne, GoMap.mem_set]
    constructor
    · rintro ((h | h) | ⟨r', hr', h⟩)
      · exact Or.inr ⟨r, List.mem_cons_self _ _, h⟩
      · exact Or.inl h
      · exact Or.inr ⟨r', List.mem_cons_of_mem _ hr', h⟩
    · rintro (h | ⟨r', hr', h⟩)
      · exact Or.inl (Or.inr h)
      · rcases List.mem_cons.1 hr' with rfl | hr'
        · exact Or.inl (Or.inl h)
        · exact Or.inr ⟨r', hr', h⟩

theorem foldl_digests_get (hash : String → String) (cur next : String) (keys : List APIKey) :
    ∀ (c0 : Cache) (d tid : String),
      (keys.foldl (loadOne hash cur next) c0).digests.get? d = some tid →
      c0.digests.get? d = some tid ∨
        ∃ r ∈ keys, tid = r.TenantID ∧
          (d = hash (r.APIKey ++ cur) ∨ d = hash (r.APIKey ++ next)) := by
  induction keys with
  | nil => intro c0 d tid h; exact Or.inl h
  | cons r rest ih =>
    intro c0 d tid h
    rw [List.foldl_cons] at h
    rcases ih _ d tid h with h1 | ⟨r', hr', ht, hd⟩
    · simp only [loadOne] at h1
      by_cases hn : d = hash (r.APIKey ++ next)
      · subst hn
        rw [GoMap.get?_set_self] at h1
        exact Or.inr ⟨r, List.mem_cons_self _ _, (Option.some.inj h1).symm, Or.inr rfl⟩
      · rw [GoMap.get?_set_ne _ _ hn] at h1
        by_cases hc : d = hash (r.APIKey ++ cur)
        · subst hc
          rw [GoMap.get?_set_self] at h1
          exact Or.inr ⟨r, List.mem_cons_self _ _, (Option.some.inj h1).symm, Or.inl rfl⟩
        · rw [GoMap.get?_set_ne _ _ hc] at h1
          exact Or.inl h1
    · exact Or.inr ⟨r', List.mem_cons_of_mem _ hr', ht, hd⟩

theorem CollisionFreeOn_mono {hash : String → String} {xs ys : List String}
    (h : CollisionFreeOn hash ys) (hsub : ∀ a ∈ xs, a ∈ ys) : CollisionFreeOn hash xs :=
  fun a ha b hb hab => h a (hsub a ha) b (hsub b hb) hab

theorem mem_digestInputs_cur {keys : List APIKey} {cur next : String} {r : APIKey}
    (hr : r ∈ keys) : r.APIKey ++ cur ∈ digestInputs keys cur next := by
  unfold digestInputs
  exact List.mem_append_left _ (List.mem_map.2 ⟨r, hr, rfl⟩)

theorem mem_digestInputs_next {keys : List APIKey} {cur next : String} {r : APIKey}
    (hr : r ∈ keys) : r.APIKey ++ next ∈ digestInputs keys cur next := by
  unfold digestInputs
  exact List.mem_append_right _ (List.mem_map.2 ⟨r, hr, rfl⟩)

/-- What the loop leaves under a digest it computed, when the hashed strings of the two
buckets cannot coincide. -/
theorem foldl_digests_resolve (hash : String → String) (cur next : String)
    (keys : List APIKey) (hsep : ∀ k k' : String, k ++ cur ≠ k' ++ next)
    (huniq : (keys.map (fun r => r.APIKey)).Nodup)
    (hfree : CollisionFreeOn hash (digestInputs keys cur next))
    (r : APIKey) (hr : r ∈ keys) :
    (keys.foldl (loadOne hash cur next) NewCache).digests.get? (hash (r.APIKey ++ cur))
        = some r.TenantID ∧
      (keys.foldl (loadOne hash cur next) NewCache).digests.get? (hash (r.APIKey ++ next))
        = some r.TenantID := by
  have hinj := List.inj_on_of_nodup_map huniq
  have key : ∀ d, (d = hash (r.APIKey ++ cur) ∨ d = hash (r.APIKey ++ next)) →
      (keys.foldl (loadOne hash cur next) NewCache).digests.get? d = some r.TenantID := by
    intro d hd
    have hmem : d ∈ (keys.foldl (loadOne hash cur next) NewCache).digests :=
      (foldl_digests_mem hash cur next keys NewCache d).2 (Or.inr ⟨r, hr, hd⟩)
    have hsome := (GoMap.get?_isSome _ _).2 hmem
    obtain ⟨tid, htid⟩ := Option.isSome_iff_exists.1 hsome
    rcases foldl_digests_get hash cur next keys NewCache d tid htid with h0 | ⟨r', hr', ht, hd'⟩
    · simp [NewCache, GoMap.get?_make] at h0
    · have hrr : r' = r := by
        rcases hd with hd | hd <;> rcases hd' with hd' | hd'
        · have := hfree _ (mem_digestInputs_cur hr) _ (mem_digestInputs_cur hr')
            (hd.symm.trans hd')
          exact (hinj hr hr' (string_append_right_cancel _ _ _ this)).symm
        · have := hfree _ (mem_digestInputs_cur hr) _ (mem_digestInputs_next hr')
            (hd.symm.trans hd')
          exact absurd this (hsep _ _)
        · have := hfree _ (mem_digestInputs_next hr) _ (mem_digestInputs_cur hr')
            (hd.symm.trans hd')
          exact absurd this.symm (hsep _ _)
        · have := hfree _ (mem_digestInputs_next hr) _ (mem_digestInputs_next hr')
            (hd.symm.trans hd')
          exact (hinj hr hr' (string_append_right_cancel _ _ _ this)).symm
      rw [htid, ht, hrr]
  exact ⟨key _ (Or.inl rfl), key _ (Or.inr rfl)⟩

/-- The loop adds two fresh digests per record. -/
theorem foldl_digests_len (hash : String → String) (cur next : String)
    (hsep : ∀ k k' : String, k ++ cur ≠ k' ++ next) (keys : List APIKey) :
    (keys.map (fun r => r.APIKey)).Nodup →
    CollisionFreeOn hash (digestInputs keys cur next) →
    (keys.foldl (loadOne hash cur next) NewCache).digests.len = 2 * keys.length := by
  induction keys using List.reverseRecOn with
  | nil => intro _ _; simp [NewCache, GoMap.len_make]
  | append_singleton l r ih =>
    intro huniq hfree
    have hsub : ∀ a ∈ digestInputs l cur next, a ∈ digestInputs (l ++ [r]) cur next := by
      intro a ha
      unfold digestInputs at ha ⊢
      simp only [List.mem_append, List.mem_map, List.mem_singleton] at ha ⊢
      rcases ha with ⟨x, hx, rfl⟩ | ⟨x, hx, rfl⟩
      · exact Or.inl ⟨x, Or.inl hx, rfl⟩
      · exact Or.inr ⟨x, Or.inl hx, rfl⟩
    have huniq' : (l.map (fun r => r.APIKey)).Nodup := by
      rw [List.map_append] at huniq
      exact (List.nodup_append.1 huniq).1
    have hnew : ∀ r' ∈ l, r'.APIKey ≠ r.APIKey := by
      intro r' hr' he
      have hinj := List.inj_on_of_nodup_map huniq
      have hrl : r' ∈ l ++ [r] := List.mem_append_left _ hr'
      have hrr : r ∈ l ++ [r] := List.mem_append_right _ (List.mem_singleton_self r)
      have heq : r' = r := hinj hrl hrr he
      subst heq
      rw [List.map_append] at huniq
      exact (List.disjoint_of_nodup_append huniq) (List.mem_map.2 ⟨r', hr', rfl⟩)
        (List.mem_map.2 ⟨r', List.mem_singleton_self _, rfl⟩)
    have hrmem : r ∈ l ++ [r] := List.mem_append_right _ (List.mem_singleton_self r)
    have ihl := ih huniq' (CollisionFreeOn_mono hfree hsub)
    have hfresh : ∀ b, (b = cur ∨ b = next) →
        hash (r.APIKey ++ b) ∉ (l.foldl (loadOne hash cur next) NewCache).digests := by
      intro b hb hmem
      rcases (foldl_digests_mem hash cur next l NewCache _).1 hmem with h0 | ⟨r', hr', hd⟩
      · simp [NewCache, GoMap.make] at h0
      · have hr'm : r' ∈ l ++ [r] := List.mem_append_left _ hr'
        rcases hb with rfl | rfl <;> rcases hd with hd | hd
        · have := hfree _ (mem_digestInputs_cur hrmem) _ (mem_digestInputs_cur hr'm) hd
          exact hnew r' hr' (string_append_right_cancel _ _ _ this).symm
        · have := hfree _ (mem_digestInputs_cur hrmem) _ (mem_digestInputs_next hr'm) hd
          exact hsep _ _ this
        · have := hfree _ (mem_digestInputs_next hrmem) _ (mem_digestInputs_cur hr'm) hd
          exact hsep _ _ this.symm
        · have := hfree _ (mem_digestInputs_next hrmem) _ (mem_digestInputs_next hr'm) hd
          exact hnew r' hr' (string_append_right_cancel _ _ _ this).symm
    have hne : hash (r.APIKey ++ next) ≠ hash (r.APIKey ++ cur) := by
      intro he
      have := hfree _ (mem_digestInputs_next hrmem) _ (mem_digestInputs_cur hrmem) he
      exact hsep _ _ this.symm
    rw [List.foldl_append, List.foldl_cons, List.foldl_nil]
    simp only [loadOne]
    rw [GoMap.len_set_of_not_mem, GoMap.len_set_of_not_mem, ihl]
    · simp only [List.length_append, List.length_singleton]
      omega
    · exact hfresh cur (Or.inl rfl)
    · intro hmem
      rcases (GoMap.mem_set _ _ _ _).1 hmem with h | h
      · exact hne h
      · exact hfresh next (Or.inr rfl) h

theorem hsep_of_hour {t t' : Time} (h : hourOfDay t ≠ hourOfDay t') :
    ∀ k k' : String, k ++ hourBucket t ≠ k' ++ hourBucket t' :=
  fun k k' he => h (append_hourBucket_hour k k' t t' he)

end Cache

/-! ## Theorems: the auth digest cache -/

theorem CollisionFreeOn_sampleHash (inputs : List String) :
    CollisionFreeOn sampleHash inputs :=
  fun _ _ _ _ h => h

/-- C1. After a successful `LoadAPIKeys` whose two clock readings `now1 ≤ now2` are less
than an hour apart (a single reading `t` is the case `now1 = now2 = t`), every loaded
record resolves under both of its digests: the lookup of the hash of its key followed by
the bucket of `now1`, and of its key followed by the bucket of `now2 + 1h`, returns the
record's tenant ID. Preconditions: loaded key values are pairwise distinct and the hash
has no collision among the strings this reload hashes. -/
theorem C1_loaded_digests_resolve (hash : String → String) (db : Store) (now1 now2 : Time)
    (c : Cache) (r : APIKey)
    (hok : (Cache.LoadAPIKeys hash db now1 now2 c).2 = none)
    (hclock : now1 ≤ now2 ∧ now2 < now1 + Hour)
    (huniq : (db.enabledKeys.map (fun k => k.APIKey)).Nodup)
    (hfree : CollisionFreeOn hash
      (digestInputs db.enabledKeys (hourBucket now1) (hourBucket (now2 + Hour))))
    (hr : r ∈ db.enabledKeys) :
    (Cache.LoadAPIKeys hash db now1 now2 c).1.GetTenantIDByDigest
        (hash (r.APIKey ++ hourBucket now1)) = r.TenantID ∧
      (Cache.LoadAPIKeys hash db now1 now2 c).1.GetTenantIDByDigest
        (hash (r.APIKey ++ hourBucket (now2 + Hour))) = r.TenantID := by
  have hdb := (Cache.LoadAPIKeys_ok_iff hash db now1 now2 c).1 hok
  rw [Cache.LoadAPIKeys_ok hash db now1 now2 c hdb]
  have hsep := Cache.hsep_of_hour (hourOfDay_next_ne now1 now2 hclock.1 hclock.2)
  obtain ⟨h1, h2⟩ := Cache.foldl_digests_resolve hash _ _ db.enabledKeys hsep huniq hfree r hr
  simp only [Cache.GetTenantIDByDigest, h1, h2, Option.getD_some, and_self]

theorem C1_loaded_digests_resolve_witness :
    (Cache.LoadAPIKeys sampleHash sampleStore 0 0 NewCache).1.GetTenantIDByDigest
        (sampleHash ("k1" ++ hourBucket 0)) = "acme" ∧
      (Cache.LoadAPIKeys sampleHash sampleStore 0 0 NewCache).1.GetTenantIDByDigest
        (sampleHash ("k1" ++ hourBucket (0 + Hour))) = "acme" :=
  C1_loaded_digests_resolve sampleHash sampleStore 0 0 NewCache sampleKey1 (by decide)
    (by decide) (by decide) (CollisionFreeOn_sampleHash _) (by decide)

/-- C2. After a successful `LoadAPIKeys` with clock readings `now1 ≤ now2` less than an
hour apart, the digest of a loaded record's key for the bucket two hours before `now1`
does not resolve: `GetTenantIDByDigest` returns the empty string, the hash having no
collision among the strings of this reload and the probed one. The bucket of
`now1 - 2h` differs from the buckets of `now1` and of `now2 + 1h`. -/
theorem C2_stale_digest_rejected (hash : String → String) (db : Store) (now1 now2 : Time)
    (c : Cache) (r : APIKey)
    (hok : (Cache.LoadAPIKeys hash db now1 now2 c).2 = none)
    (hclock : now1 ≤ now2 ∧ now2 < now1 + Hour)
    (hfree : CollisionFreeOn hash
      ((r.APIKey ++ hourBucket (now1 - 2 * Hour)) ::
        digestInputs db.enabledKeys (hourBucket now1) (hourBucket (now2 + Hour))))
    (_hr : r ∈ db.enabledKeys) :
    (Cache.LoadAPIKeys hash db now1 now2 c).1.GetTenantIDByDigest
        (hash (r.APIKey ++ hourBucket (now1 - 2 * Hour))) = "" ∧
      hourBucket (now1 - 2 * Hour) ≠ hourBucket now1 ∧
      hourBucket (now1 - 2 * Hour) ≠ hourBucket (now2 + Hour) := by
  have hdb := (Cache.LoadAPIKeys_ok_iff hash db now1 now2 c).1 hok
  rw [Cache.LoadAPIKeys_ok hash db now1 now2 c hdb]
  have hp1 := hourOfDay_prev_ne now1
  have hp2 := hourOfDay_prev_ne_next now1 now2 hclock.1 hclock.2
  refine ⟨?_, hourBucket_ne_of_hour _ _ hp1, hourBucket_ne_of_hour _ _ hp2⟩
  have hnot : hash (r.APIKey ++ hourBucket (now1 - 2 * Hour)) ∉
      (db.enabledKeys.foldl
        (Cache.loadOne hash (hourBucket now1) (hourBucket (now2 + Hour))) NewCache).digests := by
    intro hmem
    rcases (Cache.foldl_digests_mem hash _ _ _ NewCache _).1 hmem with h0 | ⟨r', hr', hd⟩
    · simp [NewCache, GoMap.make] at h0
    · rcases hd with hd | hd
      · have := hfree _ (List.mem_cons_self _ _) _
          (List.mem_cons_of_mem _ (Cache.mem_digestInputs_cur hr')) hd
        exact Cache.hsep_of_hour hp1 _ _ this
      · have := hfree _ (List.mem_cons_self _ _) _
          (List.mem_cons_of_mem _ (Cache.mem_digestInputs_next hr')) hd
        exact Cache.hsep_of_hour hp2 _ _ this
  simp only [Cache.GetTenantIDByDigest, (GoMap.get?_eq_none _ _).2 hnot, Option.getD_none]

theorem C2_stale_digest_rejected_witness :
    (Cache.LoadAPIKeys sampleHash sampleStore (5 * Hour) (5 * Hour) NewCache).1.GetTenantIDByDigest
        (sampleHash ("k1" ++ hourBucket (5 * Hour - 2 * Hour))) = "" ∧
      hourBucket (5 * Hour - 2 * Hour) ≠ hourBucket (5 * Hour) ∧
      hourBucket (5 * Hour - 2 * Hour) ≠ hourBucket (5 * Hour + Hour) :=
  C2_stale_digest_rejected sampleHash sampleStore (5 * Hour) (5 * Hour) NewCache sampleKey1
    (by decide) (by decide) (CollisionFreeOn_sampleHash _) (by decide)

/-- C3. `LoadAPIKeys` returns an error exactly when the store query for the non-disabled
keys fails, and then both maps of the cache are what they were before the call, so every
`GetTenantIDByDigest` and `GetAPIKey` lookup answers as before. -/
theorem C3_failed_reload_keeps_cache (hash : String → String) (db : Store)
    (now1 now2 : Time) (c : Cache) :
    ((Cache.LoadAPIKeys hash db now1 now2 c).2 ≠ none ↔
        ∃ e, db.findEnabledAPIKeys = Except.error e) ∧
      ((Cache.LoadAPIKeys hash db now1 now2 c).2 ≠ none →
        (Cache.LoadAPIKeys hash db now1 now2 c).1.tenants = c.tenants ∧
        (Cache.LoadAPIKeys hash db now1 now2 c).1.digests = c.digests ∧
        (∀ d, (Cache.LoadAPIKeys hash db now1 now2 c).1.GetTenantIDByDigest d =
          c.GetTenantIDByDigest d) ∧
        (∀ t, (Cache.LoadAPIKeys hash db now1 now2 c).1.GetAPIKey t = c.GetAPIKey t)) := by
  unfold Cache.LoadAPIKeys
  cases hq : db.findEnabledAPIKeys with
  | error e => simp
  | ok keys => simp

theorem C3_failed_reload_keeps_cache_witness :
    (Cache.LoadAPIKeys sampleHash brokenStore 0 0
        (Cache.LoadAPIKeys sampleHash sampleStore 0 0 NewCache).1).2 ≠ none ∧
      (Cache.LoadAPIKeys sampleHash brokenStore 0 0
        (Cache.LoadAPIKeys sampleHash sampleStore 0 0 NewCache).1).1.GetTenantIDByDigest
          "k11970-01-01-00" = "acme" :=
  ⟨by decide,
    ((C3_failed_reload_keeps_cache sampleHash brokenStore 0 0
      (Cache.LoadAPIKeys sampleHash sampleStore 0 0 NewCache).1).2 (by decide)).2.2.1
        "k11970-01-01-00" ▸ by decide⟩

/-- C4. After a successful `LoadAPIKeys` the digest index is replaced, not merged: its
key set is exactly the hashes of a loaded key followed by the bucket of `now1` or by the
bucket of `now2 + 1h`; every entry maps to the tenant of such a record, and that tenant
has an entry in the tenant-to-key map; the cache after the call does not depend on the
cache before it; and when the clock readings are less than an hour apart, the loaded
keys pairwise distinct and the hash collision-free on the hashed strings, the index
holds exactly two entries per loaded record. -/
theorem C4_digest_index_replaced (hash : String → String) (db : Store) (now1 now2 : Time)
    (c : Cache) (hok : (Cache.LoadAPIKeys hash db now1 now2 c).2 = none) :
    (∀ d, d ∈ (Cache.LoadAPIKeys hash db now1 now2 c).1.digests ↔
        ∃ r ∈ db.enabledKeys, d = hash (r.APIKey ++ hourBucket now1) ∨
          d = hash (r.APIKey ++ hourBucket (now2 + Hour))) ∧
      (∀ d tid, (Cache.LoadAPIKeys hash db now1 now2 c).1.digests.get? d = some tid →
        (∃ r ∈ db.enabledKeys, tid = r.TenantID ∧
          (d = hash (r.APIKey ++ hourBucket now1) ∨
            d = hash (r.APIKey ++ hourBucket (now2 + Hour)))) ∧
        tid ∈ (Cache.LoadAPIKeys hash db now1 now2 c).1.tenants) ∧
      (Cache.LoadAPIKeys hash db now1 now2 c).1 =
        (Cache.LoadAPIKeys hash db now1 now2 NewCache).1 ∧
      ((now1 ≤ now2 ∧ now2 < now1 + Hour) →
        (db.enabledKeys.map (fun k => k.APIKey)).Nodup →
        CollisionFreeOn hash
          (digestInputs db.enabledKeys (hourBucket now1) (hourBucket (now2 + Hour))) →
        (Cache.LoadAPIKeys hash db now1 now2 c).1.digests.len = 2 * db.enabledKeys.length) := by
  have hdb := (Cache.LoadAPIKeys_ok_iff hash db now1 now2 c).1 hok
  rw [Cache.LoadAPIKeys_ok hash db now1 now2 c hdb,
    Cache.LoadAPIKeys_ok hash db now1 now2 NewCache hdb]
  refine ⟨?_, ?_, rfl, ?_⟩
  · intro d
    rw [Cache.foldl_digests_mem]
    constructor
    · rintro (h0 | h)
      · simp [NewCache, GoMap.make] at h0
      · exact h
    · exact fun h => Or.inr h
  · intro d tid hget
    rcases Cache.foldl_digests_get hash _ _ _ NewCache d tid hget with h0 | ⟨r, hr, ht, hd⟩
    · simp [NewCache, GoMap.get?_make] at h0
    · refine ⟨⟨r, hr, ht, hd⟩, ?_⟩
      rw [Cache.foldl_tenants_mem]
      exact Or.inr ⟨r, hr, ht⟩
  · intro hclock huniq hfree
    exact Cache.foldl_digests_len hash _ _
      (Cache.hsep_of_hour (hourOfDay_next_ne now1 now2 hclock.1 hclock.2)) _ huniq hfree

theorem C4_digest_index_replaced_witness :
    (Cache.LoadAPIKeys sampleHash sampleStore 0 0
        (Cache.LoadAPIKeys sampleHash sampleStore (7 * Hour) (7 * Hour) NewCache).1).1.digests.len
      = 2 * sampleStore.enabledKeys.length :=
  (C4_digest_index_replaced sampleHash sampleStore 0 0
    (Cache.LoadAPIKeys sampleHash sampleStore (7 * Hour) (7 * Hour) NewCache).1
    (by decide)).2.2.2 (by decide) (by decide) (CollisionFreeOn_sampleHash _)

/-! ## Lemmas: the request authenticator -/

theorem splitNChars_two (s : List Char) :
    splitNChars ' ' 2 s =
      match s.dropWhile (fun c => c != ' ') with
      | [] => [s]
      | _ :: rest => [s.takeWhile (fun c => c != ' '), rest] := by
  rw [splitNChars]
  cases s.dropWhile (fun c => c != ' ') <;> simp [splitNChars]

/-- A header of the form `Digest <d>` splits into the scheme label and `d`. -/
theorem SplitN_digest (d : String) : SplitN ("Digest " ++ d) ' ' 2 = ["Digest", d] := by
  unfold SplitN
  rw [splitNChars_two]
  have h : ("Digest " ++ d).data = 'D' :: 'i' :: 'g' :: 'e' :: 's' :: 't' :: ' ' :: d.data := by
    rw [String.data_append]; rfl
  rw [h]
  simp [List.dropWhile, List.takeWhile]

/-- A header that splits into exactly two parts, the first being `Digest`, has the form
`Digest <d>` with `d` the second part. -/
theorem SplitN_digest_inv (s : String)
    (hlen : (SplitN s ' ' 2).length = 2) (h0 : (SplitN s ' ' 2).getD 0 "" = "Digest") :
    s = "Digest " ++ (SplitN s ' ' 2).getD 1 "" := by
  unfold SplitN at hlen h0 ⊢
  rw [splitNChars_two] at hlen h0 ⊢
  have hsplit := List.takeWhile_append_dropWhile (fun c => c != ' ') s.data
  cases hdw : s.data.dropWhile (fun c => c != ' ') with
  | nil => simp [hdw] at hlen
  | cons c rest =>
    rw [hdw] at h0 hsplit
    have hc : c = ' ' := by
      have hne : s.data.dropWhile (fun c => c != ' ') ≠ [] := by rw [hdw]; simp
      have := List.head_dropWhile_not (fun c => c != ' ') s.data hne
      simp only [hdw, List.head_cons] at this
      simpa using this
    subst hc
    simp only [List.map_cons, List.map_nil, List.getD_cons_zero, List.getD_cons_succ] at h0 ⊢
    have htw : s.data.takeWhile (fun c => c != ' ') = "Digest".data := congrArg String.data h0
    apply String.ext
    rw [String.data_append, ← hsplit, htw]
    rfl

theorem AuthMiddleware_accept (next : HandlerFunc) (w : ResponseWriter) (r : Request)
    (world : World) (d : String) (hh : r.HeaderGet "Authorization" = "Digest " ++ d)
    (ht : world.APICache.GetTenantIDByDigest d ≠ "") :
    AuthMiddleware next w r world =
      next w (r.WithTenantID (world.APICache.GetTenantIDByDigest d)) world := by
  unfold AuthMiddleware
  have hne : ¬ ("Digest " ++ d = "") := by
    intro h
    have := congrArg String.length h
    simp [String.length_append] at this
    have h7 : "Digest ".length = 7 := by decide
    omega
  simp only [hh, SplitN_digest, hne, if_false]
  simp [ht]

theorem AuthMiddleware_unknown (next : HandlerFunc) (w : ResponseWriter) (r : Request)
    (world : World) (d : String) (hh : r.HeaderGet "Authorization" = "Digest " ++ d)
    (ht : world.APICache.GetTenantIDByDigest d = "") :
    AuthMiddleware next w r world =
      (httpError w "Unauthorized: invalid or expired API key" StatusUnauthorized, world) := by
  unfold AuthMiddleware
  have hne : ¬ ("Digest " ++ d = "") := by
    intro h
    have := congrArg String.length h
    simp [String.length_append] at this
    have h7 : "Digest ".length = 7 := by decide
    omega
  simp only [hh, SplitN_digest, hne, if_false]
  simp [ht]

theorem httpError_status (w : ResponseWriter) (msg : String) (code : Nat)
    (hw : w.status = 0) : (httpError w msg code).status = code := by
  simp [httpError, ResponseWriter.WriteHeader, hw]

theorem AuthMiddleware_reject (w : ResponseWriter) (r : Request)
    (world : World)
    (h : ¬ ∃ d, r.HeaderGet "Authorization" = "Digest " ++ d ∧
      world.APICache.GetTenantIDByDigest d ≠ "") :
    ∃ msg, ∀ next : HandlerFunc,
      AuthMiddleware next w r world = (httpError w msg StatusUnauthorized, world) := by
  unfold AuthMiddleware
  by_cases h1 : r.HeaderGet "Authorization" = ""
  · exact ⟨"Missing Authorization header", fun _ => by simp only [h1, if_true]⟩
  · by_cases h2 : (SplitN (r.HeaderGet "Authorization") ' ' 2).length ≠ 2 ∨
        (SplitN (r.HeaderGet "Authorization") ' ' 2).getD 0 "" ≠ "Digest"
    · exact ⟨"Invalid Authorization header format. Expected: Digest <digest>",
        fun _ => by simp only [h1, if_false, h2, if_true]⟩
    · have h2' := h2
      rw [not_or, not_not, not_not] at h2'
      have hform := SplitN_digest_inv _ h2'.1 h2'.2
      by_cases h3 : world.APICache.GetTenantIDByDigest
          ((SplitN (r.HeaderGet "Authorization") ' ' 2).getD 1 "") = ""
      · exact ⟨"Unauthorized: invalid or expired API key",
          fun _ => by simp only [h1, if_false, h2, h3, if_true]⟩
      · exact absurd ⟨_, hform, h3⟩ h

/-! ## Theorems: the request authenticator -/

/-- C6. `AuthMiddleware` hands the request to the wrapped handler exactly when the
`Authorization` header is `Digest ` followed by a digest `d` that the cache maps to a
non-empty tenant ID; the request handed over then carries that tenant ID, as
`GetTenantID` returns it. In every other case the answer is `http.Error` with status
401 whatever the wrapped handler is, and the process state, the cache included, is
returned unchanged. -/
theorem C6_auth_gate (next : HandlerFunc) (w : ResponseWriter) (r : Request)
    (world : World) :
    (∀ d, r.HeaderGet "Authorization" = "Digest " ++ d →
        world.APICache.GetTenantIDByDigest d ≠ "" →
        AuthMiddleware next w r world =
          next w (r.WithTenantID (world.APICache.GetTenantIDByDigest d)) world ∧
        GetTenantID (r.WithTenantID (world.APICache.GetTenantIDByDigest d)) =
          world.APICache.GetTenantIDByDigest d) ∧
      ((¬ ∃ d, r.HeaderGet "Authorization" = "Digest " ++ d ∧
          world.APICache.GetTenantIDByDigest d ≠ "") →
        ∃ msg, (∀ next' : HandlerFunc,
            AuthMiddleware next' w r world = (httpError w msg StatusUnauthorized, world)) ∧
          (w.status = 0 → (httpError w msg StatusUnauthorized).status = 401)) := by
  refine ⟨fun d hh ht => ⟨AuthMiddleware_accept next w r world d hh ht, rfl⟩, fun h => ?_⟩
  obtain ⟨msg, hmsg⟩ := AuthMiddleware_reject w r world h
  exact ⟨msg, hmsg, fun hw => httpError_status w msg _ hw⟩

theorem C6_auth_gate_witness :
    AuthMiddleware echoHandler ResponseWriter.fresh (requestWithAuth "Digest k11970-01-01-00")
        (worldWithCache (Cache.LoadAPIKeys sampleHash sampleStore 0 0 NewCache).1) =
      echoHandler ResponseWriter.fresh
        ((requestWithAuth "Digest k11970-01-01-00").WithTenantID "acme")
        (worldWithCache (Cache.LoadAPIKeys sampleHash sampleStore 0 0 NewCache).1) :=
  ((C6_auth_gate echoHandler ResponseWriter.fresh (requestWithAuth "Digest k11970-01-01-00")
    (worldWithCache (Cache.LoadAPIKeys sampleHash sampleStore 0 0 NewCache).1)).1
      "k11970-01-01-00" (by decide) (by decide)).1

/-! ## Theorems: disabled keys -/

theorem mem_enable_enabledKeys (db : Store) (rec r : APIKey)
    (h : r ∈ (db.enable rec).enabledKeys) :
    r.Disabled = false ∧
      ((r ∈ db.api_keys ∧ r ≠ rec) ∨
        (rec ∈ db.api_keys ∧ r = { rec with Disabled := false })) := by
  unfold Store.enabledKeys Store.enable at h
  simp only [List.mem_filter, List.mem_map, Bool.not_eq_true'] at h
  obtain ⟨⟨r', hr', he⟩, hd⟩ := h
  refine ⟨hd, ?_⟩
  by_cases hc : r' = rec
  · subst hc
    simp only [if_true] at he
    exact Or.inr ⟨hr', he.symm⟩
  · simp only [hc, if_false] at he
    subst he
    exact Or.inl ⟨hr', hc⟩

theorem enabled_mem_enable (db : Store) (rec : APIKey) (h : rec ∈ db.api_keys) :
    { rec with Disabled := false } ∈ (db.enable rec).enabledKeys := by
  unfold Store.enabledKeys Store.enable
  simp only [List.mem_filter, List.mem_map, Bool.not_eq_true']
  exact ⟨⟨rec, h, by simp⟩, trivial⟩

/-- C5 (amended). Let key `k` be held by a disabled record `rec` and by no other record
of the store, let its tenant ID be non-empty, and let the hash be collision-free on the
strings involved. After `LoadAPIKeys`, a request whose header is `Digest ` followed by
the digest of `k` for the current hour bucket is answered 401 by `AuthMiddleware`,
whatever the wrapped handler. After the record's disabled flag has been cleared and
`LoadAPIKeys` has run again in the same hour, the same request is handed to the wrapped
handler with the tenant of `rec` bound to it. -/
theorem C5_disabled_key_until_reenabled (hash : String → String) (db : Store)
    (rec : APIKey) (now1 now2 now1' now2' : Time) (c : Cache) (next : HandlerFunc)
    (w : ResponseWriter) (r : Request) (world : World)
    (hstore : db.failure = none)
    (hrec : rec ∈ db.api_keys) (hdis : rec.Disabled = true)
    (honly : ∀ r' ∈ db.api_keys, r'.APIKey = rec.APIKey → r' = rec)
    (htenant : rec.TenantID ≠ "")
    (hclock : now1 ≤ now2 ∧ now2 < now1 + Hour)
    (hsame : hourBucket now1' = hourBucket now1)
    (hfree : CollisionFreeOn hash ((rec.APIKey ++ hourBucket now1) ::
      digestInputs db.enabledKeys (hourBucket now1) (hourBucket (now2 + Hour))))
    (hfree' : CollisionFreeOn hash
      (digestInputs (db.enable rec).enabledKeys (hourBucket now1') (hourBucket (now2' + Hour))))
    (hclock' : now1' ≤ now2' ∧ now2' < now1' + Hour)
    (hheader : r.HeaderGet "Authorization" =
      "Digest " ++ hash (rec.APIKey ++ hourBucket now1))
    (hw : w.status = 0) :
    (∀ next' : HandlerFunc,
        AuthMiddleware next' w r
            { world with APICache := (Cache.LoadAPIKeys hash db now1 now2 c).1 } =
          (httpError w "Unauthorized: invalid or expired API key" StatusUnauthorized,
            { world with APICache := (Cache.LoadAPIKeys hash db now1 now2 c).1 })) ∧
      (httpError w "Unauthorized: invalid or expired API key" StatusUnauthorized).status
        = 401 ∧
      AuthMiddleware next w r
          { world with APICache := (Cache.LoadAPIKeys hash (db.enable rec) now1' now2'
              (Cache.LoadAPIKeys hash db now1 now2 c).1).1 } =
        next w (r.WithTenantID rec.TenantID)
          { world with APICache := (Cache.LoadAPIKeys hash (db.enable rec) now1' now2'
              (Cache.LoadAPIKeys hash db now1 now2 c).1).1 } := by
  have hstore' : (db.enable rec).failure = none := hstore
  refine ⟨?_, httpError_status w _ _ hw, ?_⟩
  · intro next'
    apply AuthMiddleware_unknown next' w r _ _ hheader
    show (Cache.LoadAPIKeys hash db now1 now2 c).1.GetTenantIDByDigest _ = ""
    rw [Cache.LoadAPIKeys_ok hash db now1 now2 c hstore]
    have hnot : hash (rec.APIKey ++ hourBucket now1) ∉
        (db.enabledKeys.foldl
          (Cache.loadOne hash (hourBucket now1) (hourBucket (now2 + Hour))) NewCache).digests := by
      intro hmem
      rcases (Cache.foldl_digests_mem hash _ _ _ NewCache _).1 hmem with h0 | ⟨r', hr', hd⟩
      · simp [NewCache, GoMap.make] at h0
      · have hr'mem : r' ∈ db.api_keys := (List.mem_filter.1 hr').1
        have hr'en : r'.Disabled = false := by
          simpa using (List.mem_filter.1 hr').2
        rcases hd with hd | hd
        · have := hfree _ (List.mem_cons_self _ _) _
            (List.mem_cons_of_mem _ (Cache.mem_digestInputs_cur hr')) hd
          have hk := string_append_right_cancel _ _ _ this
          have := honly r' hr'mem hk.symm
          rw [this, hdis] at hr'en
          exact Bool.noConfusion hr'en
        · have := hfree _ (List.mem_cons_self _ _) _
            (List.mem_cons_of_mem _ (Cache.mem_digestInputs_next hr')) hd
          exact Cache.hsep_of_hour (hourOfDay_next_ne now1 now2 hclock.1 hclock.2) _ _ this
    simp only [Cache.GetTenantIDByDigest, (GoMap.get?_eq_none _ _).2 hnot, Option.getD_none]
  · have hlookup : (Cache.LoadAPIKeys hash (db.enable rec) now1' now2'
        (Cache.LoadAPIKeys hash db now1 now2 c).1).1.GetTenantIDByDigest
          (hash (rec.APIKey ++ hourBucket now1)) = rec.TenantID := by
      rw [Cache.LoadAPIKeys_ok hash (db.enable rec) now1' now2' _ hstore', ← hsame]
      have hin := enabled_mem_enable db rec hrec
      have hmem : hash (rec.APIKey ++ hourBucket now1') ∈
          ((db.enable rec).enabledKeys.foldl
            (Cache.loadOne hash (hourBucket now1') (hourBucket (now2' + Hour)))
              NewCache).digests :=
        (Cache.foldl_digests_mem hash _ _ _ NewCache _).2
          (Or.inr ⟨_, hin, Or.inl rfl⟩)
      obtain ⟨tid, htid⟩ := Option.isSome_iff_exists.1 ((GoMap.get?_isSome _ _).2 hmem)
      rcases Cache.foldl_digests_get hash _ _ _ NewCache _ tid htid with h0 | ⟨r', hr', ht, hd⟩
      · simp [NewCache, GoMap.get?_make] at h0
      · have hkey : r'.APIKey = rec.APIKey := by
          rcases hd with hd | hd
          · have := hfree' _ (Cache.mem_digestInputs_cur hin) _
              (Cache.mem_digestInputs_cur hr') hd
            exact (string_append_right_cancel _ _ _ this).symm
          · have := hfree' _ (Cache.mem_digestInputs_cur hin) _
              (Cache.mem_digestInputs_next hr') hd
            exact absurd this
              (Cache.hsep_of_hour (hourOfDay_next_ne now1' now2' hclock'.1 hclock'.2) _ _)
        have htenant' : r'.TenantID = rec.TenantID := by
          rcases (mem_enable_enabledKeys db rec r' hr').2 with ⟨hm, hne⟩ | ⟨_, he⟩
          · exact absurd (honly r' hm hkey) hne
          · rw [he]
        simp only [Cache.GetTenantIDByDigest, htid, Option.getD_some, ht, htenant']
    have hacc := AuthMiddleware_accept next w r
      { world with APICache := (Cache.LoadAPIKeys hash (db.enable rec) now1' now2'
          (Cache.LoadAPIKeys hash db now1 now2 c).1).1 } _ hheader
      (by show Cache.GetTenantIDByDigest _ _ ≠ ""; rw [hlookup]; exact htenant)
    rw [hacc]
    show next w (r.WithTenantID (Cache.GetTenantIDByDigest _ _)) _ = _
    rw [hlookup]

theorem C5_disabled_key_until_reenabled_witness :
    AuthMiddleware echoHandler ResponseWriter.fresh
        (requestWithAuth ("Digest " ++ sampleHash ("k2" ++ hourBucket 0)))
        { worldWithCache NewCache with
          APICache := (Cache.LoadAPIKeys sampleHash sampleStore 0 0 NewCache).1 } =
      (httpError ResponseWriter.fresh "Unauthorized: invalid or expired API key"
          StatusUnauthorized,
        { worldWithCache NewCache with
          APICache := (Cache.LoadAPIKeys sampleHash sampleStore 0 0 NewCache).1 }) ∧
      AuthMiddleware echoHandler ResponseWriter.fresh
        (requestWithAuth ("Digest " ++ sampleHash ("k2" ++ hourBucket 0)))
        { worldWithCache NewCache with
          APICache := (Cache.LoadAPIKeys sampleHash (sampleStore.enable sampleKey2) 0 0
            (Cache.LoadAPIKeys sampleHash sampleStore 0 0 NewCache).1).1 } =
      echoHandler ResponseWriter.fresh
        ((requestWithAuth ("Digest " ++ sampleHash ("k2" ++ hourBucket 0))).WithTenantID "beta")
        { worldWithCache NewCache with
          APICache := (Cache.LoadAPIKeys sampleHash (sampleStore.enable sampleKey2) 0 0
            (Cache.LoadAPIKeys sampleHash sampleStore 0 0 NewCache).1).1 } :=
  have h := C5_disabled_key_until_reenabled sampleHash sampleStore sampleKey2 0 0 0 0
    NewCache echoHandler ResponseWriter.fresh
    (requestWithAuth ("Digest " ++ sampleHash ("k2" ++ hourBucket 0)))
    (worldWithCache NewCache) (by decide) (by decide) (by decide) (by decide) (by decide)
    (by decide) (by decide) (CollisionFreeOn_sampleHash _) (CollisionFreeOn_sampleHash _)
    (by decide) (by decide) (by decide)
  ⟨h.1 echoHandler, h.2.2⟩

/-- For every hash function: once the key of `emptyTenantStore` is enabled and loaded,
its current-hour digest is stored under the empty tenant ID. -/
theorem emptyTenant_lookup (hash : String → String) (now1 now2 : Time) (c : Cache) :
    (Cache.LoadAPIKeys hash (emptyTenantStore.enable emptyTenantKey) now1 now2
      c).1.GetTenantIDByDigest (hash ("k" ++ hourBucket now1)) = "" := by
  have hk : (emptyTenantStore.enable emptyTenantKey).enabledKeys =
      [{ emptyTenantKey with Disabled := false }] := by decide
  rw [Cache.LoadAPIKeys_ok _ _ _ _ _ rfl, hk]
  simp only [List.foldl_cons, List.foldl_nil, Cache.loadOne, Cache.GetTenantIDByDigest]
  by_cases h : hash ("k" ++ hourBucket now1) = hash ("k" ++ hourBucket (now2 + Hour))
  · have : ({ emptyTenantKey with Disabled := false } : APIKey).APIKey = "k" := rfl
    rw [this, ← h, GoMap.get?_set_self]
    rfl
  · have : ({ emptyTenantKey with Disabled := false } : APIKey).APIKey = "k" := rfl
    rw [this, GoMap.get?_set_ne _ _ h, GoMap.get?_set_self]
    rfl

/-- C5 as stated fails when the key's tenant ID is the empty string: the key of
`emptyTenantStore` is disabled and held by no other record; after its flag is cleared
and `LoadAPIKeys` has run again in the same hour, the request carrying its current-hour
digest is still answered 401 and not handed to the wrapped handler, which would have
answered 200. The stored tenant ID being empty, the run is the same for every hash
function (`emptyTenant_lookup`). -/
theorem C5_counterexample_empty_tenant :
    emptyTenantKey.Disabled = true ∧
      (Cache.LoadAPIKeys sampleHash (emptyTenantStore.enable emptyTenantKey) 0 0
        (Cache.LoadAPIKeys sampleHash emptyTenantStore 0 0 NewCache).1).2 = none ∧
      (AuthMiddleware echoHandler ResponseWriter.fresh
        (requestWithAuth ("Digest " ++ sampleHash ("k" ++ hourBucket 0)))
        (worldWithCache (Cache.LoadAPIKeys sampleHash (emptyTenantStore.enable emptyTenantKey)
          0 0 (Cache.LoadAPIKeys sampleHash emptyTenantStore 0 0 NewCache).1).1)).1.status
        = 401 ∧
      (echoHandler ResponseWriter.fresh
        ((requestWithAuth ("Digest " ++ sampleHash ("k" ++ hourBucket 0))).WithTenantID "")
        (worldWithCache (Cache.LoadAPIKeys sampleHash (emptyTenantStore.enable emptyTenantKey)
          0 0 (Cache.LoadAPIKeys sampleHash emptyTenantStore 0 0 NewCache).1).1)).1.status
        = 200 := by
  decide

/-! ## Lemmas: the client pools -/

namespace APNSService

theorem apns_getOrCreateClient_hit (env : Env) (db : Store) (now : Time) (tenantID : String)
    (s : APNSService) (client : APNSClient) (h : s.clients.get? tenantID = some client) :
    getOrCreateClient env db now tenantID s =
      ({ s with clients := s.clients.set tenantID { client with LastUsed := now } },
        .ok { client with LastUsed := now }) := by
  unfold getOrCreateClient
  rw [h]

/-- The two outcomes of a call that finds no entry: an error with the pool untouched, or
a stored fresh client after one run of every build step. -/
theorem apns_getOrCreateClient_miss (env : Env) (db : Store) (now : Time) (tenantID : String)
    (s : APNSService) (h : s.clients.get? tenantID = none) :
    (∃ err rest, (getOrCreateClient env db now tenantID s).2 = .error err ∧
        (getOrCreateClient env db now tenantID s).1.clients = s.clients ∧
        (getOrCreateClient env db now tenantID s).1.calls =
          s.calls ++ Call.dbFirstAPNSConfig tenantID :: rest ∧
        rest.filter Call.isBuildStep = rest) ∨
      (∃ (client : APNSClient) (config : APNSConfig),
        (getOrCreateClient env db now tenantID s).2 = .ok client ∧
        (getOrCreateClient env db now tenantID s).1.clients = s.clients.set tenantID client ∧
        client.LastUsed = now ∧
        (getOrCreateClient env db now tenantID s).1.calls =
          s.calls ++ [Call.dbFirstAPNSConfig tenantID,
            Call.s3DownloadFile ("apns/" ++ tenantID ++ ".p8") (localPath tenantID),
            Call.authKeyFromFile (localPath tenantID),
            Call.newTokenClient config.KeyID config.TeamID,
            Call.osRemove (localPath tenantID)]) := by
  unfold getOrCreateClient
  rw [h]
  simp only
  cases db.firstActiveAPNSConfig tenantID with
  | error e => exact Or.inl ⟨_, [], rfl, rfl, rfl, rfl⟩
  | ok config =>
    simp only
    cases DownloadFile env ("apns/" ++ tenantID ++ ".p8") (localPath tenantID) with
    | some e =>
      exact Or.inl ⟨"failed to download APNS key for tenant " ++ tenantID ++ ": " ++ e,
        [Call.s3DownloadFile ("apns/" ++ tenantID ++ ".p8") (localPath tenantID)],
        rfl, rfl, by simp, rfl⟩
    | none =>
      simp only
      cases env.authKeyFromFile (localPath tenantID) with
      | error e =>
        exact Or.inl ⟨"failed to load APNS auth key: " ++ e,
          [Call.s3DownloadFile ("apns/" ++ tenantID ++ ".p8") (localPath tenantID),
            Call.authKeyFromFile (localPath tenantID)], rfl, rfl, by simp, rfl⟩
      | ok authKey =>
        exact Or.inr ⟨_, config, rfl, rfl, rfl, by simp⟩

end APNSService

namespace FCMService

theorem fcm_getOrCreateClient_hit (env : Env) (db : Store) (now : Time) (tenantID : String)
    (s : FCMService) (client : FCMClient) (h : s.clients.get? tenantID = some client) :
    getOrCreateClient env db now tenantID s =
      ({ s with clients := s.clients.set tenantID { client with LastUsed := now } },
        .ok { client with LastUsed := now }) := by
  unfold getOrCreateClient
  rw [h]

/-- The two outcomes of a call that finds no entry. -/
theorem fcm_getOrCreateClient_miss (env : Env) (db : Store) (now : Time) (tenantID : String)
    (s : FCMService) (h : s.clients.get? tenantID = none) :
    (∃ err rest, (getOrCreateClient env db now tenantID s).2 = .error err ∧
        (getOrCreateClient env db now tenantID s).1.clients = s.clients ∧
        (getOrCreateClient env db now tenantID s).1.calls =
          s.calls ++ Call.dbFirstFCMConfig tenantID :: rest ∧
        rest.filter Call.isBuildStep = rest) ∨
      (∃ client, (getOrCreateClient env db now tenantID s).2 = .ok client ∧
        (getOrCreateClient env db now tenantID s).1.clients = s.clients.set tenantID client ∧
        client.LastUsed = now ∧
        (getOrCreateClient env db now tenantID s).1.calls =
          s.calls ++ [Call.dbFirstFCMConfig tenantID,
            Call.s3GetFileContent ("fcm/" ++ tenantID ++ ".json"),
            Call.firebaseNewApp, Call.appMessaging]) := by
  unfold getOrCreateClient
  rw [h]
  simp only
  cases db.firstActiveFCMConfig tenantID with
  | error e => exact Or.inl ⟨_, [], rfl, rfl, rfl, rfl⟩
  | ok config =>
    simp only
    cases GetFileContent env ("fcm/" ++ tenantID ++ ".json") with
    | error e =>
      exact Or.inl ⟨"failed to download FCM service account for tenant " ++ tenantID
          ++ ": " ++ e,
        [Call.s3GetFileContent ("fcm/" ++ tenantID ++ ".json")], rfl, rfl, by simp, rfl⟩
    | ok content =>
      simp only
      cases env.firebaseNewApp content with
      | error e =>
        exact Or.inl ⟨"failed to initialize Firebase app: " ++ e,
          [Call.s3GetFileContent ("fcm/" ++ tenantID ++ ".json"), Call.firebaseNewApp],
          rfl, rfl, by simp, rfl⟩
      | ok app =>
        simp only
        cases env.appMessaging app with
        | error e =>
          exact Or.inl ⟨"failed to get FCM messaging client: " ++ e,
            [Call.s3GetFileContent ("fcm/" ++ tenantID ++ ".json"), Call.firebaseNewApp,
              Call.appMessaging], rfl, rfl, by simp, rfl⟩
        | ok mc =>
          exact Or.inr ⟨_, rfl, rfl, rfl, by simp⟩

end FCMService

namespace GoMap

/-- Lookup after the sweep loop over a list of entries. -/
theorem foldl_delete_get? {V : Type} (p : V → Prop) [DecidablePred p]
    (l : List (Σ _ : String, V)) :
    ∀ (m : GoMap V) (k : String),
      (l.foldl (fun m e => if p e.2 then m.delete e.1 else m) m).get? k =
        if ∃ e ∈ l, e.1 = k ∧ p e.2 then none else m.get? k := by
  induction l with
  | nil => intro m k; simp
  | cons e rest ih =>
    intro m k
    rw [List.foldl_cons, ih]
    by_cases hrest : ∃ e' ∈ rest, e'.1 = k ∧ p e'.2
    · have : ∃ e' ∈ e :: rest, e'.1 = k ∧ p e'.2 := by
        obtain ⟨e', he', h⟩ := hrest
        exact ⟨e', List.mem_cons_of_mem _ he', h⟩
      rw [if_pos hrest, if_pos this]
    · rw [if_neg hrest]
      by_cases hp : p e.2
      · rw [if_pos hp]
        by_cases hk : e.1 = k
        · have : ∃ e' ∈ e :: rest, e'.1 = k ∧ p e'.2 := ⟨e, List.mem_cons_self _ _, hk, hp⟩
          rw [if_pos this, ← hk, get?_delete_self]
        · have : ¬ ∃ e' ∈ e :: rest, e'.1 = k ∧ p e'.2 := by
            rintro ⟨e', he', h1, h2⟩
            rcases List.mem_cons.1 he' with rfl | he'
            · exact hk h1
            · exact hrest ⟨e', he', h1, h2⟩
          rw [if_neg this, get?_delete_ne _ (Ne.symm hk)]
      · rw [if_neg hp]
        have : ¬ ∃ e' ∈ e :: rest, e'.1 = k ∧ p e'.2 := by
          rintro ⟨e', he', h1, h2⟩
          rcases List.mem_cons.1 he' with rfl | he'
          · exact hp h2
          · exact hrest ⟨e', he', h1, h2⟩
        rw [if_neg this]

/-- Lookup after the sweep loop over the map's own entries. -/
theorem sweep_get? {V : Type} (p : V → Prop) [DecidablePred p] (m : GoMap V) (k : String) :
    (m.entries.foldl (fun m e => if p e.2 then m.delete e.1 else m) m).get? k =
      match m.get? k with
      | some v => if p v then none else some v
      | none => none := by
  rw [foldl_delete_get?]
  cases hk : m.get? k with
  | none =>
    have : ¬ ∃ e ∈ m.entries, e.1 = k ∧ p e.2 := by
      rintro ⟨e, he, h1, _⟩
      have hmem : k ∈ m := by
        rw [AList.mem_keys, ← h1]
        exact List.mem_keys_of_mem he
      exact ((get?_eq_none m k).1 hk) hmem
    rw [if_neg this]
  | some v =>
    have hv : (⟨k, v⟩ : Σ _ : String, V) ∈ m.entries := AList.mem_lookup_iff.1 hk
    by_cases hp : p v
    · have : ∃ e ∈ m.entries, e.1 = k ∧ p e.2 := ⟨⟨k, v⟩, hv, rfl, hp⟩
      simp only [if_pos this, if_pos hp]
    · have : ¬ ∃ e ∈ m.entries, e.1 = k ∧ p e.2 := by
        rintro ⟨⟨k', v'⟩, he, h1, h2⟩
        simp only at h1 h2
        subst h1
        have := AList.mem_lookup_iff.2 he
        rw [get?] at hk
        rw [hk] at this
        cases this
        exact hp h2
      simp only [if_neg this, if_neg hp]

end GoMap

/-! ## Theorems: the client pools -/

theorem buildStepsSince_append (before added : List Call) :
    buildStepsSince before (before ++ added) = added.filter Call.isBuildStep := by
  simp [buildStepsSince]

theorem buildStepsSince_self (before : List Call) : buildStepsSince before before = [] := by
  simp [buildStepsSince]

/-- C7 (amended). Two successive `getOrCreateClient` calls for one tenant, the first of
which succeeds: the second call returns the client the first call left in the pool, with
its timestamp refreshed, and runs no build step. Over the two calls each build step runs
exactly once when the pool initially held no entry for the tenant, and not at all when
it held one. Stated for the APNS and for the FCM service. -/
theorem C7_second_call_reuses_client (env1 env2 : Env) (db1 db2 : Store)
    (now1 now2 : Time) (tenantID : String) (s0 : APNSService) (f0 : FCMService) :
    (∀ client1, (APNSService.getOrCreateClient env1 db1 now1 tenantID s0).2 = .ok client1 →
      (APNSService.getOrCreateClient env1 db1 now1 tenantID s0).1.clients.get? tenantID
        = some client1 ∧
      (APNSService.getOrCreateClient env2 db2 now2 tenantID
        (APNSService.getOrCreateClient env1 db1 now1 tenantID s0).1).2
        = .ok { client1 with LastUsed := now2 } ∧
      (APNSService.getOrCreateClient env2 db2 now2 tenantID
        (APNSService.getOrCreateClient env1 db1 now1 tenantID s0).1).1.calls
        = (APNSService.getOrCreateClient env1 db1 now1 tenantID s0).1.calls ∧
      (s0.clients.get? tenantID = none →
        ∃ config : APNSConfig,
          buildStepsSince s0.calls (APNSService.getOrCreateClient env2 db2 now2 tenantID
            (APNSService.getOrCreateClient env1 db1 now1 tenantID s0).1).1.calls =
          [Call.dbFirstAPNSConfig tenantID,
            Call.s3DownloadFile ("apns/" ++ tenantID ++ ".p8")
              (APNSService.localPath tenantID),
            Call.authKeyFromFile (APNSService.localPath tenantID),
            Call.newTokenClient config.KeyID config.TeamID]) ∧
      (s0.clients.get? tenantID ≠ none →
        buildStepsSince s0.calls (APNSService.getOrCreateClient env2 db2 now2 tenantID
          (APNSService.getOrCreateClient env1 db1 now1 tenantID s0).1).1.calls = [])) ∧
    (∀ client1, (FCMService.getOrCreateClient env1 db1 now1 tenantID f0).2 = .ok client1 →
      (FCMService.getOrCreateClient env1 db1 now1 tenantID f0).1.clients.get? tenantID
        = some client1 ∧
      (FCMService.getOrCreateClient env2 db2 now2 tenantID
        (FCMService.getOrCreateClient env1 db1 now1 tenantID f0).1).2
        = .ok { client1 with LastUsed := now2 } ∧
      (FCMService.getOrCreateClient env2 db2 now2 tenantID
        (FCMService.getOrCreateClient env1 db1 now1 tenantID f0).1).1.calls
        = (FCMService.getOrCreateClient env1 db1 now1 tenantID f0).1.calls ∧
      (f0.clients.get? tenantID = none →
        buildStepsSince f0.calls (FCMService.getOrCreateClient env2 db2 now2 tenantID
          (FCMService.getOrCreateClient env1 db1 now1 tenantID f0).1).1.calls =
        [Call.dbFirstFCMConfig tenantID,
          Call.s3GetFileContent ("fcm/" ++ tenantID ++ ".json"),
          Call.firebaseNewApp, Call.appMessaging]) ∧
      (f0.clients.get? tenantID ≠ none →
        buildStepsSince f0.calls (FCMService.getOrCreateClient env2 db2 now2 tenantID
          (FCMService.getOrCreateClient env1 db1 now1 tenantID f0).1).1.calls = [])) := by
  constructor
  · intro client1 h1
    have hstored : (APNSService.getOrCreateClient env1 db1 now1 tenantID s0).1.clients.get?
        tenantID = some client1 := by
      cases h0 : s0.clients.get? tenantID with
      | some c =>
        rw [APNSService.apns_getOrCreateClient_hit env1 db1 now1 tenantID s0 c h0] at h1 ⊢
        simp only [Except.ok.injEq] at h1
        rw [GoMap.get?_set_self, h1]
      | none =>
        rcases APNSService.apns_getOrCreateClient_miss env1 db1 now1 tenantID s0 h0 with
          ⟨err, rest, he, _⟩ | ⟨client, config, hc, hcl, _, _⟩
        · rw [he] at h1; cases h1
        · rw [hc] at h1
          simp only [Except.ok.injEq] at h1
          rw [hcl, GoMap.get?_set_self, h1]
    have h2 := APNSService.apns_getOrCreateClient_hit env2 db2 now2 tenantID _ client1 hstored
    refine ⟨hstored, by rw [h2], by rw [h2], ?_, ?_⟩
    · intro h0
      rcases APNSService.apns_getOrCreateClient_miss env1 db1 now1 tenantID s0 h0 with
        ⟨err, rest, he, _⟩ | ⟨client, config, _, _, _, hcalls⟩
      · rw [he] at h1; cases h1
      · refine ⟨config, ?_⟩
        rw [h2]
        simp only
        rw [hcalls, buildStepsSince_append]
        rfl
    · intro h0
      obtain ⟨c, hc⟩ := Option.ne_none_iff_exists'.1 h0
      rw [h2]
      simp only
      rw [APNSService.apns_getOrCreateClient_hit env1 db1 now1 tenantID s0 c hc]
      exact buildStepsSince_self _
  · intro client1 h1
    have hstored : (FCMService.getOrCreateClient env1 db1 now1 tenantID f0).1.clients.get?
        tenantID = some client1 := by
      cases h0 : f0.clients.get? tenantID with
      | some c =>
        rw [FCMService.fcm_getOrCreateClient_hit env1 db1 now1 tenantID f0 c h0] at h1 ⊢
        simp only [Except.ok.injEq] at h1
        rw [GoMap.get?_set_self, h1]
      | none =>
        rcases FCMService.fcm_getOrCreateClient_miss env1 db1 now1 tenantID f0 h0 with
          ⟨err, rest, he, _⟩ | ⟨client, hc, hcl, _, _⟩
        · rw [he] at h1; cases h1
        · rw [hc] at h1
          simp only [Except.ok.injEq] at h1
          rw [hcl, GoMap.get?_set_self, h1]
    have h2 := FCMService.fcm_getOrCreateClient_hit env2 db2 now2 tenantID _ client1 hstored
    refine ⟨hstored, by rw [h2], by rw [h2], ?_, ?_⟩
    · intro h0
      rcases FCMService.fcm_getOrCreateClient_miss env1 db1 now1 tenantID f0 h0 with
        ⟨err, rest, he, _⟩ | ⟨client, _, _, _, hcalls⟩
      · rw [he] at h1; cases h1
      · rw [h2]
        simp only
        rw [hcalls, buildStepsSince_append]
        rfl
    · intro h0
      obtain ⟨c, hc⟩ := Option.ne_none_iff_exists'.1 h0
      rw [h2]
      simp only
      rw [FCMService.fcm_getOrCreateClient_hit env1 db1 now1 tenantID f0 c hc]
      exact buildStepsSince_self _

theorem C7_second_call_reuses_client_witness :
    (APNSService.getOrCreateClient sampleEnv pushStore 9 "acme"
        (APNSService.getOrCreateClient sampleEnv pushStore 5 "acme" NewAPNSService).1).2
      = .ok { sampleAPNSClient with LastUsed := 9 } :=
  ((C7_second_call_reuses_client sampleEnv sampleEnv pushStore pushStore 5 9 "acme"
    NewAPNSService NewFCMService).1 { sampleAPNSClient with LastUsed := 5 } (by rfl)).2.1

/-- C7 as stated fails for an initial pool that already holds the tenant's client: the
first call succeeds, and over the two calls no build step runs at all, so the
configuration lookup, the credential fetch and the client construction are not invoked
once. -/
theorem C7_counterexample_warm_pool :
    (APNSService.getOrCreateClient sampleEnv pushStore 5 "acme" warmAPNS).2.toOption
        = some { sampleAPNSClient with LastUsed := 5 } ∧
      buildStepsSince warmAPNS.calls
        (APNSService.getOrCreateClient sampleEnv pushStore 9 "acme"
          (APNSService.getOrCreateClient sampleEnv pushStore 5 "acme" warmAPNS).1).1.calls
        = [] ∧
      (FCMService.getOrCreateClient sampleEnv pushStore 5 "acme" warmFCM).2.toOption
        = some { sampleFCMClient with LastUsed := 5 } ∧
      buildStepsSince warmFCM.calls
        (FCMService.getOrCreateClient sampleEnv pushStore 9 "acme"
          (FCMService.getOrCreateClient sampleEnv pushStore 5 "acme" warmFCM).1).1.calls
        = [] := by
  decide

theorem ttl_plus_one_expired (now : Int) : now - (Hour + 1) < now - Hour := by omega

theorem ttl_minus_one_live (now : Int) : ¬ now - (Hour - 1) < now - Hour := by omega

theorem ttl_exact_live (now : Int) : ¬ now - Hour < now - Hour := by omega

theorem APNSService.apns_CleanupOldClients_get? (now : Time) (s : APNSService) (t : String) :
    (APNSService.CleanupOldClients now s).clients.get? t =
      match s.clients.get? t with
      | some c => if c.LastUsed < now - Hour then none else some c
      | none => none := by
  unfold APNSService.CleanupOldClients
  simp only
  rw [GoMap.sweep_get? (fun c : APNSClient => c.LastUsed < now + (-1) * Hour)]
  have : now + (-1) * Hour = now - Hour := by ring
  rw [this]
  cases s.clients.get? t <;> rfl

theorem FCMService.fcm_CleanupOldClients_get? (now : Time) (s : FCMService) (t : String) :
    (FCMService.CleanupOldClients now s).clients.get? t =
      match s.clients.get? t with
      | some c => if c.LastUsed < now - Hour then none else some c
      | none => none := by
  unfold FCMService.CleanupOldClients
  simp only
  rw [GoMap.sweep_get? (fun c : FCMClient => c.LastUsed < now + (-1) * Hour)]
  have : now + (-1) * Hour = now - Hour := by ring
  rw [this]
  cases s.clients.get? t <;> rfl

/-- C8. `CleanupOldClients` run at `now` removes exactly the pool entries whose
`LastUsed` is strictly before `now - 1h` and leaves every other entry as it was: an
entry last used one time unit more than an hour ago is removed, an entry last used one
time unit less than an hour ago is kept, and an entry last used exactly an hour ago is
kept. Stated for the APNS and for the FCM pool. -/
theorem C8_sweep_removes_expired (now : Time) (s : APNSService) (f : FCMService)
    (t : String) :
    ((APNSService.CleanupOldClients now s).clients.get? t =
        match s.clients.get? t with
        | some c => if c.LastUsed < now - Hour then none else some c
        | none => none) ∧
      (∀ c, s.clients.get? t = some c →
        (c.LastUsed = now - (Hour + 1) →
          (APNSService.CleanupOldClients now s).clients.get? t = none) ∧
        (c.LastUsed = now - (Hour - 1) →
          (APNSService.CleanupOldClients now s).clients.get? t = some c) ∧
        (c.LastUsed = now - Hour →
          (APNSService.CleanupOldClients now s).clients.get? t = some c)) ∧
      ((FCMService.CleanupOldClients now f).clients.get? t =
        match f.clients.get? t with
        | some c => if c.LastUsed < now - Hour then none else some c
        | none => none) ∧
      (∀ c, f.clients.get? t = some c →
        (c.LastUsed = now - (Hour + 1) →
          (FCMService.CleanupOldClients now f).clients.get? t = none) ∧
        (c.LastUsed = now - (Hour - 1) →
          (FCMService.CleanupOldClients now f).clients.get? t = some c) ∧
        (c.LastUsed = now - Hour →
          (FCMService.CleanupOldClients now f).clients.get? t = some c)) := by
  refine ⟨APNSService.apns_CleanupOldClients_get? now s t, ?_,
    FCMService.fcm_CleanupOldClients_get? now f t, ?_⟩
  · intro c hc
    rw [APNSService.apns_CleanupOldClients_get?, hc]
    refine ⟨fun h => ?_, fun h => ?_, fun h => ?_⟩
    · have : c.LastUsed < now - Hour := by rw [h]; exact ttl_plus_one_expired now
      simp only [if_pos this]
    · have : ¬ c.LastUsed < now - Hour := by rw [h]; exact ttl_minus_one_live now
      simp only [if_neg this]
    · have : ¬ c.LastUsed < now - Hour := by rw [h]; exact ttl_exact_live now
      simp only [if_neg this]
  · intro c hc
    rw [FCMService.fcm_CleanupOldClients_get?, hc]
    refine ⟨fun h => ?_, fun h => ?_, fun h => ?_⟩
    · have : c.LastUsed < now - Hour := by rw [h]; exact ttl_plus_one_expired now
      simp only [if_pos this]
    · have : ¬ c.LastUsed < now - Hour := by rw [h]; exact ttl_minus_one_live now
      simp only [if_neg this]
    · have : ¬ c.LastUsed < now - Hour := by rw [h]; exact ttl_exact_live now
      simp only [if_neg this]

theorem C8_sweep_removes_expired_witness :
    (APNSService.CleanupOldClients (Hour + 1) warmAPNS).clients.get? "acme" = none ∧
      (APNSService.CleanupOldClients (Hour - 1) warmAPNS).clients.get? "acme"
        = some sampleAPNSClient ∧
      (APNSService.CleanupOldClients Hour warmAPNS).clients.get? "acme"
        = some sampleAPNSClient :=
  ⟨((C8_sweep_removes_expired (Hour + 1) warmAPNS warmFCM "acme").2.1 sampleAPNSClient
      (by decide)).1 (by decide),
    ((C8_sweep_removes_expired (Hour - 1) warmAPNS warmFCM "acme").2.1 sampleAPNSClient
      (by decide)).2.1 (by decide),
    ((C8_sweep_removes_expired Hour warmAPNS warmFCM "acme").2.1 sampleAPNSClient
      (by decide)).2.2 (by decide)⟩

/-- C10 (amended). `getOrCreateClient` returns the stored client for a tenant, with its
last-used timestamp set to the time of the call and without any build step, whenever
the pool holds an entry for that tenant, whatever the age of that entry; it starts a
build exactly when the pool holds no entry for the tenant. Entries older than the
one-hour TTL leave the pool only through `CleanupOldClients`. Stated for the APNS and
for the FCM service. -/
theorem C10_hit_whatever_the_age (env : Env) (db : Store) (now : Time) (tenantID : String)
    (s : APNSService) (f : FCMService) :
    (∀ c, s.clients.get? tenantID = some c →
        APNSService.getOrCreateClient env db now tenantID s =
          ({ s with clients := s.clients.set tenantID { c with LastUsed := now } },
            .ok { c with LastUsed := now })) ∧
      (s.clients.get? tenantID = none →
        ∃ rest, (APNSService.getOrCreateClient env db now tenantID s).1.calls =
          s.calls ++ Call.dbFirstAPNSConfig tenantID :: rest) ∧
      (∀ c, f.clients.get? tenantID = some c →
        FCMService.getOrCreateClient env db now tenantID f =
          ({ f with clients := f.clients.set tenantID { c with LastUsed := now } },
            .ok { c with LastUsed := now })) ∧
      (f.clients.get? tenantID = none →
        ∃ rest, (FCMService.getOrCreateClient env db now tenantID f).1.calls =
          f.calls ++ Call.dbFirstFCMConfig tenantID :: rest) := by
  refine ⟨fun c hc => APNSService.apns_getOrCreateClient_hit env db now tenantID s c hc, ?_,
    fun c hc => FCMService.fcm_getOrCreateClient_hit env db now tenantID f c hc, ?_⟩
  · intro h0
    rcases APNSService.apns_getOrCreateClient_miss env db now tenantID s h0 with
      ⟨_, rest, _, _, hcalls, _⟩ | ⟨_, _, _, _, _, hcalls⟩
    · exact ⟨rest, hcalls⟩
    · exact ⟨_, hcalls⟩
  · intro h0
    rcases FCMService.fcm_getOrCreateClient_miss env db now tenantID f h0 with
      ⟨_, rest, _, _, hcalls, _⟩ | ⟨_, _, _, _, hcalls⟩
    · exact ⟨rest, hcalls⟩
    · exact ⟨_, hcalls⟩

theorem C10_hit_whatever_the_age_witness :
    APNSService.getOrCreateClient sampleEnv pushStore (3 * Hour) "acme" warmAPNS =
      ({ warmAPNS with clients :=
          warmAPNS.clients.set "acme" { sampleAPNSClient with LastUsed := 3 * Hour } },
        .ok { sampleAPNSClient with LastUsed := 3 * Hour }) :=
  (C10_hit_whatever_the_age sampleEnv pushStore (3 * Hour) "acme" warmAPNS warmFCM).1
    sampleAPNSClient (by decide)

/-- C10 as stated fails: the pooled clients of `warmAPNS` and `warmFCM` were last used
at instant `0`, more than the one-hour TTL before the call at `3h`, and no sweep has
removed them; `getOrCreateClient` still returns them, refreshed, and makes no call to
the store, the blob store or the client constructors. -/
theorem C10_counterexample_expired_entry_returned :
    sampleAPNSClient.LastUsed < 3 * Hour - Hour ∧
      (APNSService.getOrCreateClient sampleEnv pushStore (3 * Hour) "acme" warmAPNS).2.toOption
        = some { sampleAPNSClient with LastUsed := 3 * Hour } ∧
      (APNSService.getOrCreateClient sampleEnv pushStore (3 * Hour) "acme" warmAPNS).1.calls
        = [] ∧
      sampleFCMClient.LastUsed < 3 * Hour - Hour ∧
      (FCMService.getOrCreateClient sampleEnv pushStore (3 * Hour) "acme" warmFCM).2.toOption
        = some { sampleFCMClient with LastUsed := 3 * Hour } ∧
      (FCMService.getOrCreateClient sampleEnv pushStore (3 * Hour) "acme" warmFCM).1.calls
        = [] := by
  decide

/-! ## Theorems: failed builds -/

theorem APNSService.apns_SendPush_build_error (env : Env) (db : Store) (now : Time)
    (tenantID deviceToken title body : String) (data : Option (GoMap DataValue)) (s : APNSService)
    (err : String) (h : (APNSService.getOrCreateClient env db now tenantID s).2 = .error err) :
    APNSService.SendPush env db now tenantID deviceToken title body data s =
      ((APNSService.getOrCreateClient env db now tenantID s).1, some err) := by
  unfold APNSService.SendPush
  rcases hres : APNSService.getOrCreateClient env db now tenantID s with ⟨s', r⟩
  rw [hres] at h
  simp only at h
  subst h
  rfl

theorem FCMService.fcm_SendPush_build_error (env : Env) (db : Store) (now : Time)
    (tenantID deviceToken title body : String) (data : Option (GoMap DataValue)) (s : FCMService)
    (err : String) (h : (FCMService.getOrCreateClient env db now tenantID s).2 = .error err) :
    FCMService.SendPush env db now tenantID deviceToken title body data s =
      ((FCMService.getOrCreateClient env db now tenantID s).1, some err) := by
  unfold FCMService.SendPush
  rcases hres : FCMService.getOrCreateClient env db now tenantID s with ⟨s', r⟩
  rw [hres] at h
  simp only at h
  subst h
  rfl

theorem APNSService.apns_error_only_on_miss (env : Env) (db : Store) (now : Time)
    (tenantID : String) (s : APNSService) (err : String)
    (h : (APNSService.getOrCreateClient env db now tenantID s).2 = .error err) :
    s.clients.get? tenantID = none := by
  cases h0 : s.clients.get? tenantID with
  | none => rfl
  | some c =>
    rw [APNSService.apns_getOrCreateClient_hit env db now tenantID s c h0] at h
    cases h

theorem FCMService.fcm_error_only_on_miss (env : Env) (db : Store) (now : Time)
    (tenantID : String) (s : FCMService) (err : String)
    (h : (FCMService.getOrCreateClient env db now tenantID s).2 = .error err) :
    s.clients.get? tenantID = none := by
  cases h0 : s.clients.get? tenantID with
  | none => rfl
  | some c =>
    rw [FCMService.fcm_getOrCreateClient_hit env db now tenantID s c h0] at h
    cases h

theorem APNSService.apns_clients_of_error (env : Env) (db : Store) (now : Time)
    (tenantID : String) (s : APNSService) (err : String)
    (h : (APNSService.getOrCreateClient env db now tenantID s).2 = .error err) :
    (APNSService.getOrCreateClient env db now tenantID s).1.clients = s.clients := by
  have h0 := APNSService.apns_error_only_on_miss env db now tenantID s err h
  rcases APNSService.apns_getOrCreateClient_miss env db now tenantID s h0 with
    ⟨_, _, _, hcl, _, _⟩ | ⟨_, _, hok, _, _, _⟩
  · exact hcl
  · rw [hok] at h; cases h

theorem FCMService.fcm_clients_of_error (env : Env) (db : Store) (now : Time)
    (tenantID : String) (s : FCMService) (err : String)
    (h : (FCMService.getOrCreateClient env db now tenantID s).2 = .error err) :
    (FCMService.getOrCreateClient env db now tenantID s).1.clients = s.clients := by
  have h0 := FCMService.fcm_error_only_on_miss env db now tenantID s err h
  rcases FCMService.fcm_getOrCreateClient_miss env db now tenantID s h0 with
    ⟨_, _, _, hcl, _, _⟩ | ⟨_, hok, _, _, _⟩
  · exact hcl
  · rw [hok] at h; cases h

theorem APNSPushHandler_build_error (env : Env) (now : Time) (w : ResponseWriter)
    (r : Request) (world : World) (req : PushRequest) (err : String)
    (hm : r.Method = "POST") (ht : GetTenantID r ≠ "") (hb : r.Body = some req)
    (hd : req.DeviceToken ≠ "") (htitle : req.Title ≠ "") (hbody : req.Body ≠ "")
    (h : (APNSService.getOrCreateClient env world.DB now (GetTenantID r)
      world.apnsService).2 = .error err) :
    APNSPushHandler env now w r world =
      (httpError w "Failed to send push notification" StatusInternalServerError,
        { world with apnsService := (APNSService.getOrCreateClient env world.DB now
            (GetTenantID r) world.apnsService).1 }) := by
  unfold APNSPushHandler
  have hf : ¬ (req.DeviceToken = "" ∨ req.Title = "" ∨ req.Body = "") := by
    rintro (h1 | h1 | h1)
    · exact hd h1
    · exact htitle h1
    · exact hbody h1
  simp only [hm, ne_eq, not_true_eq_false, if_false, ht, hb, hf]
  rw [APNSService.apns_SendPush_build_error env world.DB now _ _ _ _ _ _ err h]

theorem FCMPushHandler_build_error (env : Env) (now : Time) (w : ResponseWriter)
    (r : Request) (world : World) (req : PushRequest) (err : String)
    (hm : r.Method = "POST") (ht : GetTenantID r ≠ "") (hb : r.Body = some req)
    (hd : req.DeviceToken ≠ "") (htitle : req.Title ≠ "") (hbody : req.Body ≠ "")
    (h : (FCMService.getOrCreateClient env world.DB now (GetTenantID r)
      world.fcmService).2 = .error err) :
    FCMPushHandler env now w r world =
      (httpError w "Failed to send push notification" StatusInternalServerError,
        { world with fcmService := (FCMService.getOrCreateClient env world.DB now
            (GetTenantID r) world.fcmService).1 }) := by
  unfold FCMPushHandler
  have hf : ¬ (req.DeviceToken = "" ∨ req.Title = "" ∨ req.Body = "") := by
    rintro (h1 | h1 | h1)
    · exact hd h1
    · exact htitle h1
    · exact hbody h1
  simp only [hm, ne_eq, not_true_eq_false, if_false, ht, hb, hf]
  rw [FCMService.fcm_SendPush_build_error env world.DB now _ _ _ _ _ _ err h]

/-- C9. Whenever `getOrCreateClient` returns an error for a tenant, the pool is the map
it was before the call and holds no entry for that tenant; the push handler serving a
well-formed POST of that tenant with this service state answers 500 through
`http.Error`; and the next `getOrCreateClient` call for the tenant, whatever the store
and the environment then are, starts the build again with the configuration lookup.
Stated for the APNS and for the FCM service. -/
theorem C9_failed_build_leaves_pool (env : Env) (db : Store) (now : Time)
    (tenantID : String) (s : APNSService) (f : FCMService) :
    (∀ err, (APNSService.getOrCreateClient env db now tenantID s).2 = .error err →
      (APNSService.getOrCreateClient env db now tenantID s).1.clients = s.clients ∧
      (APNSService.getOrCreateClient env db now tenantID s).1.clients.get? tenantID = none ∧
      (∀ (w : ResponseWriter) (r : Request) (world : World) (req : PushRequest),
        r.Method = "POST" → GetTenantID r = tenantID → tenantID ≠ "" →
        r.Body = some req → req.DeviceToken ≠ "" → req.Title ≠ "" → req.Body ≠ "" →
        world.DB = db → world.apnsService = s →
        APNSPushHandler env now w r world =
          (httpError w "Failed to send push notification" StatusInternalServerError,
            { world with apnsService :=
                (APNSService.getOrCreateClient env db now tenantID s).1 }) ∧
        (w.status = 0 → (APNSPushHandler env now w r world).1.status = 500)) ∧
      (∀ (env' : Env) (db' : Store) (now' : Time), ∃ rest,
        (APNSService.getOrCreateClient env' db' now' tenantID
          (APNSService.getOrCreateClient env db now tenantID s).1).1.calls =
        (APNSService.getOrCreateClient env db now tenantID s).1.calls ++
          Call.dbFirstAPNSConfig tenantID :: rest)) ∧
    (∀ err, (FCMService.getOrCreateClient env db now tenantID f).2 = .error err →
      (FCMService.getOrCreateClient env db now tenantID f).1.clients = f.clients ∧
      (FCMService.getOrCreateClient env db now tenantID f).1.clients.get? tenantID = none ∧
      (∀ (w : ResponseWriter) (r : Request) (world : World) (req : PushRequest),
        r.Method = "POST" → GetTenantID r = tenantID → tenantID ≠ "" →
        r.Body = some req → req.DeviceToken ≠ "" → req.Title ≠ "" → req.Body ≠ "" →
        world.DB = db → world.fcmService = f →
        FCMPushHandler env now w r world =
          (httpError w "Failed to send push notification" StatusInternalServerError,
            { world with fcmService :=
                (FCMService.getOrCreateClient env db now tenantID f).1 }) ∧
        (w.status = 0 → (FCMPushHandler env now w r world).1.status = 500)) ∧
      (∀ (env' : Env) (db' : Store) (now' : Time), ∃ rest,
        (FCMService.getOrCreateClient env' db' now' tenantID
          (FCMService.getOrCreateClient env db now tenantID f).1).1.calls =
        (FCMService.getOrCreateClient env db now tenantID f).1.calls ++
          Call.dbFirstFCMConfig tenantID :: rest)) := by
  constructor
  · intro err herr
    have h0 := APNSService.apns_error_only_on_miss env db now tenantID s err herr
    have hcl := APNSService.apns_clients_of_error env db now tenantID s err herr
    have hnone : (APNSService.getOrCreateClient env db now tenantID s).1.clients.get?
        tenantID = none := by rw [hcl]; exact h0
    refine ⟨hcl, hnone, ?_, ?_⟩
    · intro w r world req hm ht hne hb hd htitle hbody hdb hs
      subst hdb hs ht
      have hh := APNSPushHandler_build_error env now w r world req err hm hne hb hd htitle
        hbody herr
      refine ⟨hh, fun hw => ?_⟩
      rw [hh]
      exact httpError_status w _ _ hw
    · intro env' db' now'
      rcases APNSService.apns_getOrCreateClient_miss env' db' now' tenantID _ hnone with
        ⟨_, rest, _, _, hcalls, _⟩ | ⟨_, _, _, _, _, hcalls⟩
      · exact ⟨rest, hcalls⟩
      · exact ⟨_, hcalls⟩
  · intro err herr
    have h0 := FCMService.fcm_error_only_on_miss env db now tenantID f err herr
    have hcl := FCMService.fcm_clients_of_error env db now tenantID f err herr
    have hnone : (FCMService.getOrCreateClient env db now tenantID f).1.clients.get?
        tenantID = none := by rw [hcl]; exact h0
    refine ⟨hcl, hnone, ?_, ?_⟩
    · intro w r world req hm ht hne hb hd htitle hbody hdb hs
      subst hdb hs ht
      have hh := FCMPushHandler_build_error env now w r world req err hm hne hb hd htitle
        hbody herr
      refine ⟨hh, fun hw => ?_⟩
      rw [hh]
      exact httpError_status w _ _ hw
    · intro env' db' now'
      rcases FCMService.fcm_getOrCreateClient_miss env' db' now' tenantID _ hnone with
        ⟨_, rest, _, _, hcalls, _⟩ | ⟨_, _, _, _, hcalls⟩
      · exact ⟨rest, hcalls⟩
      · exact ⟨_, hcalls⟩

theorem C9_failed_build_leaves_pool_witness :
    (APNSService.getOrCreateClient sampleEnv sampleStore 5 "acme" NewAPNSService).1.clients
        = NewAPNSService.clients ∧
      (APNSPushHandler sampleEnv 5 ResponseWriter.fresh samplePush
        (worldWithCache NewCache)).1.status = 500 :=
  have h := (C9_failed_build_leaves_pool sampleEnv sampleStore 5 "acme" NewAPNSService
    NewFCMService).1 "APNS config not found for tenant acme: record not found" (by rfl)
  ⟨h.1, (h.2.2.1 ResponseWriter.fresh samplePush (worldWithCache NewCache) _ (by decide)
    (by decide) (by decide) rfl (by decide) (by decide) (by decide) rfl rfl).2 (by decide)⟩

/-! ## Lemmas: delivery -/

theorem APNSService.apns_stored_of_ok (env : Env) (db : Store) (now : Time)
    (tenantID : String) (s : APNSService) (client : APNSClient)
    (h : (APNSService.getOrCreateClient env db now tenantID s).2 = .ok client) :
    (APNSService.getOrCreateClient env db now tenantID s).1.clients.get? tenantID
      = some client := by
  cases h0 : s.clients.get? tenantID with
  | some c =>
    rw [APNSService.apns_getOrCreateClient_hit env db now tenantID s c h0] at h ⊢
    simp only [Except.ok.injEq] at h
    rw [GoMap.get?_set_self, h]
  | none =>
    rcases APNSService.apns_getOrCreateClient_miss env db now tenantID s h0 with
      ⟨err, rest, he, _⟩ | ⟨c, config, hc, hcl, _, _⟩
    · rw [he] at h; cases h
    · rw [hc] at h
      simp only [Except.ok.injEq] at h
      rw [hcl, GoMap.get?_set_self, h]

theorem FCMService.fcm_stored_of_ok (env : Env) (db : Store) (now : Time)
    (tenantID : String) (s : FCMService) (client : FCMClient)
    (h : (FCMService.getOrCreateClient env db now tenantID s).2 = .ok client) :
    (FCMService.getOrCreateClient env db now tenantID s).1.clients.get? tenantID
      = some client := by
  cases h0 : s.clients.get? tenantID with
  | some c =>
    rw [FCMService.fcm_getOrCreateClient_hit env db now tenantID s c h0] at h ⊢
    simp only [Except.ok.injEq] at h
    rw [GoMap.get?_set_self, h]
  | none =>
    rcases FCMService.fcm_getOrCreateClient_miss env db now tenantID s h0 with
      ⟨err, rest, he, _⟩ | ⟨c, hc, hcl, _, _⟩
    · rw [he] at h; cases h
    · rw [hc] at h
      simp only [Except.ok.injEq] at h
      rw [hcl, GoMap.get?_set_self, h]

/-- The state `SendPush` leaves once the client is available: the state after
`getOrCreateClient` plus one recorded delivery call, whatever the backend answers. -/
theorem APNSService.apns_SendPush_state (env : Env) (db : Store) (now : Time)
    (tenantID deviceToken title body : String) (data : Option (GoMap DataValue)) (s : APNSService)
    (client : APNSClient)
    (h : (APNSService.getOrCreateClient env db now tenantID s).2 = .ok client) :
    (APNSService.SendPush env db now tenantID deviceToken title body data s).1 =
      { clients := (APNSService.getOrCreateClient env db now tenantID s).1.clients,
        calls := (APNSService.getOrCreateClient env db now tenantID s).1.calls ++
          [Call.apnsPush client.Client
            { DeviceToken := deviceToken, Topic := client.Config.BundleID,
              Payload := APNSService.payload title body }] } := by
  unfold APNSService.SendPush
  rcases hres : APNSService.getOrCreateClient env db now tenantID s with ⟨s', r⟩
  rw [hres] at h
  simp only at h
  subst h
  simp only
  cases env.apnsPush client.Client
      { DeviceToken := deviceToken, Topic := client.Config.BundleID,
        Payload := APNSService.payload title body } with
  | error e => rfl
  | ok res =>
    simp only
    split <;> rfl

theorem FCMService.fcm_SendPush_state (env : Env) (db : Store) (now : Time)
    (tenantID deviceToken title body : String) (data : Option (GoMap DataValue)) (s : FCMService)
    (client : FCMClient)
    (h : (FCMService.getOrCreateClient env db now tenantID s).2 = .ok client) :
    (FCMService.SendPush env db now tenantID deviceToken title body data s).1 =
      { clients := (FCMService.getOrCreateClient env db now tenantID s).1.clients,
        calls := (FCMService.getOrCreateClient env db now tenantID s).1.calls ++
          [Call.fcmSend client.Client deviceToken] } := by
  unfold FCMService.SendPush
  rcases hres : FCMService.getOrCreateClient env db now tenantID s with ⟨s', r⟩
  rw [hres] at h
  simp only at h
  subst h
  simp only
  cases env.fcmSend client.Client
      { Token := deviceToken, Title := title, Body := body,
        Data := FCMService.stringData data, AndroidSound := "default",
        APNSSound := "default" } with
  | error e => rfl
  | ok res => rfl

/-! ## Theorems: delivery -/

/-- C11. Pool entries persist whatever the delivery outcome. For a `SendPush` call whose
`getOrCreateClient` step yields a client, the pool holds that client for the tenant
after the call, for every behaviour of the backend (delivered, error, not sent). A
following `SendPush` for the same tenant records exactly one further call, a delivery
attempt with the same backend client, and no build step; its pool entry is the same
client with the timestamp refreshed. When the first call built the client, the build
steps over both calls are those of that single build. Stated for APNS and FCM. -/
theorem C11_pool_entry_survives_delivery (env1 env2 : Env) (db1 db2 : Store)
    (now1 now2 : Time) (tenantID token1 title1 body1 token2 title2 body2 : String)
    (data1 data2 : Option (GoMap DataValue)) (s0 : APNSService) (f0 : FCMService) :
    (∀ (client : APNSClient) (s1 s2 : APNSService),
      (APNSService.getOrCreateClient env1 db1 now1 tenantID s0).2 = .ok client →
      s1 = (APNSService.SendPush env1 db1 now1 tenantID token1 title1 body1 data1 s0).1 →
      s2 = (APNSService.SendPush env2 db2 now2 tenantID token2 title2 body2 data2 s1).1 →
      s1.clients.get? tenantID = some client ∧
      s2.calls = s1.calls ++ [Call.apnsPush client.Client
        { DeviceToken := token2, Topic := client.Config.BundleID,
          Payload := APNSService.payload title2 body2 }] ∧
      s2.clients.get? tenantID = some { client with LastUsed := now2 } ∧
      buildStepsSince s1.calls s2.calls = [] ∧
      (s0.clients.get? tenantID = none →
        ∃ config : APNSConfig, buildStepsSince s0.calls s2.calls =
          [Call.dbFirstAPNSConfig tenantID,
            Call.s3DownloadFile ("apns/" ++ tenantID ++ ".p8")
              (APNSService.localPath tenantID),
            Call.authKeyFromFile (APNSService.localPath tenantID),
            Call.newTokenClient config.KeyID config.TeamID])) ∧
    (∀ (client : FCMClient) (f1 f2 : FCMService),
      (FCMService.getOrCreateClient env1 db1 now1 tenantID f0).2 = .ok client →
      f1 = (FCMService.SendPush env1 db1 now1 tenantID token1 title1 body1 data1 f0).1 →
      f2 = (FCMService.SendPush env2 db2 now2 tenantID token2 title2 body2 data2 f1).1 →
      f1.clients.get? tenantID = some client ∧
      f2.calls = f1.calls ++ [Call.fcmSend client.Client token2] ∧
      f2.clients.get? tenantID = some { client with LastUsed := now2 } ∧
      buildStepsSince f1.calls f2.calls = [] ∧
      (f0.clients.get? tenantID = none →
        buildStepsSince f0.calls f2.calls =
          [Call.dbFirstFCMConfig tenantID,
            Call.s3GetFileContent ("fcm/" ++ tenantID ++ ".json"),
            Call.firebaseNewApp, Call.appMessaging])) := by
  constructor
  · intro client s1 s2 hok hs1 hs2
    have hst := APNSService.apns_SendPush_state env1 db1 now1 tenantID token1 title1 body1
      data1 s0 client hok
    have hstored := APNSService.apns_stored_of_ok env1 db1 now1 tenantID s0 client hok
    have h1 : s1.clients.get? tenantID = some client := by rw [hs1, hst]; exact hstored
    have hhit := APNSService.apns_getOrCreateClient_hit env2 db2 now2 tenantID s1 client h1
    have hok2 : (APNSService.getOrCreateClient env2 db2 now2 tenantID s1).2 =
        .ok { client with LastUsed := now2 } := by rw [hhit]
    have hst2 := APNSService.apns_SendPush_state env2 db2 now2 tenantID token2 title2 body2
      data2 s1 _ hok2
    rw [hhit] at hst2
    simp only at hst2
    have hcalls : s2.calls = s1.calls ++ [Call.apnsPush client.Client
        { DeviceToken := token2, Topic := client.Config.BundleID,
          Payload := APNSService.payload title2 body2 }] := by rw [hs2, hst2]
    refine ⟨h1, hcalls, ?_, ?_, ?_⟩
    · rw [hs2, hst2]
      exact GoMap.get?_set_self _ _ _
    · rw [hcalls, buildStepsSince_append]
      rfl
    · intro h0
      rcases APNSService.apns_getOrCreateClient_miss env1 db1 now1 tenantID s0 h0 with
        ⟨err, rest, he, _⟩ | ⟨c, config, _, _, _, hc⟩
      · rw [he] at hok; cases hok
      · refine ⟨config, ?_⟩
        rw [hcalls, hs1, hst]
        simp only
        rw [hc, List.append_assoc, List.append_assoc, buildStepsSince_append]
        rfl
  · intro client f1 f2 hok hf1 hf2
    have hst := FCMService.fcm_SendPush_state env1 db1 now1 tenantID token1 title1 body1
      data1 f0 client hok
    have hstored := FCMService.fcm_stored_of_ok env1 db1 now1 tenantID f0 client hok
    have h1 : f1.clients.get? tenantID = some client := by rw [hf1, hst]; exact hstored
    have hhit := FCMService.fcm_getOrCreateClient_hit env2 db2 now2 tenantID f1 client h1
    have hok2 : (FCMService.getOrCreateClient env2 db2 now2 tenantID f1).2 =
        .ok { client with LastUsed := now2 } := by rw [hhit]
    have hst2 := FCMService.fcm_SendPush_state env2 db2 now2 tenantID token2 title2 body2
      data2 f1 _ hok2
    rw [hhit] at hst2
    simp only at hst2
    have hcalls : f2.calls = f1.calls ++ [Call.fcmSend client.Client token2] := by
      rw [hf2, hst2]
    refine ⟨h1, hcalls, ?_, ?_, ?_⟩
    · rw [hf2, hst2]
      exact GoMap.get?_set_self _ _ _
    · rw [hcalls, buildStepsSince_append]
      rfl
    · intro h0
      rcases FCMService.fcm_getOrCreateClient_miss env1 db1 now1 tenantID f0 h0 with
        ⟨err, rest, he, _⟩ | ⟨c, _, _, _, hc⟩
      · rw [he] at hok; cases hok
      · rw [hcalls, hf1, hst]
        simp only
        rw [hc, List.append_assoc, List.append_assoc, buildStepsSince_append]
        rfl

theorem C11_pool_entry_survives_delivery_witness :
    (APNSService.SendPush { sampleEnv with apnsPush := fun _ _ => .error "timeout" }
        pushStore 5 "acme" "abc" "hi" "there" none NewAPNSService).2
        = some "failed to send APNS push: timeout" ∧
      (APNSService.SendPush { sampleEnv with apnsPush := fun _ _ => .error "timeout" }
        pushStore 5 "acme" "abc" "hi" "there" none NewAPNSService).1.clients.get? "acme"
        = some { sampleAPNSClient with LastUsed := 5 } :=
  ⟨by rfl,
    ((C11_pool_entry_survives_delivery
      { sampleEnv with apnsPush := fun _ _ => .error "timeout" } sampleEnv pushStore
      pushStore 5 9 "acme" "abc" "hi" "there" "abc" "hi" "again" none none NewAPNSService
      NewFCMService).1 { sampleAPNSClient with LastUsed := 5 } _ _ (by rfl) rfl rfl).1⟩

/-- C12. The notification `APNSService.SendPush` hands to the backend does not depend on
the custom data: for any two data maps the whole outcome of the call is the same, that
is the returned error, the pool, and the recorded backend call with its device token,
topic and payload. -/
theorem C12_apns_ignores_custom_data (env : Env) (db : Store) (now : Time)
    (tenantID deviceToken title body : String) (d1 d2 : Option (GoMap DataValue))
    (s : APNSService) :
    APNSService.SendPush env db now tenantID deviceToken title body d1 s =
        APNSService.SendPush env db now tenantID deviceToken title body d2 s ∧
      (∀ client, (APNSService.getOrCreateClient env db now tenantID s).2 = .ok client →
        (APNSService.SendPush env db now tenantID deviceToken title body d1 s).1.calls =
          (APNSService.getOrCreateClient env db now tenantID s).1.calls ++
            [Call.apnsPush client.Client
              { DeviceToken := deviceToken, Topic := client.Config.BundleID,
                Payload := APNSService.payload title body }]) := by
  refine ⟨rfl, fun client h => ?_⟩
  rw [APNSService.apns_SendPush_state env db now tenantID deviceToken title body d1 s
    client h]

/-- Lookup after the conversion loop over a list of entries with distinct keys. -/
theorem foldl_set_get? {V W : Type} (g : V → W) (l : List (Σ _ : String, V)) :
    l.NodupKeys → ∀ (m : GoMap W) (k : String),
      (l.foldl (fun m e => m.set e.1 (g e.2)) m).get? k =
        match List.dlookup k l with
        | some v => some (g v)
        | none => m.get? k := by
  induction l with
  | nil => intro _ m k; rfl
  | cons e rest ih =>
    intro hnd m k
    obtain ⟨hnotin, hrest⟩ := List.nodupKeys_cons.1 hnd
    rw [List.foldl_cons, ih hrest]
    by_cases hk : k = e.1
    · subst hk
      have hnone : List.dlookup e.1 rest = none := List.dlookup_eq_none.2 hnotin
      rw [hnone]
      obtain ⟨k', v⟩ := e
      simp only [List.dlookup_cons_eq, GoMap.get?_set_self]
    · rw [List.dlookup_cons_ne _ _ hk, GoMap.get?_set_ne _ _ hk]

/-! ## Lemmas: renderings, conversions and paths on sample values -/

/-- The `%v` form of sample `float64` values: zero and minus zero, the switch to the
`%e` form at the exponents `-5` and `6`, values that need all their digits, the extreme
finite values, the infinities and a NaN. -/
theorem FormatFloat_samples :
    FormatFloat { sign := false, exponent := 0, fraction := 0 } = "0" ∧
      FormatFloat { sign := true, exponent := 0, fraction := 0 } = "-0" ∧
      FormatFloat { sign := false, exponent := 1023, fraction := 0 } = "1" ∧
      FormatFloat { sign := true, exponent := 1024, fraction := 1125899906842624 } = "-2.5" ∧
      FormatFloat { sign := false, exponent := 1039, fraction := 2368348046229504 } = "100000" ∧
      FormatFloat { sign := false, exponent := 1042, fraction := 4086334964629504 } = "1e+06" ∧
      FormatFloat { sign := false, exponent := 1039, fraction := 3980280196182835 } = "123456.7" ∧
      FormatFloat { sign := false, exponent := 1009, fraction := 2875098002113325 } = "0.0001" ∧
      FormatFloat { sign := false, exponent := 1006, fraction := 1399358476216561 } = "1e-05" ∧
      FormatFloat { sign := false, exponent := 1021, fraction := 900719925474099 } = "0.3" ∧
      FormatFloat { sign := false, exponent := 1092, fraction := 3125794903879504 } = "1e+21" ∧
      FormatFloat { sign := false, exponent := 1099, fraction := 1456864850168566 } = "1e+23" ∧
      FormatFloat { sign := false, exponent := 1076, fraction := 0 } = "9.007199254740992e+15" ∧
      FormatFloat { sign := false, exponent := 0, fraction := 1 } = "5e-324" ∧
      FormatFloat { sign := false, exponent := 2046, fraction := 4503599627370495 } = "1.7976931348623157e+308" ∧
      FormatFloat { sign := false, exponent := 1, fraction := 0 } = "2.2250738585072014e-308" ∧
      FormatFloat { sign := false, exponent := 2047, fraction := 0 } = "+Inf" ∧
      FormatFloat { sign := true, exponent := 2047, fraction := 0 } = "-Inf" ∧
      FormatFloat { sign := false, exponent := 2047, fraction := 1 } = "NaN" := by
  decide!

/-- The `float64` of sample number literals, and the range error of literals that round
to an infinity. -/
theorem ParseFloat_samples :
    ParseFloat "0.1".data = some { sign := false, exponent := 1019, fraction := 2702159776422298 } ∧
      ParseFloat "-0".data = some { sign := true, exponent := 0, fraction := 0 } ∧
      ParseFloat "1234567".data = some { sign := false, exponent := 1043, fraction := 798825262350336 } ∧
      ParseFloat "1e-400".data = some { sign := false, exponent := 0, fraction := 0 } ∧
      ParseFloat "2.5E+3".data = some { sign := false, exponent := 1034, fraction := 993958511509504 } ∧
      ParseFloat "9007199254740993".data = some { sign := false, exponent := 1076, fraction := 0 } ∧
      ParseFloat "4.9e-324".data = some { sign := false, exponent := 0, fraction := 1 } ∧
      ParseFloat "1.7976931348623157e308".data = some { sign := false, exponent := 2046, fraction := 4503599627370495 } ∧
      ParseFloat "0.30000000000000004".data = some { sign := false, exponent := 1021, fraction := 900719925474100 } ∧
      ParseFloat "1e999".data = none ∧
      ParseFloat "1.7976931348623159e308".data = none := by
  decide!

/-- Sample results of `filepath.Join` and `filepath.Dir` on the local key path. -/
theorem localPath_samples :
    APNSService.localPath "acme" = "/tmp/apns/acme.p8" ∧
      APNSService.localPath "a/../b" = "/tmp/apns/b.p8" ∧
      APNSService.localPath "../../etc/x" = "/etc/x.p8" ∧
      filepathDir (APNSService.localPath "acme") = "/tmp/apns" ∧
      filepathDir "/x.p8" = "/" ∧
      filepathClean "" = "." ∧
      filepathClean "a/b/../../.." = ".." := by
  decide

/-- Sample outcomes of `Decode`: a member name matches its field without regard to case,
`null` leaves a field as it is, the last of repeated members stays, a number for a
string field and a non-object for `data` are errors, and so is a number out of range
inside `data`, but not one in a member that matches no field. -/
theorem DecodePushRequest_samples :
    (DecodePushRequest "\x7b\"TITLE\":\"a\",\"title\":\"b\",\"body\":null\x7d").map
        (fun q => (q.UserID, q.DeviceToken, q.Title, q.Body, q.Data.isSome))
        = some ("", "", "b", "", false) ∧
      (DecodePushRequest "null").map
        (fun q => (q.UserID, q.DeviceToken, q.Title, q.Body, q.Data.isSome))
        = some ("", "", "", "", false) ∧
      (DecodePushRequest goodBody).map
        (fun q => (q.DeviceToken, q.Title, q.Body,
          GoMap.read (FCMService.stringData q.Data) "n",
          GoMap.read (FCMService.stringData q.Data) "s"))
        = some ("abc", "hi", "there", some "1.234567e+06", some "x") ∧
      (DecodePushRequest "\x7b\"data\":\x7b\x7d\x7d").map (fun q => q.Data.isSome) = some true ∧
      (DecodePushRequest "\x7b\"data\":[1]\x7d").isSome = false ∧
      (DecodePushRequest "\x7b\"data\":\x7b\"a\":1e999\x7d\x7d").isSome = false ∧
      (DecodePushRequest "\x7b\"x\":1e999\x7d").isSome = true ∧
      (DecodePushRequest "\x7b\"title\":1.\x7d").isSome = false ∧
      (DecodePushRequest "[1]").isSome = false ∧
      (DecodePushRequest "").isSome = false ∧
      (DecodePushRequest "\x7b\"title\":\"\\ud83d\\ude00\"\x7d").map (fun q => q.Title)
        = some (String.mk [Char.ofNat 0x1F600]) :=
  ⟨by decide!, by decide!, by decide!, by decide!, by decide!, by decide!, by decide!,
    by decide!, by decide!, by decide!, by decide!⟩

theorem FCMService.sprintItems_eq_map (items : List DataValue) :
    FCMService.sprintItems items = items.map FCMService.sprintV := by
  induction items with
  | nil => rfl
  | cons v rest ih => rw [FCMService.sprintItems, ih, List.map_cons]

theorem FCMService.sprintMembers_eq_map (members : List (String × DataValue)) :
    FCMService.sprintMembers members
      = members.map (fun kv => (kv.1, FCMService.sprintV kv.2)) := by
  induction members with
  | nil => rfl
  | cons kv rest ih =>
    obtain ⟨k, v⟩ := kv
    rw [FCMService.sprintMembers, ih, List.map_cons]

/-- Lookup in the string map the conversion loop builds. -/
theorem FCMService.fcm_stringData_read (data : Option (GoMap DataValue)) (k : String) :
    GoMap.read (FCMService.stringData data) k
      = (GoMap.read data k).map FCMService.sprintV := by
  cases data with
  | none => rfl
  | some m =>
    unfold FCMService.stringData GoMap.read GoMap.rangeOf
    simp only
    rw [foldl_set_get? FCMService.sprintV m.entries m.nodupKeys]
    unfold GoMap.get? AList.lookup
    cases List.dlookup k m.entries <;> simp [GoMap.make]

/-- C13. The string map `FCMService.SendPush` builds from the custom data is never the
nil map, has exactly the keys of the custom data, maps a key holding a string to that
string and a key holding any other value to the `%v` rendering of that value, and is
the empty map made by `make` when the custom data is the nil map (field absent) or an
empty map; it is the `Data` of the message handed to the backend. The `%v` rendering
is `<nil>` for `nil`, `true` or `false` for a boolean, the shortest `%g` form for a
number, the bracketed space-separated renderings of the elements for a slice, and
`map[...]` with the `key:value` entries in key order for a map. -/
theorem C13_fcm_string_data (data : Option (GoMap DataValue)) :
    FCMService.stringData data ≠ none ∧
      (∀ k, (GoMap.read (FCMService.stringData data) k).isSome
        = (GoMap.read data k).isSome) ∧
      (∀ k s, GoMap.read data k = some (DataValue.str s) →
        GoMap.read (FCMService.stringData data) k = some s) ∧
      (∀ k v, GoMap.read data k = some v →
        GoMap.read (FCMService.stringData data) k = some (FCMService.sprintV v)) ∧
      (FCMService.stringData none = some (GoMap.make String) ∧
        FCMService.stringData (some (GoMap.make DataValue)) = some (GoMap.make String)) ∧
      (FCMService.sprintV .null = "<nil>" ∧
        FCMService.sprintV (.bool true) = "true" ∧
        FCMService.sprintV (.bool false) = "false" ∧
        (∀ f, FCMService.sprintV (.number f) = FormatFloat f) ∧
        (∀ items, FCMService.sprintV (.array items)
          = "[" ++ joinSpace (items.map FCMService.sprintV) ++ "]") ∧
        (∀ members, FCMService.sprintV (.object members)
          = "map[" ++ joinSpace ((sortByKey
              (members.map (fun kv => (kv.1, FCMService.sprintV kv.2)))).map
              (fun kv => kv.1 ++ ":" ++ kv.2)) ++ "]")) ∧
      (∀ (env : Env) (db : Store) (now : Time) (tenantID deviceToken title body : String)
        (s : FCMService) (client : FCMClient),
        (FCMService.getOrCreateClient env db now tenantID s).2 = .ok client →
        (FCMService.SendPush env db now tenantID deviceToken title body data s).2 =
          match env.fcmSend client.Client
            { Token := deviceToken, Title := title, Body := body,
              Data := FCMService.stringData data, AndroidSound := "default",
              APNSSound := "default" } with
          | .error err => some ("failed to send FCM push: " ++ err)
          | .ok _ => none) := by
  refine ⟨?_, fun k => ?_, fun k s h => ?_, fun k v h => ?_, ⟨rfl, rfl⟩,
    ⟨rfl, rfl, rfl, fun _ => rfl, fun items => ?_, fun members => ?_⟩, ?_⟩
  · unfold FCMService.stringData
    exact Option.some_ne_none _
  · rw [FCMService.fcm_stringData_read]
    cases GoMap.read data k <;> rfl
  · rw [FCMService.fcm_stringData_read, h]
    rfl
  · rw [FCMService.fcm_stringData_read, h]
    rfl
  · rw [FCMService.sprintV, FCMService.sprintItems_eq_map]
  · rw [FCMService.sprintV, FCMService.sprintMembers_eq_map]
  · intro env db now tenantID deviceToken title body s client h
    unfold FCMService.SendPush
    rcases hres : FCMService.getOrCreateClient env db now tenantID s with ⟨s', r⟩
    rw [hres] at h
    simp only at h
    subst h
    simp only
    cases env.fcmSend client.Client
        { Token := deviceToken, Title := title, Body := body,
          Data := FCMService.stringData data, AndroidSound := "default",
          APNSSound := "default" } with
    | error e => rfl
    | ok res => rfl

theorem C13_fcm_string_data_witness :
    GoMap.read (FCMService.stringData (some sampleData)) "id" = some "x1" ∧
      GoMap.read (FCMService.stringData (some sampleData)) "count" = some "3" ∧
      GoMap.read (FCMService.stringData (some sampleData)) "big" = some "1.234567e+06" ∧
      GoMap.read (FCMService.stringData (some sampleData)) "ratio" = some "0.1" ∧
      GoMap.read (FCMService.stringData (some sampleData)) "tiny" = some "1e-06" ∧
      GoMap.read (FCMService.stringData (some sampleData)) "flag" = some "true" ∧
      GoMap.read (FCMService.stringData (some sampleData)) "gone" = some "<nil>" ∧
      GoMap.read (FCMService.stringData (some sampleData)) "tags" = some "[a 3 <nil>]" ∧
      GoMap.read (FCMService.stringData (some sampleData)) "meta"
        = some "map[a:z b:false]" ∧
      GoMap.read (FCMService.stringData (some sampleData)) "other" = none :=
  ⟨(C13_fcm_string_data (some sampleData)).2.2.1 "id" "x1" (by rfl),
    by decide, by decide, by decide, by decide, by decide, by decide, by decide, by decide,
    by decide⟩

/-- C19 as stated fails: `Decode` reads the first JSON value of the body and leaves the
rest unread. The body made of a complete object with the three fields followed by the
bytes `xyz` is not valid JSON, yet it decodes, both handlers answer 200 and `SendPush`
has run: a client was built and the backend was called. -/
theorem C19_counterexample_trailing_bytes :
    (decodeJSON trailingBody).isSome = false ∧
      (DecodePushRequest trailingBody).map (fun q => (q.DeviceToken, q.Title, q.Body))
        = some ("abc", "hi", "there") ∧
      (APNSPushHandler sampleEnv 5 ResponseWriter.fresh (postWithBody "acme" trailingBody)
        (worldWithStore pushStore)).1
        = writeSuccess ResponseWriter.fresh "APNS push notification sent successfully" "acme" ∧
      ((APNSPushHandler sampleEnv 5 ResponseWriter.fresh (postWithBody "acme" trailingBody)
        (worldWithStore pushStore)).2.apnsService.calls.map Call.toStep).getLast?
        = some (some Step.backendSend) ∧
      (APNSPushHandler sampleEnv 5 ResponseWriter.fresh (postWithBody "acme" trailingBody)
        (worldWithStore pushStore)).2.apnsService.clients.get? "acme"
        = some { sampleAPNSClient with LastUsed := 5 } ∧
      (FCMPushHandler sampleEnv 5 ResponseWriter.fresh (postWithBody "acme" trailingBody)
        (worldWithStore pushStore)).1
        = writeSuccess ResponseWriter.fresh "FCM push notification sent successfully" "acme" ∧
      (FCMPushHandler sampleEnv 5 ResponseWriter.fresh (postWithBody "acme" trailingBody)
        (worldWithStore pushStore)).2.fcmService.calls.getLast?
        = some (Call.fcmSend sampleFCMClient.Client "abc") := by
  decide

/-- C19 (amended). A POST with a tenant bound whose body `Decode` rejects, or whose
device token, title or body field is empty after decoding, is answered 400 by either
push handler and the process state is returned as it was: `SendPush` has not run, so
pools, timestamps and recorded backend calls are untouched. With a decoded body and the
three fields non-empty the handler runs `SendPush`, and the state it returns is the one
`SendPush` leaves. `Decode` rejects a body exactly when the body does not begin with a
complete JSON value, or that value is nested too deep or does not fit the request
struct, and a value that fits is `null` or an object; the outcome depends on the first
value only, not on what follows it. -/
theorem C19_malformed_push_rejected (env : Env) (now : Time) (w : ResponseWriter)
    (r : Request) (world : World) (hm : r.Method = "POST") (ht : GetTenantID r ≠ "") :
    ((r.Body = none ∨ ∃ req, r.Body = some req ∧
          (req.DeviceToken = "" ∨ req.Title = "" ∨ req.Body = "")) →
        ∃ msg,
          APNSPushHandler env now w r world = (httpError w msg StatusBadRequest, world) ∧
          FCMPushHandler env now w r world = (httpError w msg StatusBadRequest, world) ∧
          (w.status = 0 → (httpError w msg StatusBadRequest).status = 400)) ∧
      (∀ req, r.Body = some req → req.DeviceToken ≠ "" → req.Title ≠ "" →
        req.Body ≠ "" →
        (APNSPushHandler env now w r world).2 =
          { world with apnsService := (APNSService.SendPush env world.DB now
              (GetTenantID r) req.DeviceToken req.Title req.Body req.Data
              world.apnsService).1 } ∧
        (FCMPushHandler env now w r world).2 =
          { world with fcmService := (FCMService.SendPush env world.DB now
              (GetTenantID r) req.DeviceToken req.Title req.Body req.Data
              world.fcmService).1 }) ∧
      (∀ body : String,
        (DecodePushRequest body = none ↔
          (parseJSON (body.length + 1) .value body.data = none ∨
            ∃ v rest, parseJSON (body.length + 1) .value body.data = some (v, rest) ∧
              (maxNestingDepth < v.depth ∨ UnmarshalPushRequest v = none))) ∧
        (∀ v rest, parseJSON (body.length + 1) .value body.data = some (v, rest) →
          DecodePushRequest body
            = if maxNestingDepth < v.depth then none else UnmarshalPushRequest v)) ∧
      (∀ v req, UnmarshalPushRequest v = some req →
        (∃ members, v = JSON.obj members) ∨
          (∃ _ : v = JSON.null, req.DeviceToken = "" ∧ req.Title = "" ∧ req.Body = "")) ∧
      (∀ tenantID body, (postWithBody tenantID body).Method = "POST" ∧
        GetTenantID (postWithBody tenantID body) = tenantID ∧
        (postWithBody tenantID body).Body = DecodePushRequest body) := by
  refine ⟨?_, ?_, ?_, ?_, ?_⟩
  · rintro (hb | ⟨req, hb, hf⟩)
    · refine ⟨"Invalid JSON payload", ?_, ?_, fun hw => httpError_status w _ _ hw⟩
      · unfold APNSPushHandler
        simp only [hm, ne_eq, not_true_eq_false, if_false, ht, hb]
      · unfold FCMPushHandler
        simp only [hm, ne_eq, not_true_eq_false, if_false, ht, hb]
    · refine ⟨"Missing required fields: device_token, title, body", ?_, ?_,
        fun hw => httpError_status w _ _ hw⟩
      · unfold APNSPushHandler
        simp only [hm, ne_eq, not_true_eq_false, if_false, ht, hb, hf, if_true]
      · unfold FCMPushHandler
        simp only [hm, ne_eq, not_true_eq_false, if_false, ht, hb, hf, if_true]
  · intro req hb hd htitle hbody
    have hf : ¬ (req.DeviceToken = "" ∨ req.Title = "" ∨ req.Body = "") := by
      rintro (h1 | h1 | h1)
      · exact hd h1
      · exact htitle h1
      · exact hbody h1
    constructor
    · unfold APNSPushHandler
      simp only [hm, ne_eq, not_true_eq_false, if_false, ht, hb, hf]
      rcases APNSService.SendPush env world.DB now (GetTenantID r) req.DeviceToken
        req.Title req.Body req.Data world.apnsService with ⟨s', _ | e⟩ <;> rfl
    · unfold FCMPushHandler
      simp only [hm, ne_eq, not_true_eq_false, if_false, ht, hb, hf]
      rcases FCMService.SendPush env world.DB now (GetTenantID r) req.DeviceToken
        req.Title req.Body req.Data world.fcmService with ⟨s', _ | e⟩ <;> rfl
  · intro body
    constructor
    · unfold DecodePushRequest
      cases hp : parseJSON (body.length + 1) .value body.data with
      | none => simp
      | some vr =>
        obtain ⟨v, rest⟩ := vr
        simp only [reduceCtorEq, false_or, Option.some.injEq, Prod.mk.injEq]
        constructor
        · intro h
          refine ⟨v, rest, ⟨rfl, rfl⟩, ?_⟩
          by_cases hd : maxNestingDepth < v.depth
          · exact Or.inl hd
          · rw [if_neg hd] at h
            exact Or.inr h
        · rintro ⟨v', rest', ⟨rfl, rfl⟩, hd | hu⟩
          · rw [if_pos hd]
          · split
            · rfl
            · exact hu
    · intro v rest h1
      unfold DecodePushRequest
      rw [h1]
  · intro v req h
    unfold UnmarshalPushRequest at h
    cases v with
    | obj members => exact Or.inl ⟨members, rfl⟩
    | null =>
      simp only [Option.some.injEq] at h
      subst h
      exact Or.inr ⟨rfl, rfl, rfl, rfl⟩
    | bool b => simp at h
    | num t => simp at h
    | str t => simp at h
    | arr items => simp at h
  · intro tenantID body
    exact ⟨rfl, rfl, rfl⟩

theorem C19_malformed_push_rejected_witness :
    (APNSPushHandler sampleEnv 5 ResponseWriter.fresh (postWithBody "acme" truncatedBody)
        (worldWithStore pushStore)).1.status = 400 ∧
      (APNSPushHandler sampleEnv 5 ResponseWriter.fresh (postWithBody "acme" truncatedBody)
        (worldWithStore pushStore)).2.apnsService.calls = [] ∧
      (APNSPushHandler sampleEnv 5 ResponseWriter.fresh (postWithBody "acme" wrongTypeBody)
        (worldWithStore pushStore)).1.status = 400 ∧
      (FCMPushHandler sampleEnv 5 ResponseWriter.fresh (postWithBody "acme" emptyTitleBody)
        (worldWithStore pushStore)).1.status = 400 ∧
      (FCMPushHandler sampleEnv 5 ResponseWriter.fresh (postWithBody "acme" emptyTitleBody)
        (worldWithStore pushStore)).2.fcmService.calls = [] ∧
      (FCMPushHandler sampleEnv 5 ResponseWriter.fresh (postWithBody "acme" goodBody)
        (worldWithStore pushStore)).1.status = 200 ∧
      (FCMPushHandler sampleEnv 5 ResponseWriter.fresh (postWithBody "acme" goodBody)
        (worldWithStore pushStore)).2.fcmService.calls.getLast?
        = some (Call.fcmSend sampleFCMClient.Client "abc") := by
  obtain ⟨msg, h1, _, h3⟩ := (C19_malformed_push_rejected sampleEnv 5 ResponseWriter.fresh
    (postWithBody "acme" truncatedBody) (worldWithStore pushStore) rfl (by decide)).1
    (Or.inl (Option.isNone_iff_eq_none.1 (by decide)))
  rw [h1]
  exact ⟨h3 rfl, rfl, by decide, by decide, by decide, by decide, by decide⟩

/-! ## Lemmas: device registration -/

theorem updateFirst_filter_neg {α : Type} (p : α → Bool) (f : α → α)
    (hf : ∀ a, p a = true → p (f a) = true) (l : List α) :
    (Store.updateFirst p f l).filter (fun a => !p a) = l.filter (fun a => !p a) := by
  induction l with
  | nil => rfl
  | cons a rest ih =>
    unfold Store.updateFirst
    by_cases hp : p a = true
    · simp [hp, hf a hp]
    · have hp' : p a = false := by simpa using hp
      simp [hp', ih]

theorem updateFirst_filter_pos {α : Type} (p : α → Bool) (f : α → α)
    (hf : ∀ a, p a = true → p (f a) = true) (l : List α) :
    (Store.updateFirst p f l).filter p =
      match l.filter p with
      | [] => []
      | a :: rest => f a :: rest := by
  induction l with
  | nil => rfl
  | cons a rest ih =>
    unfold Store.updateFirst
    by_cases hp : p a = true
    · simp [hp, hf a hp]
    · have hp' : p a = false := by simpa using hp
      simp [hp', ih]

theorem find?_eq_none_filter {α : Type} (p : α → Bool) (l : List α)
    (h : l.find? p = none) : l.filter p = [] := by
  rw [List.filter_eq_nil_iff]
  intro a ha hpa
  exact (List.find?_eq_none.1 h) a ha hpa

theorem find?_some_filter {α : Type} (p : α → Bool) (l : List α) (a : α)
    (h : l.find? p = some a) : ∃ rest, l.filter p = a :: rest := by
  induction l with
  | nil => simp at h
  | cons b rest ih =>
    by_cases hp : p b = true
    · simp [List.find?_cons, hp] at h
      subst h
      exact ⟨rest.filter p, by simp [hp]⟩
    · simp [List.find?_cons, hp] at h
      obtain ⟨r, hr⟩ := ih h
      exact ⟨r, by simp [hp, hr]⟩

theorem firstOrCreate_found (db : Store) (t u p : String) (v found : DeviceToken)
    (hdb : db.failure = none)
    (hfind : db.device_tokens.find? (Store.sameTriple t u p) = some found) :
    db.firstOrCreateDeviceToken t u p v =
      ({ db with device_tokens :=
          Store.updateFirst (Store.sameTriple t u p) (Store.assignNonZero v) db.device_tokens },
        .ok (Store.assignNonZero v found)) := by
  unfold Store.firstOrCreateDeviceToken
  rw [hdb]
  simp only
  rw [hfind]

theorem firstOrCreate_none (db : Store) (t u p : String) (v : DeviceToken)
    (hdb : db.failure = none)
    (hfind : db.device_tokens.find? (Store.sameTriple t u p) = none) :
    db.firstOrCreateDeviceToken t u p v =
      ({ db with device_tokens :=
          db.device_tokens ++ [{ v with ID := Store.nextDeviceID db.device_tokens }] },
        .ok { v with ID := Store.nextDeviceID db.device_tokens }) := by
  unfold Store.firstOrCreateDeviceToken
  rw [hdb]
  simp only
  rw [hfind]

/-- The rows one successful registration of `(t, u, p, token)` leaves: rows of other
triples are as before; among the rows of the triple the first one now holds the token,
or, when there was none, there is exactly one new row holding it. -/
theorem register_rows (db : Store) (t u p token : String) (hdb : db.failure = none)
    (ht : t ≠ "") (hu : u ≠ "") (hp : p ≠ "") (htok : token ≠ "") :
    ((db.firstOrCreateDeviceToken t u p
        { ID := 0, TenantID := t, DeviceToken := token, UserID := u, Platform := p }).1.device_tokens.filter
        (fun d => !Store.sameTriple t u p d) =
      db.device_tokens.filter (fun d => !Store.sameTriple t u p d)) ∧
    ((db.firstOrCreateDeviceToken t u p
        { ID := 0, TenantID := t, DeviceToken := token, UserID := u, Platform := p }).1.device_tokens.filter
        (Store.sameTriple t u p) =
      match db.device_tokens.filter (Store.sameTriple t u p) with
      | [] => [{ ID := Store.nextDeviceID db.device_tokens, TenantID := t,
                 DeviceToken := token, UserID := u, Platform := p }]
      | a :: rest => { a with DeviceToken := token } :: rest) ∧
    (db.firstOrCreateDeviceToken t u p
        { ID := 0, TenantID := t, DeviceToken := token, UserID := u, Platform := p }).1.failure
      = none ∧
    (db.firstOrCreateDeviceToken t u p
        { ID := 0, TenantID := t, DeviceToken := token, UserID := u, Platform := p }).1.tenants
      = db.tenants ∧
    ∃ saved, (db.firstOrCreateDeviceToken t u p
        { ID := 0, TenantID := t, DeviceToken := token, UserID := u, Platform := p }).2
      = .ok saved := by
  have hassign : ∀ a : DeviceToken, Store.sameTriple t u p a = true →
      Store.assignNonZero
        { ID := 0, TenantID := t, DeviceToken := token, UserID := u, Platform := p } a
        = { a with DeviceToken := token } := by
    intro a ha
    simp only [Store.sameTriple, Bool.and_eq_true, beq_iff_eq] at ha
    obtain ⟨⟨h1, h2⟩, h3⟩ := ha
    subst h1 h2 h3
    simp [Store.assignNonZero, ht, hu, hp, htok]
  have hpres : ∀ a : DeviceToken, Store.sameTriple t u p a = true →
      Store.sameTriple t u p (Store.assignNonZero
        { ID := 0, TenantID := t, DeviceToken := token, UserID := u, Platform := p } a)
        = true := by
    intro a ha
    rw [hassign a ha]
    simpa [Store.sameTriple] using ha
  cases hfind : db.device_tokens.find? (Store.sameTriple t u p) with
  | none =>
    have hnil := find?_eq_none_filter _ _ hfind
    rw [firstOrCreate_none db t u p _ hdb hfind]
    refine ⟨?_, ?_, hdb, rfl, ⟨_, rfl⟩⟩
    · simp [List.filter_append, Store.sameTriple]
    · rw [List.filter_append, hnil]
      simp [Store.sameTriple]
  | some found =>
    obtain ⟨rest, hrest⟩ := find?_some_filter _ _ _ hfind
    rw [firstOrCreate_found db t u p _ found hdb hfind]
    refine ⟨updateFirst_filter_neg _ _ hpres _, ?_, hdb, rfl, ⟨_, rfl⟩⟩
    rw [updateFirst_filter_pos _ _ hpres, hrest]
    simp only
    have hf : Store.sameTriple t u p found = true := by
      have : found ∈ db.device_tokens.filter (Store.sameTriple t u p) := by
        rw [hrest]; exact List.mem_cons_self _ _
      exact (List.mem_filter.1 this).2
    rw [hassign found hf]

theorem RegisterHandler_ok (w : ResponseWriter) (r : Request) (world : World)
    (tenant : Tenant) (t u p token : String) (hm : r.Method = "POST")
    (ht : GetTenantID r = t) (hne : t ≠ "")
    (htenant : world.DB.GetTenantByID t = .ok tenant) (hactive : tenant.Active = true)
    (hb : r.RegisterBody = some { DeviceToken := token, UserID := u, Platform := p })
    (hu : u ≠ "") (hp : p ≠ "") (htok : token ≠ "") :
    (RegisterHandler w r world).2 =
      { world with DB := (world.DB.firstOrCreateDeviceToken t u p
          { ID := 0, TenantID := t, DeviceToken := token, UserID := u, Platform := p }).1 } := by
  unfold RegisterHandler
  subst ht
  have hf : ¬ (token = "" ∨ u = "" ∨ p = "") := by
    rintro (h1 | h1 | h1)
    · exact htok h1
    · exact hu h1
    · exact hp h1
  simp only [hm, ne_eq, not_true_eq_false, if_false, hne, htenant, hactive, hb, hf,
    Bool.not_true, Bool.false_eq_true]
  rcases Store.firstOrCreateDeviceToken world.DB (GetTenantID r) u p
    { ID := 0, TenantID := GetTenantID r, DeviceToken := token, UserID := u,
      Platform := p } with ⟨db', _ | _⟩ <;> rfl

theorem GetTenantByID_congr (db db' : Store) (t : String) (hf : db'.failure = db.failure)
    (ht : db'.tenants = db.tenants) : db'.GetTenantByID t = db.GetTenantByID t := by
  unfold Store.GetTenantByID
  rw [hf, ht]

theorem sameTriple_other (t u p t' u' p' : String) (d : DeviceToken)
    (hne : ¬ (t' = t ∧ u' = u ∧ p' = p)) (h : Store.sameTriple t' u' p' d = true) :
    (!Store.sameTriple t u p d) = true := by
  simp only [Store.sameTriple, Bool.and_eq_true, beq_iff_eq] at h
  obtain ⟨⟨h1, h2⟩, h3⟩ := h
  simp only [Store.sameTriple, Bool.not_eq_true', Bool.and_eq_false_iff, beq_eq_false_iff_ne,
    ne_eq]
  by_contra hc
  simp only [not_or, not_not] at hc
  obtain ⟨⟨c1, c2⟩, c3⟩ := hc
  exact hne ⟨h1.symm.trans c1, h2.symm.trans c2, h3.symm.trans c3⟩

theorem filter_other_triple (t u p t' u' p' : String) (l l' : List DeviceToken)
    (hne : ¬ (t' = t ∧ u' = u ∧ p' = p))
    (h : l'.filter (fun d => !Store.sameTriple t u p d) =
      l.filter (fun d => !Store.sameTriple t u p d)) :
    l'.filter (Store.sameTriple t' u' p') = l.filter (Store.sameTriple t' u' p') := by
  have key : ∀ m : List DeviceToken,
      (m.filter (fun d => !Store.sameTriple t u p d)).filter (Store.sameTriple t' u' p')
        = m.filter (Store.sameTriple t' u' p') := by
    intro m
    rw [List.filter_filter]
    apply List.filter_congr
    intro d _
    cases hd : Store.sameTriple t' u' p' d with
    | false => simp
    | true => simp [sameTriple_other t u p t' u' p' d hne hd]
  rw [← key l', h, key l]

/-! ## Theorems: device registration -/

/-- C14 (amended). Two successive successful registrations of `(t, u, p, token1)` and
`(t, u, p, token2)` through `RegisterHandler`, from any device table: every row of a
different triple is left as it was; the rows of the triple are as many as before, or
one when there was none, the first of them holds `token2` and the others are untouched;
so a table with at most one row for the triple ends with exactly one row for it, holding
`token2`, and a table without two rows of any one triple stays so. -/
theorem C14_register_upsert (w1 w2 : ResponseWriter) (r1 r2 : Request) (world : World)
    (tenant : Tenant) (t u p token1 token2 : String) (T0 T2 : List DeviceToken)
    (hm1 : r1.Method = "POST") (hm2 : r2.Method = "POST")
    (ht1 : GetTenantID r1 = t) (ht2 : GetTenantID r2 = t)
    (hb1 : r1.RegisterBody = some { DeviceToken := token1, UserID := u, Platform := p })
    (hb2 : r2.RegisterBody = some { DeviceToken := token2, UserID := u, Platform := p })
    (hne : t ≠ "" ∧ u ≠ "" ∧ p ≠ "" ∧ token1 ≠ "" ∧ token2 ≠ "")
    (hdb : world.DB.failure = none)
    (htenant : world.DB.GetTenantByID t = .ok tenant) (hactive : tenant.Active = true)
    (hT0 : T0 = world.DB.device_tokens)
    (hT2 : T2 = (RegisterHandler w2 r2 (RegisterHandler w1 r1 world).2).2.DB.device_tokens) :
    T2.filter (fun d => !Store.sameTriple t u p d) =
        T0.filter (fun d => !Store.sameTriple t u p d) ∧
      (T2.filter (Store.sameTriple t u p)).length =
        max 1 (T0.filter (Store.sameTriple t u p)).length ∧
      (∃ d rest, T2.filter (Store.sameTriple t u p) = d :: rest ∧ d.DeviceToken = token2 ∧
        rest = (T0.filter (Store.sameTriple t u p)).tail) ∧
      ((T0.filter (Store.sameTriple t u p)).length ≤ 1 →
        ∃ d, T2.filter (Store.sameTriple t u p) = [d] ∧ d.DeviceToken = token2) ∧
      ((∀ t' u' p', (T0.filter (Store.sameTriple t' u' p')).length ≤ 1) →
        ∀ t' u' p', (T2.filter (Store.sameTriple t' u' p')).length ≤ 1) := by
  obtain ⟨hnt, hnu, hnp, hn1, hn2⟩ := hne
  have hw1 := RegisterHandler_ok w1 r1 world tenant t u p token1 hm1 ht1 hnt htenant hactive
    hb1 hnu hnp hn1
  obtain ⟨ha1, hb1', hf1, hten1, _⟩ := register_rows world.DB t u p token1 hdb hnt hnu hnp hn1
  have htenant1 : (RegisterHandler w1 r1 world).2.DB.GetTenantByID t = .ok tenant := by
    rw [hw1]
    simp only
    rw [GetTenantByID_congr world.DB _ t (hf1.trans hdb.symm) hten1]
    exact htenant
  have hw2 := RegisterHandler_ok w2 r2 (RegisterHandler w1 r1 world).2 tenant t u p token2
    hm2 ht2 hnt htenant1 hactive hb2 hnu hnp hn2
  have hdb1 : (RegisterHandler w1 r1 world).2.DB.failure = none := by rw [hw1]; exact hf1
  obtain ⟨ha2, hb2', _, _, _⟩ := register_rows (RegisterHandler w1 r1 world).2.DB t u p
    token2 hdb1 hnt hnu hnp hn2
  have hDB1 : (RegisterHandler w1 r1 world).2.DB.device_tokens =
      (world.DB.firstOrCreateDeviceToken t u p
        { ID := 0, TenantID := t, DeviceToken := token1, UserID := u,
          Platform := p }).1.device_tokens := by rw [hw1]
  have hT2' : T2 = ((RegisterHandler w1 r1 world).2.DB.firstOrCreateDeviceToken t u p
      { ID := 0, TenantID := t, DeviceToken := token2, UserID := u,
        Platform := p }).1.device_tokens := by rw [hT2, hw2]
  have hneg : T2.filter (fun d => !Store.sameTriple t u p d) =
      T0.filter (fun d => !Store.sameTriple t u p d) := by
    rw [hT2', ha2, hDB1, ha1, hT0]
  have hpos : ∃ d rest, T2.filter (Store.sameTriple t u p) = d :: rest ∧
      d.DeviceToken = token2 ∧ rest = (T0.filter (Store.sameTriple t u p)).tail := by
    rw [hT2', hb2', hDB1, hb1', hT0]
    cases world.DB.device_tokens.filter (Store.sameTriple t u p) with
    | nil => exact ⟨_, _, rfl, rfl, rfl⟩
    | cons a rest => exact ⟨_, _, rfl, rfl, rfl⟩
  obtain ⟨d, rest, hd, htok, hrest⟩ := hpos
  have hlen : (T2.filter (Store.sameTriple t u p)).length =
      max 1 (T0.filter (Store.sameTriple t u p)).length := by
    rw [hd, hrest]
    cases T0.filter (Store.sameTriple t u p) with
    | nil => rfl
    | cons a l => simp
  refine ⟨hneg, hlen, ⟨d, rest, hd, htok, hrest⟩, ?_, ?_⟩
  · intro hle
    refine ⟨d, ?_, htok⟩
    rw [hd, hrest]
    cases hT : T0.filter (Store.sameTriple t u p) with
    | nil => rfl
    | cons a l =>
      rw [hT] at hle
      cases l with
      | nil => rfl
      | cons b l' => simp at hle
  · intro hall t' u' p'
    by_cases hsame : t' = t ∧ u' = u ∧ p' = p
    · obtain ⟨rfl, rfl, rfl⟩ := hsame
      rw [hlen]
      have := hall t' u' p'
      omega
    · rw [filter_other_triple t u p t' u' p' T0 T2 hsame hneg]
      exact hall t' u' p'

theorem C14_register_upsert_witness :
    ∃ d, (RegisterHandler ResponseWriter.fresh (registerRequest "def")
          (RegisterHandler ResponseWriter.fresh (registerRequest "abc")
            (worldWithStore deviceStore)).2).2.DB.device_tokens.filter
          (Store.sameTriple "acme" "u1" "ios") = [d] ∧ d.DeviceToken = "def" :=
  (C14_register_upsert ResponseWriter.fresh ResponseWriter.fresh (registerRequest "abc")
    (registerRequest "def") (worldWithStore deviceStore) sampleTenant "acme" "u1" "ios"
    "abc" "def" _ _ rfl rfl rfl rfl rfl rfl (by decide) rfl rfl rfl rfl rfl).2.2.2.1
    (by decide)

/-- C14 as stated fails for a device table that already holds two rows of the triple:
after registering `(acme, u1, ios, abc)` and then `(acme, u1, ios, def)` the table still
holds two rows of that triple, not exactly one; the first holds `def`, the second its
old token. -/
theorem C14_counterexample_duplicate_rows :
    (RegisterHandler ResponseWriter.fresh (registerRequest "def")
        (RegisterHandler ResponseWriter.fresh (registerRequest "abc")
          (worldWithStore duplicateDeviceStore)).2).1.status = 200 ∧
      ((RegisterHandler ResponseWriter.fresh (registerRequest "def")
        (RegisterHandler ResponseWriter.fresh (registerRequest "abc")
          (worldWithStore duplicateDeviceStore)).2).2.DB.device_tokens.filter
        (Store.sameTriple "acme" "u1" "ios")).map (fun d => d.DeviceToken)
        = ["def", "old2"] := by
  decide

/-! ## Theorems: the key file -/

theorem DownloadFile_ok_creates (env : Env) (key localPath : String)
    (h : DownloadFile env key localPath = none) :
    downloadCreatesFile env key localPath = true := by
  unfold DownloadFile at h
  unfold downloadCreatesFile
  cases h1 : env.osMkdirAll (filepathDir localPath) with
  | some e => rw [h1] at h; cases h
  | none =>
    rw [h1] at h
    cases h2 : env.s3GetObject key with
    | error e => rw [h2] at h; cases h
    | ok body =>
      rw [h2] at h
      cases h3 : env.osCreate localPath with
      | some e => rw [h3] at h; cases h
      | none => rfl

/-- C18 fails on the code. On every path of `getOrCreateClient` that downloaded the key
file (no pool entry, configuration found, download succeeded): when the key does not
parse, the call returns the error and the local file still exists afterwards; only when
the key parses and the client is built is the file removed. -/
theorem C18_key_file_left_on_parse_failure (env : Env) (db : Store) (now : Time)
    (tenantID : String) (s : APNSService) (files : List String) (config : APNSConfig)
    (hmiss : s.clients.get? tenantID = none)
    (hcfg : db.firstActiveAPNSConfig tenantID = .ok config)
    (hdl : DownloadFile env ("apns/" ++ tenantID ++ ".p8") (APNSService.localPath tenantID)
      = none) :
    (∀ e, env.authKeyFromFile (APNSService.localPath tenantID) = .error e →
        (APNSService.getOrCreateClient env db now tenantID s).2
          = .error ("failed to load APNS auth key: " ++ e) ∧
        APNSService.localPath tenantID ∈
          APNSService.localFilesAfter env db now tenantID s files) ∧
      (∀ authKey, env.authKeyFromFile (APNSService.localPath tenantID) = .ok authKey →
        APNSService.localPath tenantID ∉
          APNSService.localFilesAfter env db now tenantID s files) := by
  have hcreate := DownloadFile_ok_creates env _ _ hdl
  constructor
  · intro e hparse
    have hres : APNSService.getOrCreateClient env db now tenantID s =
        ({ s with calls := s.calls ++ [Call.dbFirstAPNSConfig tenantID] ++
            [Call.s3DownloadFile ("apns/" ++ tenantID ++ ".p8")
              (APNSService.localPath tenantID)] ++
            [Call.authKeyFromFile (APNSService.localPath tenantID)] },
          .error ("failed to load APNS auth key: " ++ e)) := by
      unfold APNSService.getOrCreateClient
      rw [hmiss]
      simp only [hcfg, hdl, hparse]
    refine ⟨by rw [hres], ?_⟩
    unfold APNSService.localFilesAfter
    rw [hres]
    simp only [List.append_assoc, List.drop_left, List.foldl_cons, List.foldl_nil,
      List.singleton_append, List.nil_append, List.cons_append, List.foldl_append]
    have h1 : applyCallToFiles env files (Call.dbFirstAPNSConfig tenantID) = files := rfl
    have h2 : ∀ fs, applyCallToFiles env fs
        (Call.s3DownloadFile ("apns/" ++ tenantID ++ ".p8") (APNSService.localPath tenantID))
        = if fs.contains (APNSService.localPath tenantID) then fs
          else APNSService.localPath tenantID :: fs := by
      intro fs
      simp only [applyCallToFiles, hcreate, Bool.true_and]
      cases fs.contains (APNSService.localPath tenantID) <;> rfl
    have h3 : ∀ fs, applyCallToFiles env fs
        (Call.authKeyFromFile (APNSService.localPath tenantID)) = fs := fun _ => rfl
    rw [h1, h2, h3]
    by_cases hc : files.contains (APNSService.localPath tenantID) = true
    · rw [if_pos hc]
      simpa using hc
    · rw [if_neg hc]
      exact List.mem_cons_self _ _
  · intro authKey hparse
    have hcalls : (APNSService.getOrCreateClient env db now tenantID s).1.calls =
        s.calls ++ [Call.dbFirstAPNSConfig tenantID,
          Call.s3DownloadFile ("apns/" ++ tenantID ++ ".p8") (APNSService.localPath tenantID),
          Call.authKeyFromFile (APNSService.localPath tenantID),
          Call.newTokenClient config.KeyID config.TeamID,
          Call.osRemove (APNSService.localPath tenantID)] := by
      unfold APNSService.getOrCreateClient
      rw [hmiss]
      simp [hcfg, hdl, hparse]
    unfold APNSService.localFilesAfter
    rw [hcalls]
    simp only [List.drop_left, List.foldl_cons, List.foldl_nil]
    have h5 : ∀ fs, applyCallToFiles env fs (Call.osRemove (APNSService.localPath tenantID))
        = fs.filter (fun f => f != APNSService.localPath tenantID) := fun _ => rfl
    rw [h5]
    simp

theorem C18_key_file_left_on_parse_failure_witness :
    (APNSService.getOrCreateClient unparsableKeyEnv pushStore 5 "acme" NewAPNSService).2
        = .error "failed to load APNS auth key: invalid PEM" ∧
      APNSService.localFilesAfter unparsableKeyEnv pushStore 5 "acme" NewAPNSService []
        = ["/tmp/apns/acme.p8"] ∧
      APNSService.localFilesAfter sampleEnv pushStore 5 "acme" NewAPNSService [] = [] :=
  ⟨((C18_key_file_left_on_parse_failure unparsableKeyEnv pushStore 5 "acme"
      NewAPNSService [] sampleAPNSConfig (by decide) (by rfl) (by rfl)).1
      "invalid PEM" (by rfl)).1,
    by decide, by decide⟩

/-! ## Theorems: lock discipline -/

/-- The blocking I/O steps of `APNSService.SendPush` are, in order, the recorded calls
to the store, the blob store and the backend. -/
theorem APNSService.apns_steps_match_calls (env : Env) (db : Store) (now : Time)
    (tenantID deviceToken title body : String) (data : Option (GoMap DataValue)) (s : APNSService) :
    (APNSService.SendPushSteps env db tenantID s).filter Step.isBlockingIO =
      ((APNSService.SendPush env db now tenantID deviceToken title body data s).1.calls.drop
        s.calls.length).filterMap Call.toStep := by
  unfold APNSService.SendPushSteps APNSService.stepsThen APNSService.SendPush
    APNSService.getOrCreateClient
  cases s.clients.get? tenantID with
  | some c =>
    simp only
    cases env.apnsPush _ _ with
    | error e => simp [Step.isBlockingIO, Call.toStep]
    | ok res => cases hs : res.Sent <;> simp [hs, Step.isBlockingIO, Call.toStep]
  | none =>
    simp only
    cases db.firstActiveAPNSConfig tenantID with
    | error e => simp [Step.isBlockingIO, Call.toStep]
    | ok config =>
      simp only
      cases DownloadFile env ("apns/" ++ tenantID ++ ".p8")
          (APNSService.localPath tenantID) with
      | some e => simp [Step.isBlockingIO, Call.toStep]
      | none =>
        simp only
        cases env.authKeyFromFile (APNSService.localPath tenantID) with
        | error e => simp [Step.isBlockingIO, Call.toStep]
        | ok authKey =>
          simp only
          cases env.apnsPush _ _ with
          | error e => simp [Step.isBlockingIO, Call.toStep]
          | ok res => cases hs : res.Sent <;> simp [hs, Step.isBlockingIO, Call.toStep]

theorem APNSService.apns_no_io_under_lock (env : Env) (db : Store) (tenantID : String)
    (s : APNSService) (onSuccess : List Step) (h : ioUnderLock 0 onSuccess = false) :
    ioUnderLock 0 (APNSService.stepsThen env db tenantID s onSuccess) = false := by
  unfold APNSService.stepsThen
  cases s.clients.get? tenantID with
  | some c => simpa [ioUnderLock, Step.isBlockingIO] using h
  | none =>
    simp only
    cases db.firstActiveAPNSConfig tenantID with
    | error e => simp [ioUnderLock, Step.isBlockingIO]
    | ok config =>
      simp only
      cases DownloadFile env ("apns/" ++ tenantID ++ ".p8")
          (APNSService.localPath tenantID) with
      | some e => simp [ioUnderLock, Step.isBlockingIO]
      | none =>
        simp only
        cases env.authKeyFromFile (APNSService.localPath tenantID) with
        | error e => simp [ioUnderLock, Step.isBlockingIO]
        | ok authKey => simpa [ioUnderLock, Step.isBlockingIO] using h

theorem FCMService.fcm_no_io_under_lock (env : Env) (db : Store) (tenantID : String)
    (s : FCMService) (onSuccess : List Step) (h : ioUnderLock 0 onSuccess = false) :
    ioUnderLock 0 (FCMService.stepsThen env db tenantID s onSuccess) = false := by
  unfold FCMService.stepsThen
  cases s.clients.get? tenantID with
  | some c => simpa [ioUnderLock, Step.isBlockingIO] using h
  | none =>
    simp only
    cases db.firstActiveFCMConfig tenantID with
    | error e => simp [ioUnderLock, Step.isBlockingIO]
    | ok config =>
      simp only
      cases GetFileContent env ("fcm/" ++ tenantID ++ ".json") with
      | error e => simp [ioUnderLock, Step.isBlockingIO]
      | ok content =>
        simp only
        cases env.firebaseNewApp content with
        | error e => simp [ioUnderLock, Step.isBlockingIO]
        | ok app =>
          simp only
          cases env.appMessaging app with
          | error e => simp [ioUnderLock, Step.isBlockingIO]
          | ok mc => simpa [ioUnderLock, Step.isBlockingIO] using h

/-- C16 (amended). In the step sequences of `getOrCreateClient` and of `SendPush`, for
the APNS and for the FCM service, every store query, blob fetch and delivery call runs
at a point where no lock of the pool is held. In the step sequence of
`Cache.LoadAPIKeys` the store query runs while the exclusive lock of the cache is held:
the lock is taken on entry and released on return. -/
theorem C16_io_outside_pool_locks (env : Env) (db : Store) (tenantID : String)
    (s : APNSService) (f : FCMService) :
    ioUnderLock 0 (APNSService.getOrCreateClientSteps env db tenantID s) = false ∧
      ioUnderLock 0 (APNSService.SendPushSteps env db tenantID s) = false ∧
      ioUnderLock 0 (FCMService.getOrCreateClientSteps env db tenantID f) = false ∧
      ioUnderLock 0 (FCMService.SendPushSteps env db tenantID f) = false ∧
      ioUnderLock 0 (Cache.LoadAPIKeysSteps db) = true := by
  refine ⟨APNSService.apns_no_io_under_lock env db tenantID s [] rfl,
    APNSService.apns_no_io_under_lock env db tenantID s _ rfl,
    FCMService.fcm_no_io_under_lock env db tenantID f [] rfl,
    FCMService.fcm_no_io_under_lock env db tenantID f _ rfl, ?_⟩
  unfold Cache.LoadAPIKeysSteps
  simp [ioUnderLock, Step.isBlockingIO]

/-- C16 as stated fails for `Cache.LoadAPIKeys`: its store query is the second step,
right after `c.mu.Lock()`, and the lock is released only by the deferred `Unlock`. -/
theorem C16_counterexample_reload_queries_under_lock :
    Cache.LoadAPIKeysSteps sampleStore =
        [Step.lock, Step.storeQuery, Step.compute, Step.compute, Step.compute,
          Step.unlock] ∧
      ioUnderLock 0 (Cache.LoadAPIKeysSteps sampleStore) = true := by
  decide

/-! ## Lemmas: reload against a concurrent reader -/

theorem LoadAPIKeys_of_error (hash : String → String) (db : Store) (now1 now2 : Time)
    (c : Cache) (err : String) (h : db.findEnabledAPIKeys = .error err) :
    Cache.LoadAPIKeys hash db now1 now2 c = (c, some ("failed to load API keys: " ++ err)) := by
  unfold Cache.LoadAPIKeys
  rw [h]

theorem LoadAPIKeys_of_ok (hash : String → String) (db : Store) (now1 now2 : Time)
    (c : Cache) (apiKeys : List APIKey) (h : db.findEnabledAPIKeys = .ok apiKeys) :
    Cache.LoadAPIKeys hash db now1 now2 c =
      (apiKeys.foldl (Cache.loadOne hash (hourBucket now1) (hourBucket (now2 + Hour)))
        { tenants := GoMap.make String, digests := GoMap.make String }, none) := by
  unfold Cache.LoadAPIKeys
  rw [h]

theorem findEnabledAPIKeys_ok_failure (db : Store) (apiKeys : List APIKey)
    (h : db.findEnabledAPIKeys = .ok apiKeys) : db.failure = none := by
  unfold Store.findEnabledAPIKeys at h
  cases hf : db.failure with
  | none => rfl
  | some e => rw [hf] at h; cases h

theorem findEnabledAPIKeys_ok_eq (db : Store) (apiKeys : List APIKey)
    (h : db.findEnabledAPIKeys = .ok apiKeys) : apiKeys = db.enabledKeys := by
  unfold Store.findEnabledAPIKeys at h
  cases hf : db.failure with
  | none => rw [hf] at h; simp only [Except.ok.injEq] at h; exact h.symm
  | some e => rw [hf] at h; cases h

theorem loaderStep_inv (hash : String → String) (db : Store) (now1 now2 : Time) (c : Cache)
    (digest : String) (σ σ' : Shared)
    (hL : LoaderInv hash db now1 now2 c σ) (hR : ReaderInv hash db now1 now2 c digest σ)
    (hstep : loaderStep hash db now1 now2 σ = some σ') :
    LoaderInv hash db now1 now2 c σ' ∧ ReaderInv hash db now1 now2 c digest σ' := by
  obtain ⟨cache, writer, readers, loader, reader⟩ := σ
  cases loader with
  | start =>
    simp only [loaderStep] at hstep
    split at hstep
    · rename_i hg
      simp only [Option.some.injEq] at hstep
      subst hstep
      dsimp only [LoaderInv] at hL ⊢
      refine ⟨⟨rfl, hL.2⟩, ?_⟩
      cases reader with
      | start => simpa [ReaderInv] using hR
      | locked => dsimp only [ReaderInv] at hR; omega
      | holding r => dsimp only [ReaderInv] at hR; omega
      | done r => simpa [ReaderInv] using hR
    · cases hstep
  | locked =>
    simp only [loaderStep] at hstep
    dsimp only [LoaderInv] at hL
    cases hq : db.findEnabledAPIKeys with
    | error err =>
      rw [hq] at hstep
      simp only [Option.some.injEq] at hstep
      subst hstep
      refine ⟨?_, ?_⟩
      · rw [LoaderInv, LoadAPIKeys_of_error hash db now1 now2 c err hq]
        exact ⟨hL.1, hL.2, rfl⟩
      · cases reader <;> simpa [ReaderInv] using hR
    | ok apiKeys =>
      rw [hq] at hstep
      simp only [Option.some.injEq] at hstep
      subst hstep
      refine ⟨?_, ?_⟩
      · dsimp only [LoaderInv]
        exact ⟨hL.1, hq⟩
      · cases reader <;> simpa [ReaderInv] using hR
  | queried apiKeys =>
    simp only [loaderStep, Option.some.injEq] at hstep
    subst hstep
    dsimp only [LoaderInv] at hL
    refine ⟨?_, ?_⟩
    · rw [LoaderInv, LoadAPIKeys_of_ok hash db now1 now2 c apiKeys hL.2]
      exact ⟨hL.1, findEnabledAPIKeys_ok_failure db apiKeys hL.2, rfl,
        by rw [findEnabledAPIKeys_ok_eq db apiKeys hL.2]⟩
    · cases reader <;> simpa [ReaderInv] using hR
  | looping rest =>
    dsimp only [LoaderInv] at hL
    cases rest with
    | nil =>
      simp only [loaderStep, Option.some.injEq] at hstep
      subst hstep
      refine ⟨?_, ?_⟩
      · dsimp only [LoaderInv]
        refine ⟨hL.1, hL.2.2.1, ?_⟩
        exact ((Cache.LoadAPIKeys_ok_iff hash db now1 now2 c).2 hL.2.1).symm
      · cases reader <;> simpa [ReaderInv] using hR
    | cons key rest =>
      simp only [loaderStep, Option.some.injEq] at hstep
      subst hstep
      refine ⟨?_, ?_⟩
      · dsimp only [LoaderInv]
        exact ⟨hL.1, hL.2.1, hL.2.2.1, Nat.le_of_succ_le hL.2.2.2⟩
      · cases reader <;> simpa [ReaderInv] using hR
  | returning err =>
    simp only [loaderStep, Option.some.injEq] at hstep
    subst hstep
    dsimp only [LoaderInv] at hL
    refine ⟨?_, ?_⟩
    · dsimp only [LoaderInv]
      exact ⟨rfl, hL.2.1, hL.2.2⟩
    · cases reader with
      | start => simpa [ReaderInv] using hR
      | locked => dsimp only [ReaderInv] at hR ⊢; exact ⟨hR.1, rfl⟩
      | holding r => dsimp only [ReaderInv] at hR ⊢; exact ⟨hR.1, rfl, hR.2.2⟩
      | done r => simpa [ReaderInv] using hR
  | done err => simp [loaderStep] at hstep

theorem readerStep_inv (hash : String → String) (db : Store) (now1 now2 : Time) (c : Cache)
    (digest : String) (σ σ' : Shared)
    (hL : LoaderInv hash db now1 now2 c σ) (hR : ReaderInv hash db now1 now2 c digest σ)
    (hstep : readerStep digest σ = some σ') :
    LoaderInv hash db now1 now2 c σ' ∧ ReaderInv hash db now1 now2 c digest σ' := by
  obtain ⟨cache, writer, readers, loader, reader⟩ := σ
  cases reader with
  | start =>
    simp only [readerStep] at hstep
    split at hstep
    · rename_i hg
      simp only [Option.some.injEq] at hstep
      subst hstep
      dsimp only [ReaderInv] at hR ⊢
      refine ⟨?_, by omega, hg⟩
      cases loader <;> simpa [LoaderInv] using hL
    · cases hstep
  | locked =>
    simp only [readerStep, Option.some.injEq] at hstep
    subst hstep
    dsimp only [ReaderInv] at hR ⊢
    refine ⟨?_, hR.1, hR.2, ?_⟩
    · cases loader <;> simpa [LoaderInv] using hL
    · have hw : writer = false := hR.2
      cases loader with
      | start => dsimp only [LoaderInv] at hL; exact Or.inl (by rw [hL.2])
      | locked => dsimp only [LoaderInv] at hL; rw [hw] at hL; exact absurd hL.1 (by simp)
      | queried k => dsimp only [LoaderInv] at hL; rw [hw] at hL; exact absurd hL.1 (by simp)
      | looping k => dsimp only [LoaderInv] at hL; rw [hw] at hL; exact absurd hL.1 (by simp)
      | returning e => dsimp only [LoaderInv] at hL; rw [hw] at hL; exact absurd hL.1 (by simp)
      | done e => dsimp only [LoaderInv] at hL; exact Or.inr (by rw [hL.2.1])
  | holding result =>
    simp only [readerStep, Option.some.injEq] at hstep
    subst hstep
    dsimp only [ReaderInv] at hR ⊢
    refine ⟨?_, by omega, hR.2.2⟩
    cases loader <;> simpa [LoaderInv] using hL
  | done result => simp [readerStep] at hstep

theorem runSchedule_inv (hash : String → String) (db : Store) (now1 now2 : Time)
    (c : Cache) (digest : String) (schedule : List Thread) :
    ∀ σ, LoaderInv hash db now1 now2 c σ → ReaderInv hash db now1 now2 c digest σ →
      LoaderInv hash db now1 now2 c (runSchedule hash db now1 now2 digest schedule σ) ∧
        ReaderInv hash db now1 now2 c digest
          (runSchedule hash db now1 now2 digest schedule σ) := by
  induction schedule with
  | nil => intro σ hL hR; exact ⟨hL, hR⟩
  | cons th rest ih =>
    intro σ hL hR
    unfold runSchedule
    rw [List.foldl_cons]
    cases th with
    | loader =>
      cases hs : loaderStep hash db now1 now2 σ with
      | none => simpa [hs] using ih σ hL hR
      | some σ' =>
        obtain ⟨hL', hR'⟩ := loaderStep_inv hash db now1 now2 c digest σ σ' hL hR hs
        simpa [hs] using ih σ' hL' hR'
    | reader =>
      cases hs : readerStep digest σ with
      | none => simpa [hs] using ih σ hL hR
      | some σ' =>
        obtain ⟨hL', hR'⟩ := readerStep_inv hash db now1 now2 c digest σ σ' hL hR hs
        simpa [hs] using ih σ' hL' hR'

theorem runSchedule_append (hash : String → String) (db : Store) (now1 now2 : Time)
    (digest : String) (s1 s2 : List Thread) (σ : Shared) :
    runSchedule hash db now1 now2 digest (s1 ++ s2) σ =
      runSchedule hash db now1 now2 digest s2
        (runSchedule hash db now1 now2 digest s1 σ) := by
  unfold runSchedule
  rw [List.foldl_append]

/-- While the reader is idle, a loader that has not returned can move, and the move
brings it closer to returning. -/
theorem loaderStep_progress (hash : String → String) (db : Store) (now1 now2 : Time)
    (c : Cache) (digest : String) (σ : Shared)
    (hL : LoaderInv hash db now1 now2 c σ) (hR : ReaderInv hash db now1 now2 c digest σ)
    (hidle : σ.reader.idle = true) (hnd : σ.loader.isDone = false) :
    ∃ σ', loaderStep hash db now1 now2 σ = some σ' ∧ σ'.reader = σ.reader ∧
      loaderFuel db σ'.loader + 1 ≤ loaderFuel db σ.loader := by
  obtain ⟨cache, writer, readers, loader, reader⟩ := σ
  have hr0 : readers = 0 := by
    cases reader with
    | start => simpa [ReaderInv] using hR
    | locked => simp [ReaderPC.idle] at hidle
    | holding r => simp [ReaderPC.idle] at hidle
    | done r => dsimp only [ReaderInv] at hR; exact hR.1
  cases loader with
  | start =>
    dsimp only [LoaderInv] at hL
    have hw : writer = false := hL.1
    refine ⟨Shared.mk cache true readers .locked reader,
      by simp [loaderStep, hw, hr0], rfl, ?_⟩
    simp [loaderFuel]
  | locked =>
    cases hq : db.findEnabledAPIKeys with
    | error err =>
      refine ⟨Shared.mk cache writer readers
        (.returning (some ("failed to load API keys: " ++ err))) reader,
        by simp [loaderStep, hq], rfl, ?_⟩
      simp [loaderFuel]
    | ok apiKeys =>
      refine ⟨Shared.mk cache writer readers (.queried apiKeys) reader,
        by simp [loaderStep, hq], rfl, ?_⟩
      simp [loaderFuel, findEnabledAPIKeys_ok_eq db apiKeys hq]
  | queried apiKeys =>
    refine ⟨Shared.mk (Cache.mk (GoMap.make String) (GoMap.make String)) writer readers
      (.looping apiKeys) reader, by simp [loaderStep], rfl, ?_⟩
    simp [loaderFuel]
  | looping rest =>
    cases rest with
    | nil =>
      refine ⟨Shared.mk cache writer readers (.returning none) reader,
        by simp [loaderStep], rfl, ?_⟩
      simp [loaderFuel]
    | cons key rest =>
      refine ⟨Shared.mk
        (Cache.loadOne hash (hourBucket now1) (hourBucket (now2 + Hour)) cache key)
        writer readers (.looping rest) reader, by simp [loaderStep], rfl, ?_⟩
      simp [loaderFuel]
  | returning err =>
    refine ⟨Shared.mk cache false readers (.done err) reader,
      by simp [loaderStep], rfl, ?_⟩
    simp [loaderFuel]
  | done err => simp [LoaderPC.isDone] at hnd

/-- With the reader idle, enough turns make the loader return; the reader stays idle. -/
theorem loader_turns_finish (hash : String → String) (db : Store) (now1 now2 : Time)
    (c : Cache) (digest : String) :
    ∀ (k : Nat) (σ : Shared), LoaderInv hash db now1 now2 c σ →
      ReaderInv hash db now1 now2 c digest σ → σ.reader.idle = true →
      loaderFuel db σ.loader ≤ k →
      (runSchedule hash db now1 now2 digest (List.replicate k Thread.loader) σ).loader.isDone
          = true ∧
        (runSchedule hash db now1 now2 digest (List.replicate k Thread.loader) σ).reader
          = σ.reader := by
  intro k
  induction k with
  | zero =>
    intro σ _ _ _ hfuel
    refine ⟨?_, rfl⟩
    show σ.loader.isDone = true
    cases hl : σ.loader <;> simp [hl, loaderFuel] at hfuel
    rfl
  | succ k ih =>
    intro σ hL hR hidle hfuel
    cases hd : σ.loader.isDone with
    | true =>
      have hnone : loaderStep hash db now1 now2 σ = none := by
        cases hl : σ.loader <;> simp [hl, LoaderPC.isDone] at hd
        simp [loaderStep, hl]
      have hstay : runSchedule hash db now1 now2 digest
          (List.replicate (k + 1) Thread.loader) σ =
          runSchedule hash db now1 now2 digest (List.replicate k Thread.loader) σ := by
        simp [runSchedule, List.replicate_succ, hnone]
      rw [hstay]
      have hf0 : loaderFuel db σ.loader ≤ k := by
        cases hl : σ.loader <;> simp [hl, LoaderPC.isDone] at hd
        simp [loaderFuel]
      exact ih σ hL hR hidle hf0
    | false =>
      obtain ⟨σ', hs, hrd, hfuel'⟩ :=
        loaderStep_progress hash db now1 now2 c digest σ hL hR hidle hd
      obtain ⟨hL', hR'⟩ := loaderStep_inv hash db now1 now2 c digest σ σ' hL hR hs
      have hgo : runSchedule hash db now1 now2 digest
          (List.replicate (k + 1) Thread.loader) σ =
          runSchedule hash db now1 now2 digest (List.replicate k Thread.loader) σ' := by
        simp [runSchedule, List.replicate_succ, hs]
      rw [hgo, ← hrd]
      exact ih σ' hL' hR' (by rw [hrd]; exact hidle) (by omega)

/-- Three turns bring the reader to its return, unless its lock request is blocked by
the loader holding the exclusive lock. -/
theorem reader_turns (hash : String → String) (db : Store) (now1 now2 : Time)
    (digest : String) (σ : Shared) :
    ((runSchedule hash db now1 now2 digest [.reader, .reader, .reader] σ).reader.isDone
        = true ∨
      ((runSchedule hash db now1 now2 digest [.reader, .reader, .reader] σ) = σ ∧
        σ.reader = .start ∧ σ.writer = true)) := by
  obtain ⟨cache, writer, readers, loader, reader⟩ := σ
  cases reader with
  | start =>
    cases writer with
    | false => left; simp [runSchedule, readerStep, ReaderPC.isDone]
    | true => right; simp [runSchedule, readerStep]
  | locked => left; simp [runSchedule, readerStep, ReaderPC.isDone]
  | holding r => left; simp [runSchedule, readerStep, ReaderPC.isDone]
  | done r => left; simp [runSchedule, readerStep, ReaderPC.isDone]

theorem init_inv (hash : String → String) (db : Store) (now1 now2 : Time) (c : Cache)
    (digest : String) :
    LoaderInv hash db now1 now2 c (Shared.init c) ∧
      ReaderInv hash db now1 now2 c digest (Shared.init c) :=
  ⟨⟨rfl, rfl⟩, rfl⟩

theorem loaderFuel_le (hash : String → String) (db : Store) (now1 now2 : Time) (c : Cache)
    (σ : Shared) (hL : LoaderInv hash db now1 now2 c σ) :
    loaderFuel db σ.loader ≤ db.enabledKeys.length + 5 := by
  obtain ⟨cache, writer, readers, loader, reader⟩ := σ
  cases loader with
  | start => simp [loaderFuel]
  | locked => simp [loaderFuel]
  | queried apiKeys =>
    dsimp only [LoaderInv] at hL
    simp [loaderFuel, findEnabledAPIKeys_ok_eq db apiKeys hL.2]
  | looping rest =>
    dsimp only [LoaderInv] at hL
    have := hL.2.2.2
    simp only [loaderFuel]
    omega
  | returning err => simp [loaderFuel]
  | done err => simp [loaderFuel]

theorem ReaderPC.isDone_iff (r : ReaderPC) : r.isDone = true ↔ ∃ result, r = .done result := by
  cases r <;> simp [ReaderPC.isDone]

/-- From every reachable state, three reader turns, enough loader turns and three more
reader turns make the reader return. -/
theorem reader_returns (hash : String → String) (db : Store) (now1 now2 : Time) (c : Cache)
    (digest : String) (σ : Shared) (hL : LoaderInv hash db now1 now2 c σ)
    (hR : ReaderInv hash db now1 now2 c digest σ) :
    (runSchedule hash db now1 now2 digest
      ([.reader, .reader, .reader] ++
        List.replicate (db.enabledKeys.length + 5) Thread.loader ++
        [.reader, .reader, .reader]) σ).reader.isDone = true := by
  rw [runSchedule_append, runSchedule_append]
  obtain ⟨hL1, hR1⟩ := runSchedule_inv hash db now1 now2 c digest
    [.reader, .reader, .reader] σ hL hR
  have hidle1 : (runSchedule hash db now1 now2 digest [.reader, .reader, .reader]
      σ).reader.idle = true := by
    rcases reader_turns hash db now1 now2 digest σ with h | ⟨heq, hst, _⟩
    · obtain ⟨r, hr⟩ := (ReaderPC.isDone_iff _).1 h
      rw [hr]; rfl
    · rw [heq, hst]; rfl
  obtain ⟨hdone2, hreader2⟩ := loader_turns_finish hash db now1 now2 c digest
    (db.enabledKeys.length + 5) _ hL1 hR1 hidle1 (loaderFuel_le hash db now1 now2 c _ hL1)
  obtain ⟨hL2, hR2⟩ := runSchedule_inv hash db now1 now2 c digest
    (List.replicate (db.enabledKeys.length + 5) Thread.loader) _ hL1 hR1
  rcases reader_turns hash db now1 now2 digest
    (runSchedule hash db now1 now2 digest
      (List.replicate (db.enabledKeys.length + 5) Thread.loader)
      (runSchedule hash db now1 now2 digest [.reader, .reader, .reader] σ)) with
    h | ⟨_, _, hw⟩
  · exact h
  · exfalso
    generalize runSchedule hash db now1 now2 digest
      (List.replicate (db.enabledKeys.length + 5) Thread.loader)
      (runSchedule hash db now1 now2 digest [.reader, .reader, .reader] σ) = τ at *
    obtain ⟨cache, writer, readers, loader, reader⟩ := τ
    cases loader <;> simp [LoaderPC.isDone] at hdone2
    dsimp only [LoaderInv] at hL2
    simp only at hw
    rw [hL2.1] at hw
    cases hw

/-! ## Theorems: reload against a concurrent reader -/

/-- C17. Whatever the interleaving of the steps of `LoadAPIKeys` with those of a
concurrent `GetTenantIDByDigest`, under the exclusion the `RWMutex` enforces: a returned
lookup result is the answer of the digest index as it was before the reload or as the
completed reload leaves it; when the loader has returned, the cache and the error are
those of `LoadAPIKeys` run alone; and from every point of the execution the reader does
return, given three turns, then enough turns of the loader, then three more turns. -/
theorem C17_reload_atomic_for_readers (hash : String → String) (db : Store)
    (now1 now2 : Time) (c : Cache) (digest : String) (schedule : List Thread) :
    (∀ result,
        (runSchedule hash db now1 now2 digest schedule (Shared.init c)).reader
          = .done result →
        result = c.GetTenantIDByDigest digest ∨
          result = (Cache.LoadAPIKeys hash db now1 now2 c).1.GetTenantIDByDigest digest) ∧
      (∀ err,
        (runSchedule hash db now1 now2 digest schedule (Shared.init c)).loader = .done err →
        (runSchedule hash db now1 now2 digest schedule (Shared.init c)).cache =
            (Cache.LoadAPIKeys hash db now1 now2 c).1 ∧
          err = (Cache.LoadAPIKeys hash db now1 now2 c).2) ∧
      (∃ result,
        (runSchedule hash db now1 now2 digest
          (schedule ++ ([.reader, .reader, .reader] ++
            List.replicate (db.enabledKeys.length + 5) Thread.loader ++
            [.reader, .reader, .reader])) (Shared.init c)).reader = .done result) := by
  obtain ⟨hL0, hR0⟩ := init_inv hash db now1 now2 c digest
  obtain ⟨hL, hR⟩ := runSchedule_inv hash db now1 now2 c digest schedule _ hL0 hR0
  refine ⟨?_, ?_, ?_⟩
  · intro result hdone
    generalize runSchedule hash db now1 now2 digest schedule (Shared.init c) = τ at *
    obtain ⟨cache, writer, readers, loader, reader⟩ := τ
    simp only at hdone
    subst hdone
    dsimp only [ReaderInv] at hR
    exact hR.2
  · intro err hdone
    generalize runSchedule hash db now1 now2 digest schedule (Shared.init c) = τ at *
    obtain ⟨cache, writer, readers, loader, reader⟩ := τ
    simp only at hdone
    subst hdone
    dsimp only [LoaderInv] at hL
    exact ⟨hL.2.1, hL.2.2⟩
  · rw [runSchedule_append]
    exact (ReaderPC.isDone_iff _).1 (reader_returns hash db now1 now2 c digest _ hL hR)

theorem C17_reload_atomic_for_readers_witness :
    (runSchedule sampleHash sampleStore 0 0 "k11970-01-01-00" sampleSchedule
        (Shared.init NewCache)).reader = .done "acme" ∧
      ("acme" = NewCache.GetTenantIDByDigest "k11970-01-01-00" ∨
        "acme" = (Cache.LoadAPIKeys sampleHash sampleStore 0 0
          NewCache).1.GetTenantIDByDigest "k11970-01-01-00") :=
  ⟨by decide,
    (C17_reload_atomic_for_readers sampleHash sampleStore 0 0 NewCache "k11970-01-01-00"
      sampleSchedule).1 "acme" (by decide)⟩

/-! ## Theorems: the APNS payload as JSON -/

/-- C20 fails on the code. The payload is built by inserting title and body between
quotes without escaping. For the title `hi` it decodes to the given title and body and
the sound `default`; for a title containing a double quote, a line feed or a trailing
backslash it is not well-formed JSON; for the title made of `C:`, a backslash and `temp`
it decodes to a different title (a tab in place of the backslash and the `t`); and a
title that closes its own quote decodes to `x`. -/
theorem C20_payload_not_escaped :
    decodePayload (APNSService.payload "hi" "there") = some ("hi", "there", "default") ∧
      decodePayload (APNSService.payload "say \"hi\"" "there") = none ∧
      decodePayload (APNSService.payload "line1\nline2" "there") = none ∧
      decodePayload (APNSService.payload "a\\" "there") = none ∧
      decodePayload (APNSService.payload "C:\\temp" "there")
        = some ("C:\temp", "there", "default") ∧
      "C:\temp" ≠ "C:\\temp" ∧
      decodePayload (APNSService.payload "x\", \"body\": \"evil" "there")
        = some ("x", "there", "default") := by
  decide

/-! ## Lemmas: date bucket against hour bucket -/

theorem civilFromDays_range (days : Int) :
    1 ≤ (civilFromDays days).2.1 ∧ (civilFromDays days).2.1 ≤ 12 ∧
      1 ≤ (civilFromDays days).2.2 ∧ (civilFromDays days).2.2 ≤ 31 := by
  unfold civilFromDays
  simp only
  split <;> omega

theorem appendInt_two_digits :
    ∀ x : Fin 32, (appendInt (x.val : Int) 2).data.length = 2 := by
  decide

theorem appendInt_two_of_range (x : Int) (h0 : 0 ≤ x) (h1 : x < 32) :
    ∃ a b, (appendInt x 2).data = [a, b] := by
  have := appendInt_two_digits ⟨x.toNat, by omega⟩
  have hx : ((x.toNat : Nat) : Int) = x := by omega
  simp only [hx] at this
  exact List.length_eq_two.1 this

theorem digitChar_ne_dash (d : Nat) (h : d < 10) : Nat.digitChar d ≠ '-' := by
  interval_cases d <;> decide

theorem toDigitsCore_no_dash :
    ∀ (fuel n : Nat) (acc : List Char), (∀ c ∈ acc, c ≠ '-') →
      ∀ c ∈ Nat.toDigitsCore 10 fuel n acc, c ≠ '-' := by
  intro fuel
  induction fuel with
  | zero => intro n acc hacc c hc; exact hacc c (by simpa [Nat.toDigitsCore] using hc)
  | succ fuel ih =>
    intro n acc hacc c hc
    have hd : Nat.digitChar (n % 10) ≠ '-' := digitChar_ne_dash _ (Nat.mod_lt _ (by decide))
    have hacc' : ∀ c ∈ Nat.digitChar (n % 10) :: acc, c ≠ '-' := by
      intro c hc
      rcases List.mem_cons.1 hc with rfl | hc
      · exact hd
      · exact hacc c hc
    simp only [Nat.toDigitsCore] at hc
    split at hc
    · exact hacc' c hc
    · exact ih _ _ hacc' c hc

/-- The year field ends in three characters of which the first is not a dash. -/
theorem appendInt_year_suffix (y : Int) :
    ∃ front y1 y2 y3, (appendInt y 4).data = front ++ [y1, y2, y3] ∧ y1 ≠ '-' := by
  have hds : ∀ c ∈ digits y.natAbs, c ≠ '-' := by
    intro c hc
    exact toDigitsCore_no_dash _ _ [] (by simp) c hc
  have key : ∀ padded : List Char, (∀ c ∈ padded, c ≠ '-') → 4 ≤ padded.length →
      ∀ l : List Char, (l = padded ∨ l = '-' :: padded) →
      ∃ front y1 y2 y3, l = front ++ [y1, y2, y3] ∧ y1 ≠ '-' := by
    intro padded hp hlen l hl
    have hsplit := List.take_append_drop (padded.length - 3) padded
    have hdl : (padded.drop (padded.length - 3)).length = 3 := by
      rw [List.length_drop]; omega
    obtain ⟨y1, y2, y3, h3⟩ := List.length_eq_three.1 hdl
    have hy1 : y1 ∈ padded := by
      have : y1 ∈ padded.drop (padded.length - 3) := by rw [h3]; simp
      exact List.mem_of_mem_drop this
    rcases hl with rfl | rfl
    · exact ⟨_, y1, y2, y3, by rw [← h3, hsplit], hp y1 hy1⟩
    · exact ⟨'-' :: padded.take (padded.length - 3), y1, y2, y3,
        by rw [List.cons_append, ← h3, hsplit], hp y1 hy1⟩
  have hpad : ∀ c ∈ List.replicate (4 - (digits y.natAbs).length) '0' ++ digits y.natAbs,
      c ≠ '-' := by
    intro c hc
    rcases List.mem_append.1 hc with h | h
    · rw [List.eq_of_mem_replicate h]; decide
    · exact hds c h
  have hlen : 4 ≤ (List.replicate (4 - (digits y.natAbs).length) '0'
      ++ digits y.natAbs).length := by
    rw [List.length_append, List.length_replicate]; omega
  apply key _ hpad hlen
  unfold appendInt
  simp only
  split
  · exact Or.inr rfl
  · exact Or.inl rfl

/-- A string ending in a date bucket never equals a string ending in an hour bucket:
nine characters from the end the former has a digit of the year, the latter a dash. -/
theorem append_dateBucket_ne_hourBucket (k k' : String) (t t' : Time) :
    k ++ dateBucket t ≠ k' ++ hourBucket t' := by
  intro h
  obtain ⟨hm1, hm2, hd1, hd2⟩ := civilFromDays_range (unixDays t)
  obtain ⟨hm1', hm2', hd1', hd2'⟩ := civilFromDays_range (unixDays t')
  obtain ⟨hh0, hh1⟩ := hourOfDay_range t'
  obtain ⟨ma, mb, hM⟩ := appendInt_two_of_range _ (by omega) (by omega : (civilFromDays (unixDays t)).2.1 < 32)
  obtain ⟨da, db, hD⟩ := appendInt_two_of_range _ (by omega) (by omega : (civilFromDays (unixDays t)).2.2 < 32)
  obtain ⟨ma', mb', hM'⟩ := appendInt_two_of_range _ (by omega) (by omega : (civilFromDays (unixDays t')).2.1 < 32)
  obtain ⟨da', db', hD'⟩ := appendInt_two_of_range _ (by omega) (by omega : (civilFromDays (unixDays t')).2.2 < 32)
  obtain ⟨ha', hb', hH'⟩ := appendInt_two_of_range (hourOfDay t') hh0 (by omega)
  obtain ⟨front, y1, y2, y3, hY, hy1⟩ := appendInt_year_suffix (civilFromDays (unixDays t)).1
  have hd := congrArg String.data h
  simp only [dateBucket, hourBucket, dateFields, String.data_append, hM, hD, hM', hD', hH',
    hY] at hd
  have e1 : k.data ++ (front ++ [y1, y2, y3] ++ "-".data ++ [ma, mb] ++ "-".data ++ [da, db])
      = (k.data ++ front) ++ [y1, y2, y3, '-', ma, mb, '-', da, db] := by
    simp [List.append_assoc]
  have e2 : k'.data ++ ((appendInt (civilFromDays (unixDays t')).1 4).data ++ "-".data ++
        [ma', mb'] ++ "-".data ++ [da', db'] ++ "-".data ++ [ha', hb'])
      = (k'.data ++ (appendInt (civilFromDays (unixDays t')).1 4).data) ++
        ['-', ma', mb', '-', da', db', '-', ha', hb'] := by
    simp [List.append_assoc]
  rw [e1, e2] at hd
  have := (List.append_inj' hd rfl).2
  simp only [List.cons.injEq] at this
  exact hy1 this.1

/-! ## Theorems: the printed digest format -/

/-- C15 fails on the code. After a successful `LoadAPIKeys`, for every key `k` and every
instant `t`, a request whose header is `Digest ` followed by the hash of `k` with the
date `YYYY-MM-DD` of `t` is answered 401 by `AuthMiddleware`, the hash having no
collision among that string and the strings the reload hashed: the index holds digests
of hour buckets `YYYY-MM-DD-HH` only. -/
theorem C15_date_digest_rejected (hash : String → String) (db : Store) (now1 now2 t : Time)
    (c : Cache) (k : String) (next : HandlerFunc) (w : ResponseWriter) (r : Request)
    (world : World)
    (hok : (Cache.LoadAPIKeys hash db now1 now2 c).2 = none)
    (hfree : CollisionFreeOn hash ((k ++ dateBucket t) ::
      digestInputs db.enabledKeys (hourBucket now1) (hourBucket (now2 + Hour))))
    (hcache : world.APICache = (Cache.LoadAPIKeys hash db now1 now2 c).1)
    (hheader : r.HeaderGet "Authorization" = "Digest " ++ hash (k ++ dateBucket t)) :
    AuthMiddleware next w r world =
      (httpError w "Unauthorized: invalid or expired API key" StatusUnauthorized, world) := by
  apply AuthMiddleware_unknown next w r world _ hheader
  rw [hcache]
  have hdb := (Cache.LoadAPIKeys_ok_iff hash db now1 now2 c).1 hok
  rw [Cache.LoadAPIKeys_ok hash db now1 now2 c hdb]
  have hnot : hash (k ++ dateBucket t) ∉
      (db.enabledKeys.foldl
        (Cache.loadOne hash (hourBucket now1) (hourBucket (now2 + Hour))) NewCache).digests := by
    intro hmem
    rcases (Cache.foldl_digests_mem hash _ _ _ NewCache _).1 hmem with h0 | ⟨r', hr', hd⟩
    · simp [NewCache, GoMap.make] at h0
    · rcases hd with hd | hd
      · have := hfree _ (List.mem_cons_self _ _) _
          (List.mem_cons_of_mem _ (Cache.mem_digestInputs_cur hr')) hd
        exact append_dateBucket_ne_hourBucket _ _ _ _ this
      · have := hfree _ (List.mem_cons_self _ _) _
          (List.mem_cons_of_mem _ (Cache.mem_digestInputs_next hr')) hd
        exact append_dateBucket_ne_hourBucket _ _ _ _ this
  simp only [Cache.GetTenantIDByDigest, (GoMap.get?_eq_none _ _).2 hnot, Option.getD_none]

theorem C15_date_digest_rejected_witness :
    dateBucket sampleInstant = "2025-11-04" ∧
      hourBucket sampleInstant = "2025-11-04-09" ∧
      AuthMiddleware echoHandler ResponseWriter.fresh
        (requestWithAuth ("Digest " ++ sampleHash ("k1" ++ dateBucket sampleInstant)))
        (worldWithCache (Cache.LoadAPIKeys sampleHash sampleStore sampleInstant
          sampleInstant NewCache).1) =
        (httpError ResponseWriter.fresh "Unauthorized: invalid or expired API key"
          StatusUnauthorized,
          worldWithCache (Cache.LoadAPIKeys sampleHash sampleStore sampleInstant
            sampleInstant NewCache).1) ∧
      (AuthMiddleware echoHandler ResponseWriter.fresh
        (requestWithAuth ("Digest " ++ sampleHash ("k1" ++ hourBucket sampleInstant)))
        (worldWithCache (Cache.LoadAPIKeys sampleHash sampleStore sampleInstant
          sampleInstant NewCache).1)).1
        = writeSuccess ResponseWriter.fresh "ok" "acme" :=
  ⟨by decide, by decide,
    C15_date_digest_rejected sampleHash sampleStore sampleInstant sampleInstant
      sampleInstant NewCache "k1" echoHandler ResponseWriter.fresh _ _ (by decide)
      (CollisionFreeOn_sampleHash _) rfl (by decide),
    by decide⟩

/-! ## Theorems: a pool hit refreshes the entry -/

theorem ttl_refreshed_live (t t' : Int) (h : t' ≤ t + Hour) : ¬ t < t' - Hour := by omega

/-- C21. When `getOrCreateClient` called at time `t` finds an entry for the tenant, the
pool afterwards holds that entry with `LastUsed` set to `t` and its other fields as
they were, every other tenant's entry is untouched, the set of keys is the same, no
external call is made and the refreshed entry is what the call returns; a
`CleanupOldClients` run at any time `t'` with `t ≤ t' ≤ t + 1h` retains the refreshed
entry. Stated for the APNS and for the FCM pool. -/
theorem C21_hit_refreshes_lifetime (env : Env) (db : Store) (t t' : Time)
    (tenantID : String) (s : APNSService) (f : FCMService) :
    (∀ c, s.clients.get? tenantID = some c →
        (APNSService.getOrCreateClient env db t tenantID s).1.clients.get? tenantID
          = some { c with LastUsed := t } ∧
        (∀ k, k ≠ tenantID →
          (APNSService.getOrCreateClient env db t tenantID s).1.clients.get? k
            = s.clients.get? k) ∧
        (∀ k, k ∈ (APNSService.getOrCreateClient env db t tenantID s).1.clients ↔
          k ∈ s.clients) ∧
        (APNSService.getOrCreateClient env db t tenantID s).1.calls = s.calls ∧
        (APNSService.getOrCreateClient env db t tenantID s).2
          = .ok { c with LastUsed := t } ∧
        (t ≤ t' → t' ≤ t + Hour →
          (APNSService.CleanupOldClients t'
            (APNSService.getOrCreateClient env db t tenantID s).1).clients.get? tenantID
            = some { c with LastUsed := t })) ∧
      (∀ c, f.clients.get? tenantID = some c →
        (FCMService.getOrCreateClient env db t tenantID f).1.clients.get? tenantID
          = some { c with LastUsed := t } ∧
        (∀ k, k ≠ tenantID →
          (FCMService.getOrCreateClient env db t tenantID f).1.clients.get? k
            = f.clients.get? k) ∧
        (∀ k, k ∈ (FCMService.getOrCreateClient env db t tenantID f).1.clients ↔
          k ∈ f.clients) ∧
        (FCMService.getOrCreateClient env db t tenantID f).1.calls = f.calls ∧
        (FCMService.getOrCreateClient env db t tenantID f).2
          = .ok { c with LastUsed := t } ∧
        (t ≤ t' → t' ≤ t + Hour →
          (FCMService.CleanupOldClients t'
            (FCMService.getOrCreateClient env db t tenantID f).1).clients.get? tenantID
            = some { c with LastUsed := t })) := by
  constructor
  · intro c hc
    have hmem : tenantID ∈ s.clients := (GoMap.get?_isSome _ _).1 (by rw [hc]; rfl)
    rw [APNSService.apns_getOrCreateClient_hit env db t tenantID s c hc]
    refine ⟨GoMap.get?_set_self _ _ _, fun k hk => GoMap.get?_set_ne _ _ hk, ?_, rfl, rfl,
      ?_⟩
    · intro k
      rw [GoMap.mem_set]
      constructor
      · rintro (rfl | h)
        · exact hmem
        · exact h
      · exact Or.inr
    · intro _ h2
      rw [APNSService.apns_CleanupOldClients_get?]
      dsimp only
      rw [GoMap.get?_set_self]
      have : ¬ t < t' - Hour := ttl_refreshed_live t t' h2
      simp only [if_neg this]
  · intro c hc
    have hmem : tenantID ∈ f.clients := (GoMap.get?_isSome _ _).1 (by rw [hc]; rfl)
    rw [FCMService.fcm_getOrCreateClient_hit env db t tenantID f c hc]
    refine ⟨GoMap.get?_set_self _ _ _, fun k hk => GoMap.get?_set_ne _ _ hk, ?_, rfl, rfl,
      ?_⟩
    · intro k
      rw [GoMap.mem_set]
      constructor
      · rintro (rfl | h)
        · exact hmem
        · exact h
      · exact Or.inr
    · intro _ h2
      rw [FCMService.fcm_CleanupOldClients_get?]
      dsimp only
      rw [GoMap.get?_set_self]
      have : ¬ t < t' - Hour := ttl_refreshed_live t t' h2
      simp only [if_neg this]

theorem C21_hit_refreshes_lifetime_witness :
    (APNSService.CleanupOldClients (3 * Hour + Hour)
        (APNSService.getOrCreateClient sampleEnv pushStore (3 * Hour) "acme"
          warmAPNS).1).clients.get? "acme"
        = some { sampleAPNSClient with LastUsed := 3 * Hour } ∧
      (APNSService.CleanupOldClients (3 * Hour + Hour) warmAPNS).clients.get? "acme" = none :=
  ⟨((C21_hit_refreshes_lifetime sampleEnv pushStore (3 * Hour) (3 * Hour + Hour) "acme"
      warmAPNS warmFCM).1 sampleAPNSClient (by decide)).2.2.2.2.2 (by decide) (by decide),
    by decide⟩

/-! ## Lemmas: the hour index -/

/-- The hour bucket of an instant depends only on the index of its hour. -/
theorem hourBucket_of_hour_index (t t' : Int) (h : t / Hour = t' / Hour) :
    hourBucket t = hourBucket t' := by
  have hd : unixDays t = unixDays t' := by
    unfold unixDays unixSeconds
    unfold Hour at h
    omega
  have hh : hourOfDay t = hourOfDay t' := by
    unfold hourOfDay unixSeconds
    unfold Hour at h
    omega
  unfold hourBucket dateFields
  rw [hd, hh]

theorem hourOfDay_succ_ne (t t' : Int) (h : t' / Hour = t / Hour + 1) :
    hourOfDay t' ≠ hourOfDay t := by
  unfold hourOfDay unixSeconds
  unfold Hour at h
  omega

/-- Two readings in the same hour: the bucket of `t2 + 1h` is the bucket of the hour
after the one of `t1`. -/
theorem nextHour_of_same_hour (t1 t2 : Int) (h : t1 / Hour = t2 / Hour) :
    hourBucket (t2 + Hour) = hourBucket (t1 + Hour) := by
  apply hourBucket_of_hour_index
  unfold Hour at *
  omega

/-- Readings less than an hour apart on the two sides of an hour boundary: the later one
is in the hour right after the earlier one. -/
theorem hour_index_across (t1 t2 : Int) (h1 : t1 ≤ t2) (h2 : t2 < t1 + Hour)
    (h3 : t1 / Hour < t2 / Hour) :
    t2 / Hour = t1 / Hour + 1 ∧ t2 / Hour = (t1 + Hour) / Hour ∧
      (t2 + Hour) / Hour = t2 / Hour + 1 := by
  unfold Hour at *
  omega

/-! ## Theorems: the two clock readings of a reload -/

/-- C23 fails on the code. When the two clock readings `t1 ≤ t2` of one `LoadAPIKeys`,
less than an hour apart, fall on the two sides of an hour boundary, the bucket of
`t2 + 1h` is not the bucket of the hour after `t1`: the hour after `t1`, which is the
hour of `t2`, is left without digests, and a request carrying the digest of a key for
that hour is answered 401 after the reload, the hash having no collision among that
string and the strings the reload hashed. -/
theorem C23_reload_across_boundary_skips_hour (hash : String → String) (db : Store)
    (t1 t2 : Time) (c : Cache) (k : String) (next : HandlerFunc) (w : ResponseWriter)
    (r : Request) (world : World)
    (hok : (Cache.LoadAPIKeys hash db t1 t2 c).2 = none)
    (hclock : t1 ≤ t2 ∧ t2 < t1 + Hour)
    (hacross : t1 / Hour < t2 / Hour)
    (hfree : CollisionFreeOn hash ((k ++ hourBucket t2) ::
      digestInputs db.enabledKeys (hourBucket t1) (hourBucket (t2 + Hour))))
    (hcache : world.APICache = (Cache.LoadAPIKeys hash db t1 t2 c).1)
    (hheader : r.HeaderGet "Authorization" = "Digest " ++ hash (k ++ hourBucket t2)) :
    hourBucket t2 = hourBucket (t1 + Hour) ∧
      hourBucket (t2 + Hour) ≠ hourBucket (t1 + Hour) ∧
      hourBucket t1 ≠ hourBucket (t1 + Hour) ∧
      AuthMiddleware next w r world =
        (httpError w "Unauthorized: invalid or expired API key" StatusUnauthorized, world) := by
  obtain ⟨hidx, hidx', hidx''⟩ := hour_index_across t1 t2 hclock.1 hclock.2 hacross
  have hsame : hourBucket t2 = hourBucket (t1 + Hour) := hourBucket_of_hour_index _ _ hidx'
  have hcur : hourOfDay t2 ≠ hourOfDay t1 := hourOfDay_succ_ne t1 t2 hidx
  have hnext : hourOfDay (t2 + Hour) ≠ hourOfDay t2 := hourOfDay_succ_ne t2 (t2 + Hour) hidx''
  refine ⟨hsame, ?_, ?_, ?_⟩
  · rw [← hsame]
    exact hourBucket_ne_of_hour _ _ hnext
  · rw [← hsame]
    exact hourBucket_ne_of_hour _ _ (Ne.symm hcur)
  · apply AuthMiddleware_unknown next w r world _ hheader
    rw [hcache]
    have hdb := (Cache.LoadAPIKeys_ok_iff hash db t1 t2 c).1 hok
    rw [Cache.LoadAPIKeys_ok hash db t1 t2 c hdb]
    have hnot : hash (k ++ hourBucket t2) ∉
        (db.enabledKeys.foldl
          (Cache.loadOne hash (hourBucket t1) (hourBucket (t2 + Hour))) NewCache).digests := by
      intro hmem
      rcases (Cache.foldl_digests_mem hash _ _ _ NewCache _).1 hmem with h0 | ⟨r', hr', hd⟩
      · simp [NewCache, GoMap.make] at h0
      · rcases hd with hd | hd
        · have := hfree _ (List.mem_cons_self _ _) _
            (List.mem_cons_of_mem _ (Cache.mem_digestInputs_cur hr')) hd
          exact Cache.hsep_of_hour hcur _ _ this
        · have := hfree _ (List.mem_cons_self _ _) _
            (List.mem_cons_of_mem _ (Cache.mem_digestInputs_next hr')) hd
          exact Cache.hsep_of_hour (Ne.symm hnext) _ _ this
    simp only [Cache.GetTenantIDByDigest, (GoMap.get?_eq_none _ _).2 hnot, Option.getD_none]

theorem C23_reload_across_boundary_skips_hour_witness :
    hourBucket (sampleBoundary - 1) = "2025-11-04-09" ∧
      hourBucket (sampleBoundary + Hour) = "2025-11-04-11" ∧
      (hourBucket sampleBoundary = hourBucket (sampleBoundary - 1 + Hour) ∧
        hourBucket (sampleBoundary + Hour) ≠ hourBucket (sampleBoundary - 1 + Hour) ∧
        hourBucket (sampleBoundary - 1) ≠ hourBucket (sampleBoundary - 1 + Hour) ∧
        AuthMiddleware echoHandler ResponseWriter.fresh
          (requestWithAuth ("Digest " ++ sampleHash ("k1" ++ hourBucket sampleBoundary)))
          (worldWithCache (Cache.LoadAPIKeys sampleHash sampleStore (sampleBoundary - 1)
            sampleBoundary NewCache).1) =
          (httpError ResponseWriter.fresh "Unauthorized: invalid or expired API key"
            StatusUnauthorized,
            worldWithCache (Cache.LoadAPIKeys sampleHash sampleStore (sampleBoundary - 1)
              sampleBoundary NewCache).1)) ∧
      (AuthMiddleware echoHandler ResponseWriter.fresh
        (requestWithAuth ("Digest " ++ sampleHash ("k1" ++ hourBucket sampleBoundary)))
        (worldWithCache (Cache.LoadAPIKeys sampleHash sampleStore (sampleBoundary - 1)
          (sampleBoundary - 1) NewCache).1)).1
        = writeSuccess ResponseWriter.fresh "ok" "acme" :=
  ⟨by decide, by decide,
    C23_reload_across_boundary_skips_hour sampleHash sampleStore (sampleBoundary - 1)
      sampleBoundary NewCache "k1" echoHandler ResponseWriter.fresh _ _ (by decide)
      (by decide) (by decide) (CollisionFreeOn_sampleHash _) rfl (by decide),
    by decide⟩

/-! ## Lemmas: the wake-up instant of the refresher -/

theorem unixToInternal_eq : unixToInternal = 62135596800 := by decide

/-- The wake-up instant is a whole hour, counted from the Unix epoch as well as from the
zero time, lies in `(now, now + 1h]` and in the hour right after the hour of `now`. -/
theorem refresherNext_bounds (now : Int) :
    Cache.refresherNext now % Hour = 0 ∧
      (Cache.refresherNext now + unixToInternal * 1000000000) % Hour = 0 ∧
      now < Cache.refresherNext now ∧ Cache.refresherNext now ≤ now + Hour ∧
      Cache.refresherNext now / Hour = now / Hour + 1 ∧
      Cache.refresherNext now / Hour = (now + Hour) / Hour := by
  have hpos : ¬ Hour ≤ 0 := by decide
  unfold Cache.refresherNext Time.Truncate
  rw [if_neg hpos, unixToInternal_eq]
  unfold Hour
  delta Time
  omega

theorem refresherNext_least (now b : Int) (hb : b % Hour = 0) (hlt : now < b) :
    Cache.refresherNext now ≤ b := by
  have hpos : ¬ Hour ≤ 0 := by decide
  unfold Cache.refresherNext Time.Truncate
  rw [if_neg hpos, unixToInternal_eq]
  unfold Hour at *
  delta Time
  omega

/-- The saturating difference keeps the sign and never exceeds a bound that is itself a
duration. -/
theorem Sub_bounds (t u : Int) :
    (0 < Time.Sub t u ↔ u < t) ∧ (t - u ≤ Hour → Time.Sub t u ≤ Hour) ∧
      (minDuration ≤ t - u → t - u ≤ maxDuration → Time.Sub t u = t - u) ∧
      (t ≤ u → Time.Sub t u ≤ 0) := by
  unfold Time.Sub minDuration maxDuration Hour
  delta Time
  split
  · omega
  · split
    · omega
    · omega

theorem refresherSleep_bounds (now now' : Int) (h : now ≤ now') :
    Cache.refresherSleep now now' ≤ Hour ∧
      (0 < Cache.refresherSleep now now' ↔ now' < Cache.refresherNext now) := by
  obtain ⟨_, _, _, h4, _, _⟩ := refresherNext_bounds now
  obtain ⟨s1, s2, _, _⟩ := Sub_bounds (Cache.refresherNext now) now'
  unfold Cache.refresherSleep Until
  delta Time at *
  exact ⟨s2 (by omega), s1⟩

/-- A sleep that returned as `time.Sleep` guarantees returned at or after the wake-up
instant. -/
theorem wake_after_next (now now' t1 : Int) (h : now ≤ now')
    (hs : sleepReturns now' (Cache.refresherSleep now now') t1 = true) :
    Cache.refresherNext now ≤ t1 := by
  obtain ⟨_, _, _, h4, _, _⟩ := refresherNext_bounds now
  obtain ⟨_, _, s3, s4⟩ := Sub_bounds (Cache.refresherNext now) now'
  unfold sleepReturns at hs
  simp only [Bool.and_eq_true, decide_eq_true_eq] at hs
  unfold Cache.refresherSleep Until at hs
  delta Time at *
  by_cases hn : now' < Cache.refresherNext now
  · have e := s3 (by unfold minDuration; omega) (by unfold maxDuration Hour at *; omega)
    rw [e] at hs
    omega
  · omega

theorem hour_index_mono (t t' : Int) (h : t ≤ t') : t / Hour ≤ t' / Hour := by
  unfold Hour
  omega

theorem hour_index_within (next t : Int) (hn : next % Hour = 0) (h1 : next ≤ t)
    (h2 : t < next + Hour) : t / Hour = next / Hour := by
  unfold Hour at *
  omega

/-! ## Theorems: the wake-up instant of the refresher -/

/-- C22 as stated fails: `time.Until` reads the clock again. In a turn whose first
reading is one nanosecond before the boundary 10:00:00 and whose second reading is at
the boundary, the wake-up instant is 10:00:00 and the sleep duration is `0`, outside
`(0, 1h]`; the sleep begins and the reload runs in the same hour bucket. -/
theorem C22_counterexample_clock_passes_boundary :
    Cache.turnOrdered boundaryTurn = true ∧
      Cache.refresherNext boundaryTurn.now = sampleBoundary ∧
      Cache.refresherSleep boundaryTurn.now boundaryTurn.untilNow = 0 ∧
      ¬ (0 < Cache.refresherSleep boundaryTurn.now boundaryTurn.untilNow ∧
        Cache.refresherSleep boundaryTurn.now boundaryTurn.untilNow ≤ Hour) ∧
      hourBucket boundaryTurn.now = "2025-11-04-09" ∧
      hourBucket boundaryTurn.untilNow = "2025-11-04-10" ∧
      hourBucket boundaryTurn.load1 = "2025-11-04-10" := by
  decide

/-- C22 (amended). For every instant `now`, the wake-up instant
`now.Truncate(1h) + 1h` is the least whole-UTC-hour boundary strictly greater than
`now`: a multiple of one hour, strictly after `now`, at most one hour after `now`, and
its hour bucket is the one right after the bucket of `now`. Measured from `now` the
sleep duration is in `(0, 1h]`; measured, as `time.Until` does, from a later reading
`untilNow ≥ now`, it is at most `1h` and positive exactly when `untilNow` is still
before the wake-up instant. A sleep that returned as `time.Sleep` guarantees is followed
by a reload whose clock reading is at or after the wake-up instant: in a later hour
than `now`, and in the bucket right after the bucket of `now` when the reading is less
than an hour after the wake-up instant. -/
theorem C22_wake_up_next_hour_boundary (hash : String → String) (db : Store) (c : Cache)
    (turn : RefresherTurn) :
    (Cache.refresherNext turn.now % Hour = 0 ∧
        turn.now < Cache.refresherNext turn.now ∧
        Cache.refresherNext turn.now ≤ turn.now + Hour ∧
        (∀ b : Time, b % Hour = 0 → turn.now < b → Cache.refresherNext turn.now ≤ b)) ∧
      (hourBucket (Cache.refresherNext turn.now) = hourBucket (turn.now + Hour) ∧
        hourBucket (Cache.refresherNext turn.now) ≠ hourBucket turn.now) ∧
      (0 < Cache.refresherSleep turn.now turn.now ∧
        Cache.refresherSleep turn.now turn.now ≤ Hour) ∧
      (Cache.turnOrdered turn = true →
        Cache.refresherSleep turn.now turn.untilNow ≤ Hour ∧
        (0 < Cache.refresherSleep turn.now turn.untilNow ↔
          turn.untilNow < Cache.refresherNext turn.now) ∧
        Cache.StartDigestRefresher hash db [turn] c
          = (Cache.LoadAPIKeys hash db turn.load1 turn.load2 c).1 ∧
        Cache.refresherNext turn.now ≤ turn.load1 ∧
        turn.now / Hour < turn.load1 / Hour ∧
        (turn.load1 < Cache.refresherNext turn.now + Hour →
          hourBucket turn.load1 = hourBucket (turn.now + Hour))) := by
  obtain ⟨h1, _, h3, h4, h5, h6⟩ := refresherNext_bounds turn.now
  refine ⟨⟨h1, h3, h4, fun b hb hlt => refresherNext_least turn.now b hb hlt⟩,
    ⟨hourBucket_of_hour_index _ _ h6, ?_⟩, ?_, ?_⟩
  · exact hourBucket_ne_of_hour _ _ (hourOfDay_succ_ne _ _ h5)
  · obtain ⟨s1, s2⟩ := refresherSleep_bounds turn.now turn.now (le_refl _)
    exact ⟨s2.2 h3, s1⟩
  · intro hord
    unfold Cache.turnOrdered at hord
    simp only [Bool.and_eq_true, decide_eq_true_eq] at hord
    obtain ⟨⟨hnow, hsleep⟩, _⟩ := hord
    obtain ⟨s1, s2⟩ := refresherSleep_bounds turn.now turn.untilNow hnow
    have hwake := wake_after_next turn.now turn.untilNow turn.load1 hnow hsleep
    have hidx := hour_index_mono _ _ hwake
    refine ⟨s1, s2, rfl, hwake, ?_, ?_⟩
    · have : turn.now / Hour + 1 ≤ turn.load1 / Hour := h5 ▸ hidx
      exact Int.lt_of_lt_of_le (Int.lt_succ_self _) this
    · intro hlt
      apply hourBucket_of_hour_index
      rw [hour_index_within _ _ h1 hwake hlt, h6]

theorem C22_wake_up_next_hour_boundary_witness :
    Cache.turnOrdered sampleTurn = true ∧
      Cache.refresherNext sampleTurn.now = sampleBoundary ∧
      Cache.refresherSleep sampleTurn.now sampleTurn.untilNow = 399999999950 ∧
      hourBucket sampleTurn.now = "2025-11-04-09" ∧
      hourBucket sampleTurn.load1 = "2025-11-04-10" ∧
      hourBucket sampleTurn.load1 = hourBucket (sampleTurn.now + Hour) :=
  ⟨by decide, by decide, by decide, by decide, by decide,
    ((C22_wake_up_next_hour_boundary sampleHash sampleStore NewCache sampleTurn).2.2.2
      (by decide)).2.2.2.2.2 (by decide)⟩

end Signal
